import Mathlib

/-!
TestSketch_MoveTesting: the ClearCore movement test sketch.

A shallow embedding of `UnitTests/TestSketches/TestSketch_MoveTesting.cpp`.

The sketch is sequential code that talks to collaborators it does not define: the
motor driver, the serial port, the clock and the random generator.  Every call
to one of them is a `Call`; the collaborators together are an arbitrary
transition system `Env σ` answering each call with an integer (C++ `bool` and
enumerators are integers, `void` answers are ignored).  The sketch itself is
explicit state passing over a `World`: the state of the collaborators, the
global `testNum`, and the history of the calls made so far.

Loops that poll (`while (...)`) run on fuel: `Outcome.spinning` is the state
reached when the fuel runs out inside a loop, so "never returns" is "spinning
for every amount of fuel".
-/

namespace MoveTesting

/-! ## Values -/

/-- The value of a C++ `int32_t` expression whose mathematical value is `x`
(two's complement wrap-around). -/
def wrapInt32 (x : Int) : Int := (x + 2147483648) % 4294967296 - 2147483648

/-- The value of a C++ `uint32_t` expression whose mathematical value is `x`. -/
def wrapUInt32 (x : Int) : Int := x % 4294967296

/-- C++ conversion of an integer answer to `bool`. -/
def asBool (r : Int) : Bool := r != 0

/-- Motor connectors: the options listed beside the definition of `motor` (line 30). -/
inductive Connector where
  | ConnectorM0
  | ConnectorM1
  | ConnectorM2
  | ConnectorM3
  deriving DecidableEq

/-- Line 31: `#define motor ConnectorM1`. -/
def motor : Connector := Connector.ConnectorM1

/-- Line 34: `#define baudRate 115200`. -/
def baudRate : Int := 115200

/-- Line 37: `int velocityLimit = 10000;`. -/
def velocityLimit : Int := 10000

/-- Line 38: `int accelerationLimit = 100000;`. -/
def accelerationLimit : Int := 100000

/-- The two `StepGenerator::MOVE_TARGET` enumerators the sketch passes to `Move`. -/
inductive MOVE_TARGET where
  | MOVE_TARGET_ABSOLUTE
  | MOVE_TARGET_REL_END_POSN
  deriving DecidableEq

/-- Modelled from the spec: the enumerator `MotorDriver::HLFB_ASSERTED`, declared in the
library header `MotorDriver.h`, which is not under src/.  Only equality with it is used. -/
def HLFB_ASSERTED : Int := 1

/-- An argument of `Serial.print` / `Serial.println`. -/
inductive Printed where
  | text (s : String)
  | num (v : Int)
  deriving DecidableEq

/-! ## Calls to the collaborators -/

/-- Member functions of a motor connector that the sketch calls. -/
inductive MotorCall where
  | VelMax (v : Int)
  | AccelMax (a : Int)
  | EnableRequestSet (b : Bool)
  | EnableRequest
  | IsInHwFault
  | StatusReg
  | HlfbState
  | Move (target : Int) (moveType : MOVE_TARGET)
  | MoveVelocity (v : Int)
  | StepsComplete
  | CruiseVelocityReached
  | PositionRefCommanded
  | VelocityRefCommanded
  deriving DecidableEq

/-- Every call the sketch makes outside itself. -/
inductive Call where
  /-- The call `MotorMgr.MotorInputClocking(MotorManager::CLOCK_RATE_NORMAL)`. -/
  | MotorInputClocking
  /-- The call `MotorMgr.MotorModeSet(MotorManager::MOTOR_ALL, Connector::CPM_MODE_STEP_AND_DIR)`. -/
  | MotorModeSet
  /-- The call `c.m(...)` for a motor connector `c`. -/
  | onMotor (c : Connector) (m : MotorCall)
  | Serial_ttl (b : Bool)
  | Serial_begin (baud : Int)
  /-- The object `Serial` converted to `bool`. -/
  | Serial_isOpen
  | Serial_print (a : Printed)
  | Serial_println (a : Printed)
  | millis
  | delay (ms : Int)
  /-- The call `random(howbig)`. -/
  | random (howbig : Int)
  /-- The call `random(howsmall, howbig)`. -/
  | randomRange (howsmall howbig : Int)
  deriving DecidableEq

/-- The sketch's own helper functions; entering one is recorded in the history. -/
inductive Helper where
  | WaitForMotorStop
  | WaitForMotorCruise
  | AssertPosition (targetPos : Int)
  | AssertVelocity (targetVel : Int)
  deriving DecidableEq

/-- One entry of the history: a call with its answer, or the entry into a helper. -/
inductive Event where
  | call (c : Call) (r : Int)
  | enter (h : Helper)
  deriving DecidableEq

/-- The collaborators as a transition system: a state and a call give the answer
and the next state. -/
abbrev Env (σ : Type) := σ → Call → Int × σ

/-- Everything the sketch can observe or change: the collaborators' state, the
global `int testNum` (line 115), and the history, newest event first. -/
structure World (σ : Type) where
  ext : σ
  testNum : Int
  trace : List Event

/-- Result of running a piece of the sketch on some fuel. -/
inductive Outcome (σ α : Type) where
  | returned (a : α) (w : World σ)
  | spinning (w : World σ)

/-- The world an outcome ends in. -/
def Outcome.world {σ α : Type} : Outcome σ α → World σ
  | Outcome.returned _ w => w
  | Outcome.spinning w => w

/-- Whether the outcome is a return. -/
def Outcome.isReturned {σ α : Type} : Outcome σ α → Bool
  | Outcome.returned _ _ => true
  | Outcome.spinning _ => false

/-- An outcome satisfies `Q` if it is a return and `S` if it is spinning. -/
def Outcome.holds {σ α : Type} (Q : α → World σ → Prop) (S : World σ → Prop) :
    Outcome σ α → Prop
  | Outcome.returned a w => Q a w
  | Outcome.spinning w => S w

/-- A piece of sketch code: fuel for its loops and a world give an outcome. -/
def Sketch (σ α : Type) : Type := Nat → World σ → Outcome σ α

/-- Sequencing: a spinning first part never reaches the second. -/
def Sketch.bind {σ α β : Type} (m : Sketch σ α) (f : α → Sketch σ β) : Sketch σ β :=
  fun fuel w =>
    match m fuel w with
    | Outcome.returned a w1 => f a fuel w1
    | Outcome.spinning w1 => Outcome.spinning w1

/-- Returning a value changes nothing. -/
def Sketch.pure {σ α : Type} (a : α) : Sketch σ α := fun _ w => Outcome.returned a w

instance {σ : Type} : Monad (Sketch σ) where
  pure := Sketch.pure
  bind := Sketch.bind

/-- Make one call: the collaborators answer and move on, the history grows. -/
def call {σ : Type} (E : Env σ) (c : Call) : Sketch σ Int := fun _ w =>
  Outcome.returned (E w.ext c).1
    { w with ext := (E w.ext c).2, trace := Event.call c (E w.ext c).1 :: w.trace }

/-- Record the entry into a helper function. -/
def enter {σ : Type} (h : Helper) : Sketch σ Unit := fun _ w =>
  Outcome.returned () { w with trace := Event.enter h :: w.trace }

/-- Read the global `testNum`. -/
def getTestNum {σ : Type} : Sketch σ Int := fun _ w => Outcome.returned w.testNum w

/-- The statement `testNum++;` on a 32-bit `int`. -/
def incrTestNum {σ : Type} : Sketch σ Unit := fun _ w =>
  Outcome.returned () { w with testNum := wrapInt32 (w.testNum + 1) }

/-- Iterations of `while (cond) body`, at most `n` of them. -/
def whileGo {σ : Type} (cond : Sketch σ Bool) (body : Sketch σ Unit) (fuel : Nat) :
    Nat → World σ → Outcome σ Unit
  | 0, w => Outcome.spinning w
  | n + 1, w =>
    match cond fuel w with
    | Outcome.returned true w1 =>
      match body fuel w1 with
      | Outcome.returned _ w2 => whileGo cond body fuel n w2
      | Outcome.spinning w2 => Outcome.spinning w2
    | Outcome.returned false w1 => Outcome.returned () w1
    | Outcome.spinning w1 => Outcome.spinning w1

/-- The statement `while (cond) body`. -/
def whileLoop {σ : Type} (cond : Sketch σ Bool) (body : Sketch σ Unit) : Sketch σ Unit :=
  fun fuel w => whileGo cond body fuel fuel w

/-- The statement `for (int i = 0; i < n; i++) body`, where `body` maps the
variables it assigns before an iteration to their values after it. -/
def forLoop {σ β : Type} (body : β → Sketch σ β) : Nat → β → Sketch σ β
  | 0, s => Sketch.pure s
  | n + 1, s => Sketch.bind (body s) (forLoop body n)

/-- The statement `Serial.print(a);`. -/
def Serial_print {σ : Type} (E : Env σ) (a : Printed) : Sketch σ Unit := do
  let _ ← call E (Call.Serial_print a)

/-- The statement `Serial.println(a);`. -/
def Serial_println {σ : Type} (E : Env σ) (a : Printed) : Sketch σ Unit := do
  let _ ← call E (Call.Serial_println a)

/-- The statement `delay(ms);`. -/
def delay {σ : Type} (E : Env σ) (ms : Int) : Sketch σ Unit := do
  let _ ← call E (Call.delay ms)

/-- A call `motor.m(...)` whose answer is used. -/
def motorGet {σ : Type} (E : Env σ) (m : MotorCall) : Sketch σ Int :=
  call E (Call.onMotor motor m)

/-- A call `motor.m(...)` whose answer is dropped. -/
def motorDo {σ : Type} (E : Env σ) (m : MotorCall) : Sketch σ Unit := do
  let _ ← call E (Call.onMotor motor m)

/-! ## The helper functions (lines 767 to 817) -/

/-- Lines 767-771:
`void WaitForMotorStop(){ while (!motor.StepsComplete()) { continue; } }` -/
def WaitForMotorStop {σ : Type} (E : Env σ) : Sketch σ Unit := do
  enter Helper.WaitForMotorStop
  whileLoop
    (do let done ← motorGet E MotorCall.StepsComplete
        pure (!(asBool done)))
    (pure ())

/-- Lines 773-777:
`while (!motor.CruiseVelocityReached() && !motor.StepsComplete()) { continue; }`;
the right operand of `&&` is evaluated only when the left one is true. -/
def WaitForMotorCruise {σ : Type} (E : Env σ) : Sketch σ Unit := do
  enter Helper.WaitForMotorCruise
  whileLoop
    (do let cruise ← motorGet E MotorCall.CruiseVelocityReached
        if !(asBool cruise) then
          let done ← motorGet E MotorCall.StepsComplete
          pure (!(asBool done))
        else
          pure false)
    (pure ())

/-- Lines 779-797: `void AssertPosition(int32_t targetPos)`. -/
def AssertPosition {σ : Type} (E : Env σ) (targetPos : Int) : Sketch σ Unit := do
  enter (Helper.AssertPosition targetPos)
  let measuredPos ← motorGet E MotorCall.PositionRefCommanded
  (if measuredPos ≠ targetPos then do
    Serial_print E (Printed.text "Motor Position Assert Failed. Test Num ")
    Serial_println E (Printed.num (← getTestNum))
    Serial_print E (Printed.text "    Desired Position: ")
    Serial_println E (Printed.num targetPos)
    Serial_print E (Printed.text "    Actual Position:  ")
    Serial_println E (Printed.num measuredPos)
    whileLoop (pure true) (delay E 100)
  else pure ())
  Serial_print E (Printed.text "  Position Test Finished:")
  Serial_println E (Printed.num (← getTestNum))
  incrTestNum

/-- Lines 799-817: `void AssertVelocity(int32_t targetVel)`. -/
def AssertVelocity {σ : Type} (E : Env σ) (targetVel : Int) : Sketch σ Unit := do
  enter (Helper.AssertVelocity targetVel)
  let measuredVel ← motorGet E MotorCall.VelocityRefCommanded
  (if measuredVel ≠ targetVel then do
    Serial_print E (Printed.text "Motor Velocity Assert Failed. Test Num ")
    Serial_println E (Printed.num (← getTestNum))
    Serial_print E (Printed.text "    Desired Velocity: ")
    Serial_println E (Printed.num targetVel)
    Serial_print E (Printed.text "    Actual Velocity:  ")
    Serial_println E (Printed.num measuredVel)
    Serial_println E (Printed.text "Tests Finished with Issues")
    whileLoop (pure true) (delay E 100)
  else pure ())
  Serial_print E (Printed.text "  Veloctity Test Finished:")
  Serial_println E (Printed.num (← getTestNum))
  incrTestNum

/-! ## setup (lines 51 to 113) -/

/-- The expression `millis()`, a `uint32_t`. -/
def millis {σ : Type} (E : Env σ) : Sketch σ Int := do
  let now ← call E Call.millis
  pure (wrapUInt32 now)

/-- The statement `while(true) { continue; }` that blocks after a failure. -/
def blockForever {σ : Type} : Sketch σ Unit := whileLoop (pure true) (pure ())

/-- Lines 56-66 of `setup`: clocking, motor mode, velocity and acceleration limits. -/
def setup_configure {σ : Type} (E : Env σ) : Sketch σ Unit := do
  let _ ← call E Call.MotorInputClocking
  let _ ← call E Call.MotorModeSet
  motorDo E (MotorCall.VelMax velocityLimit)
  motorDo E (MotorCall.AccelMax accelerationLimit)

/-- Line 74 of `setup`: the loop condition `!Serial && millis() - startTime < timeout`;
`millis()` is read only when `Serial` is not open. -/
def setup_serialCond {σ : Type} (E : Env σ) (startTime timeout : Int) : Sketch σ Bool := do
  let isOpen ← call E Call.Serial_isOpen
  if !(asBool isOpen) then
    let now ← millis E
    pure (decide (wrapUInt32 (now - startTime) < timeout))
  else
    pure false

/-- Lines 74-76 of `setup`: the wait
`while (!Serial && millis() - startTime < timeout) { continue; }`. -/
def setup_serialLoop {σ : Type} (E : Env σ) (startTime timeout : Int) : Sketch σ Unit :=
  whileLoop (setup_serialCond E startTime timeout) (pure ())

/-- Lines 70-76 of `setup`: open the serial port and wait up to five seconds for it. -/
def setup_serialWait {σ : Type} (E : Env σ) : Sketch σ Unit := do
  let _ ← call E (Call.Serial_ttl false)
  let _ ← call E (Call.Serial_begin baudRate)
  let timeout : Int := 5000
  let startTime ← millis E
  setup_serialLoop E startTime timeout

/-- Lines 79-87 of `setup`: request enable and report the enable state. -/
def setup_enable {σ : Type} (E : Env σ) : Sketch σ Unit := do
  motorDo E (MotorCall.EnableRequestSet true)
  let en ← motorGet E MotorCall.EnableRequest
  (if asBool en then
    Serial_println E (Printed.text "Motor Enabled")
  else
    Serial_println E (Printed.text "Motor Not Enabled"))

/-- Lines 56-87 of `setup`: everything before the hardware fault check. -/
def setup_beforeFaultCheck {σ : Type} (E : Env σ) : Sketch σ Unit := do
  setup_configure E
  setup_serialWait E
  setup_enable E

/-- Lines 89-94 of `setup`: the hardware fault check. -/
def setup_faultCheck {σ : Type} (E : Env σ) : Sketch σ Unit := do
  let fault ← motorGet E MotorCall.IsInHwFault
  (if asBool fault then do
    Serial_println E (Printed.text "Motor is in a fault state, test failure")
    blockForever
  else pure ())

/-- Line 103 of `setup`: the loop condition
`motor.HlfbState() != MotorDriver::HLFB_ASSERTED`. -/
def setup_hlfbCond {σ : Type} (E : Env σ) : Sketch σ Bool := do
  let hlfb ← motorGet E MotorCall.HlfbState
  pure (decide (hlfb ≠ HLFB_ASSERTED))

/-- Lines 104-110 of `setup`: the body of the HLFB wait,
`if (millis() - startTime > timeout) { ...; while(true) { continue; } } continue;`. -/
def setup_hlfbBody {σ : Type} (E : Env σ) (startTime timeout : Int) : Sketch σ Unit := do
  let now ← millis E
  (if wrapUInt32 (now - startTime) > timeout then do
    Serial_println E (Printed.text "Timeout waiting for HLFB, Test Setup Failure")
    Serial_println E (Printed.text "Tests Finished with issues")
    blockForever
  else pure ())

/-- Lines 103-111 of `setup`: the wait for HLFB,
`while (motor.HlfbState() != MotorDriver::HLFB_ASSERTED) { ... }`. -/
def setup_hlfbLoop {σ : Type} (E : Env σ) (startTime timeout : Int) : Sketch σ Unit :=
  whileLoop (setup_hlfbCond E) (setup_hlfbBody E startTime timeout)

/-- Lines 96-102 of `setup`: print the status register and take the start time of the
HLFB wait; the value is `startTime`. -/
def setup_beforeHlfbLoop {σ : Type} (E : Env σ) : Sketch σ Int := do
  Serial_print E (Printed.text "Motor Status Reg: ")
  Serial_println E (Printed.num (← motorGet E MotorCall.StatusReg))
  Serial_println E (Printed.text "Waiting for HLFB...")
  millis E

/-- Lines 96-112 of `setup`: everything after the hardware fault check. -/
def setup_afterFaultCheck {σ : Type} (E : Env σ) : Sketch σ Unit := do
  let startTime ← setup_beforeHlfbLoop E
  let timeout : Int := 3600
  setup_hlfbLoop E startTime timeout
  Serial_println E (Printed.text "Motor Ready")

/-- Lines 51-113: `void setup()`. -/
def setup {σ : Type} (E : Env σ) : Sketch σ Unit := do
  setup_beforeFaultCheck E
  setup_faultCheck E
  setup_afterFaultCheck E

/-! ## loop (lines 116 to 762) -/

/-- The expression `random(howbig)`. -/
def random {σ : Type} (E : Env σ) (howbig : Int) : Sketch σ Int :=
  call E (Call.random howbig)

/-- The expression `random(howsmall, howbig)`. -/
def randomRange {σ : Type} (E : Env σ) (howsmall howbig : Int) : Sketch σ Int :=
  call E (Call.randomRange howsmall howbig)

/-- The statement `motor.Move(target, moveType);` (the `bool` it returns is dropped). -/
def Move {σ : Type} (E : Env σ) (target : Int) (moveType : MOVE_TARGET) : Sketch σ Unit :=
  motorDo E (MotorCall.Move target moveType)

/-- The statement `motor.MoveVelocity(velocity);` (the `bool` it returns is dropped). -/
def MoveVelocity {σ : Type} (E : Env σ) (velocity : Int) : Sketch σ Unit :=
  motorDo E (MotorCall.MoveVelocity velocity)

/-- The variables of `loop` that live across its sections: `int32_t targetPos = 0;` and
`int32_t oldTargetPos;` (lines 118-119). -/
structure Vars where
  targetPos : Int
  oldTargetPos : Int
  deriving DecidableEq

/-- Lines 177-182 and the five blocks after it: one non-interrupted absolute move,
`targetPos = t; motor.Move(targetPos, moveType); WaitForMotorStop(); AssertPosition(targetPos); delay(500);`. -/
def loop_absoluteMove {σ : Type} (E : Env σ) (moveType : MOVE_TARGET) (t : Int) :
    Sketch σ Int := do
  let targetPos := t
  Move E targetPos moveType
  WaitForMotorStop E
  AssertPosition E targetPos
  delay E 500
  pure targetPos

/-- Lines 231-258: the body of the loop of interrupted absolute moves. -/
def loop_absoluteBody {σ : Type} (E : Env σ) (moveType : MOVE_TARGET) (v : Vars) :
    Sketch σ Vars := do
  let absoluteMove1 ← randomRange E (-50000) 50000
  let absoluteMove2 ← randomRange E (-50000) 50000
  let delayBetweenMoves ← random E 1000
  let oldTargetPos := v.targetPos
  let targetPos := absoluteMove2
  Serial_print E (Printed.text "  Random Relative Position Move Test ")
  Serial_println E (Printed.num (← getTestNum))
  Serial_print E (Printed.text "    Starting Position: ")
  Serial_println E (Printed.num oldTargetPos)
  Serial_print E (Printed.text "    Absolute Move 1: ")
  Serial_println E (Printed.num absoluteMove1)
  Serial_print E (Printed.text "    Absolute Move 2: ")
  Serial_println E (Printed.num absoluteMove2)
  Serial_print E (Printed.text "    Time Between: ")
  Serial_println E (Printed.num delayBetweenMoves)
  Serial_print E (Printed.text "    Final Position: ")
  Serial_println E (Printed.num targetPos)
  Move E absoluteMove1 moveType
  delay E delayBetweenMoves
  Move E absoluteMove2 moveType
  WaitForMotorStop E
  AssertPosition E targetPos
  delay E 100
  pure { targetPos := targetPos, oldTargetPos := oldTargetPos }

/-- Lines 170-261: the section "Absolute Moves". -/
def loop_absolute {σ : Type} (E : Env σ) (absoluteTestsNum : Int) (v : Vars) :
    Sketch σ Vars := do
  Serial_println E (Printed.text "Testing Absolute Position Moves...")
  Serial_println E (Printed.text "  Non-interrupted Moves")
  let moveType := MOVE_TARGET.MOVE_TARGET_ABSOLUTE
  let _ ← loop_absoluteMove E moveType 5000
  let _ ← loop_absoluteMove E moveType 0
  let _ ← loop_absoluteMove E moveType (-10000)
  let _ ← loop_absoluteMove E moveType (-2000)
  let _ ← loop_absoluteMove E moveType (-2100)
  let _ ← loop_absoluteMove E moveType (-2000)
  Serial_println E (Printed.text "  ... Interrupted Moves")
  let targetPos := 0
  Move E targetPos moveType
  WaitForMotorStop E
  let moveType := MOVE_TARGET.MOVE_TARGET_ABSOLUTE
  let v ← forLoop (loop_absoluteBody E moveType) absoluteTestsNum.toNat
    { v with targetPos := targetPos }
  Serial_println E (Printed.text "Finished Testing Absolute Position Moves.")
  pure v

/-- Lines 283-288 and the four blocks after it: one non-interrupted relative move,
`targetPos += relativeMove; motor.Move(relativeMove, moveType); WaitForMotorStop(); AssertPosition(targetPos); delay(500);`. -/
def loop_relativeMove {σ : Type} (E : Env σ) (moveType : MOVE_TARGET)
    (targetPos relativeMove : Int) : Sketch σ Int := do
  let targetPos := wrapInt32 (targetPos + relativeMove)
  Move E relativeMove moveType
  WaitForMotorStop E
  AssertPosition E targetPos
  delay E 500
  pure targetPos

/-- Lines 270-371: the hardcoded part of the section "Relative Moves"; the value is the
variables when the random loop starts. -/
def loop_relativeFixed {σ : Type} (E : Env σ) : Sketch σ Vars := do
  Serial_println E (Printed.text "Testing Relative Position Moves...")
  let relativeMove := 1000
  let moveType := MOVE_TARGET.MOVE_TARGET_ABSOLUTE
  let targetPos := 0
  Move E targetPos moveType
  WaitForMotorStop E
  delay E 500
  let moveType := MOVE_TARGET.MOVE_TARGET_REL_END_POSN
  let targetPos ← loop_relativeMove E moveType targetPos relativeMove
  let relativeMove := -2000
  let targetPos ← loop_relativeMove E moveType targetPos relativeMove
  let relativeMove := -10000
  let targetPos ← loop_relativeMove E moveType targetPos relativeMove
  let relativeMove := 7000
  let targetPos ← loop_relativeMove E moveType targetPos relativeMove
  let relativeMove := 38000
  let targetPos ← loop_relativeMove E moveType targetPos relativeMove
  Serial_println E (Printed.text "  ... Interrupted Moves")
  let moveType := MOVE_TARGET.MOVE_TARGET_REL_END_POSN
  let relativeMove2 := 4000
  let relativeMove := -7000
  let delayBetweenMoves := 500
  let targetPos := wrapInt32 (targetPos + wrapInt32 (relativeMove + relativeMove2))
  Move E relativeMove moveType
  delay E delayBetweenMoves
  Move E relativeMove2 moveType
  WaitForMotorStop E
  AssertPosition E targetPos
  delay E 500
  let relativeMove := -1800
  let relativeMove2 := 1000
  let delayBetweenMoves := 110
  let oldTargetPos := targetPos
  let targetPos := wrapInt32 (targetPos + wrapInt32 (relativeMove + relativeMove2))
  Serial_print E (Printed.text "  Random Relative Position Move Test ")
  Serial_println E (Printed.num (← getTestNum))
  Serial_print E (Printed.text "    Starting Position: ")
  Serial_println E (Printed.num oldTargetPos)
  Serial_print E (Printed.text "    Rel Move 1: ")
  Serial_println E (Printed.num relativeMove)
  Serial_print E (Printed.text "    Rel Move 2: ")
  Serial_println E (Printed.num relativeMove2)
  Serial_print E (Printed.text "    Time Between: ")
  Serial_println E (Printed.num delayBetweenMoves)
  Serial_print E (Printed.text "    Final Position: ")
  Serial_println E (Printed.num targetPos)
  Move E relativeMove moveType
  delay E delayBetweenMoves
  Move E relativeMove2 moveType
  WaitForMotorStop E
  AssertPosition E targetPos
  delay E 100
  pure { targetPos := targetPos, oldTargetPos := oldTargetPos }

/-- Lines 375-402: the body of the loop of random interrupted relative moves. -/
def loop_relativeBody {σ : Type} (E : Env σ) (moveType : MOVE_TARGET) (v : Vars) :
    Sketch σ Vars := do
  let relativeMove ← randomRange E (-50000) 50000
  let relativeMove2 ← randomRange E (-50000) 50000
  let delayBetweenMoves ← random E 1000
  let oldTargetPos := v.targetPos
  let targetPos := wrapInt32 (v.targetPos + wrapInt32 (relativeMove + relativeMove2))
  Serial_print E (Printed.text "  Random Relative Position Move Test ")
  Serial_println E (Printed.num (← getTestNum))
  Serial_print E (Printed.text "    Starting Position: ")
  Serial_println E (Printed.num oldTargetPos)
  Serial_print E (Printed.text "    Rel Move 1: ")
  Serial_println E (Printed.num relativeMove)
  Serial_print E (Printed.text "    Rel Move 2: ")
  Serial_println E (Printed.num relativeMove2)
  Serial_print E (Printed.text "    Time Between: ")
  Serial_println E (Printed.num delayBetweenMoves)
  Serial_print E (Printed.text "    Final Position: ")
  Serial_println E (Printed.num targetPos)
  Move E relativeMove moveType
  delay E delayBetweenMoves
  Move E relativeMove2 moveType
  WaitForMotorStop E
  AssertPosition E targetPos
  delay E 100
  pure { targetPos := targetPos, oldTargetPos := oldTargetPos }

/-- Lines 268-406: the section "Relative Moves". -/
def loop_relative {σ : Type} (E : Env σ) (relRandTestsNum : Int) :
    Sketch σ Vars := do
  let v ← loop_relativeFixed E
  let moveType := MOVE_TARGET.MOVE_TARGET_REL_END_POSN
  let v ← forLoop (loop_relativeBody E moveType) relRandTestsNum.toNat v
  Serial_println E (Printed.text "Finished Testing Relative Position Moves.")
  pure v

/-- Lines 423-438: the body of the loop of simple velocity moves. -/
def loop_velocitySimpleBody {σ : Type} (E : Env σ) (oldVelocity : Int) (_u : Unit) :
    Sketch σ Unit := do
  let vel1 ← randomRange E (-50000) 50000
  Serial_print E (Printed.text "  Random Simple Velocity Move Test ")
  Serial_println E (Printed.num (← getTestNum))
  Serial_print E (Printed.text "    Current Velocity: ")
  Serial_println E (Printed.num oldVelocity)
  Serial_print E (Printed.text "    Target Velocity 1:  ")
  Serial_println E (Printed.num vel1)
  MoveVelocity E vel1
  WaitForMotorCruise E
  delay E 10
  AssertVelocity E vel1
  delay E 100

/-- Lines 442-463: the body of the loop of interrupted velocity moves. -/
def loop_velocityInterruptBody {σ : Type} (E : Env σ) (oldVelocity : Int) (_u : Unit) :
    Sketch σ Unit := do
  let vel1 ← randomRange E (-50000) 50000
  let vel2 ← randomRange E (-50000) 50000
  let delayBetweenMoves ← random E 1000
  Serial_print E (Printed.text "  Random Interrupt Velocity Move Test ")
  Serial_println E (Printed.num (← getTestNum))
  Serial_print E (Printed.text "    Current Velocity: ")
  Serial_println E (Printed.num oldVelocity)
  Serial_print E (Printed.text "    Target Velocity 1:  ")
  Serial_println E (Printed.num vel1)
  Serial_print E (Printed.text "    Target Velocity 2:  ")
  Serial_println E (Printed.num vel2)
  Serial_print E (Printed.text "    Delay Between Moves:  ")
  Serial_println E (Printed.num delayBetweenMoves)
  MoveVelocity E vel1
  delay E delayBetweenMoves
  MoveVelocity E vel2
  WaitForMotorCruise E
  delay E 10
  AssertVelocity E vel2
  delay E 100

/-- Lines 414-466: the section "Velocity Moves". -/
def loop_velocity {σ : Type} (E : Env σ)
    (velocitySimpleTestsNum velocityInterruptTestsNum : Int) : Sketch σ Unit := do
  Serial_println E (Printed.text "Testing Velocity Moves...")
  let oldVelocity ← motorGet E MotorCall.VelocityRefCommanded
  forLoop (loop_velocitySimpleBody E oldVelocity) velocitySimpleTestsNum.toNat ()
  forLoop (loop_velocityInterruptBody E oldVelocity) velocityInterruptTestsNum.toNat ()
  Serial_println E (Printed.text "Finished Testing Velocity Moves.")

/-- Lines 486-515: the body of the loop "absolute then relative". -/
def loop_abThenRelBody {σ : Type} (E : Env σ) (v : Vars) : Sketch σ Vars := do
  let absoluteMove ← randomRange E (-50000) 50000
  let relativeMove ← randomRange E (-50000) 50000
  let delayBetweenMoves ← random E 1000
  let oldTargetPos := v.targetPos
  let targetPos := wrapInt32 (absoluteMove + relativeMove)
  Serial_print E (Printed.text "  Random Absolute then Relative Position Move Test ")
  Serial_println E (Printed.num (← getTestNum))
  Serial_print E (Printed.text "    Starting Position: ")
  Serial_println E (Printed.num oldTargetPos)
  Serial_print E (Printed.text "    Absolute Move: ")
  Serial_println E (Printed.num absoluteMove)
  Serial_print E (Printed.text "    Relative Move: ")
  Serial_println E (Printed.num relativeMove)
  Serial_print E (Printed.text "    Time Between: ")
  Serial_println E (Printed.num delayBetweenMoves)
  Serial_print E (Printed.text "    Final Position: ")
  Serial_println E (Printed.num targetPos)
  let moveType := MOVE_TARGET.MOVE_TARGET_ABSOLUTE
  Move E absoluteMove moveType
  delay E delayBetweenMoves
  let moveType := MOVE_TARGET.MOVE_TARGET_REL_END_POSN
  Move E relativeMove moveType
  WaitForMotorStop E
  AssertPosition E targetPos
  delay E 100
  pure { targetPos := targetPos, oldTargetPos := oldTargetPos }

/-- Lines 474-519: the section "Absolute Then Relative". -/
def loop_abThenRel {σ : Type} (E : Env σ) (absoluteThenRelTestsNum : Int) (v : Vars) :
    Sketch σ Vars := do
  let moveType := MOVE_TARGET.MOVE_TARGET_ABSOLUTE
  Move E 0 moveType
  WaitForMotorStop E
  delay E 500
  let v ← forLoop (loop_abThenRelBody E) absoluteThenRelTestsNum.toNat v
  Serial_println E (Printed.text "Finished Testing Absolute Into Relative Moves.")
  pure v

/-- Lines 539-568: the body of the loop "relative then absolute". -/
def loop_relThenAbBody {σ : Type} (E : Env σ) (v : Vars) : Sketch σ Vars := do
  let absoluteMove ← randomRange E (-50000) 50000
  let relativeMove ← randomRange E (-50000) 50000
  let delayBetweenMoves ← random E 1000
  let oldTargetPos := v.targetPos
  let targetPos := absoluteMove
  Serial_print E (Printed.text "  Random Absolute then Relative Position Move Test ")
  Serial_println E (Printed.num (← getTestNum))
  Serial_print E (Printed.text "    Starting Position: ")
  Serial_println E (Printed.num oldTargetPos)
  Serial_print E (Printed.text "    Absolute Move: ")
  Serial_println E (Printed.num absoluteMove)
  Serial_print E (Printed.text "    Relative Move: ")
  Serial_println E (Printed.num relativeMove)
  Serial_print E (Printed.text "    Time Between: ")
  Serial_println E (Printed.num delayBetweenMoves)
  Serial_print E (Printed.text "    Final Position: ")
  Serial_println E (Printed.num targetPos)
  let moveType := MOVE_TARGET.MOVE_TARGET_REL_END_POSN
  Move E relativeMove moveType
  delay E delayBetweenMoves
  let moveType := MOVE_TARGET.MOVE_TARGET_ABSOLUTE
  Move E absoluteMove moveType
  WaitForMotorStop E
  AssertPosition E targetPos
  delay E 100
  pure { targetPos := targetPos, oldTargetPos := oldTargetPos }

/-- Lines 526-572: the section "Relative then Absolute". -/
def loop_relThenAb {σ : Type} (E : Env σ) (relativeThenAbTestsNum : Int) (v : Vars) :
    Sketch σ Vars := do
  Serial_println E (Printed.text "Testing Relative then Absolute Moves...")
  let moveType := MOVE_TARGET.MOVE_TARGET_ABSOLUTE
  Move E 0 moveType
  WaitForMotorStop E
  delay E 500
  let v ← forLoop (loop_relThenAbBody E) relativeThenAbTestsNum.toNat v
  Serial_println E (Printed.text "Finished Testing Relative Into Absolute Moves.")
  pure v

/-- Lines 592-621: the body of the loop "relative then velocity"; it assigns neither
`targetPos` nor `oldTargetPos`. -/
def loop_relThenVelBody {σ : Type} (E : Env σ) (v : Vars) : Sketch σ Vars := do
  let velocityMove ← randomRange E (-50000) 50000
  let relativeMove ← randomRange E (-50000) 50000
  let delayBetweenMoves ← random E 1000
  Serial_print E (Printed.text "  Random Relative then Velocity Move Test ")
  Serial_println E (Printed.num (← getTestNum))
  Serial_print E (Printed.text "    Starting Position: ")
  Serial_println E (Printed.num v.oldTargetPos)
  Serial_print E (Printed.text "    Velocity Move: ")
  Serial_println E (Printed.num velocityMove)
  Serial_print E (Printed.text "    Relative Move: ")
  Serial_println E (Printed.num relativeMove)
  Serial_print E (Printed.text "    Time Between: ")
  Serial_println E (Printed.num delayBetweenMoves)
  let moveType := MOVE_TARGET.MOVE_TARGET_REL_END_POSN
  Move E relativeMove moveType
  delay E delayBetweenMoves
  MoveVelocity E velocityMove
  WaitForMotorCruise E
  AssertVelocity E velocityMove
  delay E 100
  MoveVelocity E 0
  WaitForMotorStop E
  delay E 100
  pure v

/-- Lines 579-625: the section "Relative then Velocity". -/
def loop_relThenVel {σ : Type} (E : Env σ) (relThenVelTestsNum : Int) (v : Vars) :
    Sketch σ Vars := do
  Serial_println E (Printed.text "Testing Relative then Velocity Moves...")
  let moveType := MOVE_TARGET.MOVE_TARGET_ABSOLUTE
  Move E 0 moveType
  WaitForMotorStop E
  delay E 500
  let v ← forLoop (loop_relThenVelBody E) relThenVelTestsNum.toNat v
  Serial_println E (Printed.text "Finished Testing Relative Into Velocity Moves.")
  pure v

/-- Lines 652-689: the body of the loop "velocity then relative". -/
def loop_velThenRelBody {σ : Type} (E : Env σ) (moveType : MOVE_TARGET) (v : Vars) :
    Sketch σ Vars := do
  let velocityMove ← randomRange E (-50000) 50000
  let relativeMove ← randomRange E (-50000) 50000
  let delayBetweenMoves ← random E 5000
  Serial_print E (Printed.text "  Random Velocity then Relative Move Test ")
  Serial_println E (Printed.num (← getTestNum))
  Serial_print E (Printed.text "    Velocity Move: ")
  Serial_println E (Printed.num velocityMove)
  Serial_print E (Printed.text "    Relative Move: ")
  Serial_println E (Printed.num relativeMove)
  Serial_print E (Printed.text "    Time Between: ")
  Serial_println E (Printed.num delayBetweenMoves)
  MoveVelocity E velocityMove
  delay E delayBetweenMoves
  let startPos ← motorGet E MotorCall.PositionRefCommanded
  let targetPos := wrapInt32 (startPos + relativeMove)
  Move E relativeMove moveType
  Serial_print E (Printed.text "    Starting Position: ")
  Serial_println E (Printed.num startPos)
  Serial_print E (Printed.text "    Target Position: ")
  Serial_println E (Printed.num targetPos)
  WaitForMotorStop E
  AssertPosition E targetPos
  delay E 100
  MoveVelocity E 0
  WaitForMotorStop E
  delay E 100
  pure { v with targetPos := targetPos }

/-- Lines 633-692: the section "Velocity Then Relative". -/
def loop_velThenRel {σ : Type} (E : Env σ) (velocityThenRelTestsNum : Int) (v : Vars) :
    Sketch σ Vars := do
  Serial_println E (Printed.text "Testing Velocity Then Relative Moves...")
  delay E 500
  let moveType := MOVE_TARGET.MOVE_TARGET_REL_END_POSN
  let v ← forLoop (loop_velThenRelBody E moveType) velocityThenRelTestsNum.toNat v
  Serial_println E (Printed.text "Finished Testing Velocity Then Relative Moves.")
  pure v

/-- Lines 714-744: the body of the loop "velocity then absolute". -/
def loop_velThenAbBody {σ : Type} (E : Env σ) (moveType : MOVE_TARGET) (v : Vars) :
    Sketch σ Vars := do
  let velocityMove ← randomRange E (-50000) 50000
  let absoluteMove ← randomRange E (-50000) 50000
  let delayBetweenMoves ← random E 5000
  Serial_print E (Printed.text "  Random Velocity then Absolute Move Test ")
  Serial_println E (Printed.num (← getTestNum))
  Serial_print E (Printed.text "    Velocity Move: ")
  Serial_println E (Printed.num velocityMove)
  Serial_print E (Printed.text "    Absolute Move: ")
  Serial_println E (Printed.num absoluteMove)
  Serial_print E (Printed.text "    Time Between: ")
  Serial_println E (Printed.num delayBetweenMoves)
  MoveVelocity E velocityMove
  delay E delayBetweenMoves
  let targetPos := absoluteMove
  Move E absoluteMove moveType
  WaitForMotorStop E
  AssertPosition E targetPos
  delay E 100
  MoveVelocity E 0
  WaitForMotorStop E
  delay E 100
  pure { v with targetPos := targetPos }

/-- Lines 701-748: the section "Velocity Then Absolute". -/
def loop_velThenAb {σ : Type} (E : Env σ) (velocityThenAbTestsNum : Int) (v : Vars) :
    Sketch σ Vars := do
  Serial_println E (Printed.text "Testing Velocity Then Absolute Moves...")
  let moveType := MOVE_TARGET.MOVE_TARGET_ABSOLUTE
  Move E 0 moveType
  WaitForMotorStop E
  delay E 500
  let v ← forLoop (loop_velThenAbBody E moveType) velocityThenAbTestsNum.toNat v
  Serial_println E (Printed.text "Finished Testing Velocity Then Absolute Moves.")
  pure v

/-- Lines 116-762: `void loop()`.  The local `oldTargetPos` is declared without a value and
is assigned before it is first read; it starts here as 0. -/
def loop {σ : Type} (E : Env σ) : Sketch σ Unit := do
  let v : Vars := { targetPos := 0, oldTargetPos := 0 }
  let testAbsolute := true
  let absoluteTestsNum : Int := 10
  let testRelative := true
  let relRandTestsNum : Int := 100
  let testVelocity := true
  let velocitySimpleTestsNum : Int := 10
  let velocityInterruptTestsNum : Int := 50
  let testAbThenRel := true
  let absoluteThenRelTestsNum : Int := 10
  let testRelThenAb := true
  let relativeThenAbTestsNum : Int := 10
  let testRelThenVel := true
  let relThenVelTestsNum : Int := 10
  let testVelThenRel := true
  let velocityThenRelTestsNum : Int := 25
  let testVelThenAb := true
  let velocityThenAbTestsNum : Int := 10
  let pauseAfterTests := false
  let v ← (if testAbsolute then loop_absolute E absoluteTestsNum v
    else do
      Serial_println E (Printed.text "Skipping Absolute Position Moves.")
      pure v)
  let v ← (if testRelative then loop_relative E relRandTestsNum
    else do
      Serial_println E (Printed.text "Skipping Absolute Relative Moves.")
      pure v)
  (if testVelocity then loop_velocity E velocitySimpleTestsNum velocityInterruptTestsNum
    else Serial_println E (Printed.text "Skipping Velocity Moves."))
  let v ← (if testAbThenRel then loop_abThenRel E absoluteThenRelTestsNum v
    else do
      Serial_println E (Printed.text "Skipping Absolute Into Relative Moves.")
      pure v)
  let v ← (if testRelThenAb then loop_relThenAb E relativeThenAbTestsNum v
    else do
      Serial_println E (Printed.text "Skipping Relative Into Absolute Moves.")
      pure v)
  let v ← (if testRelThenVel then loop_relThenVel E relThenVelTestsNum v
    else do
      Serial_println E (Printed.text "Skipping Relative Into Velocity Moves.")
      pure v)
  let v ← (if testVelThenRel then loop_velThenRel E velocityThenRelTestsNum v
    else do
      Serial_println E (Printed.text "Skipping Velocity Then Relative Moves.")
      pure v)
  let _ ← (if testVelThenAb then loop_velThenAb E velocityThenAbTestsNum v
    else do
      Serial_println E (Printed.text "Skipping Velocity Then Absolute Moves.")
      pure v)
  Serial_println E (Printed.text "Motion Tests Finished")
  Move E 0 MOVE_TARGET.MOVE_TARGET_ABSOLUTE
  WaitForMotorStop E
  whileLoop (pure pauseAfterTests) (delay E 100)

/-- Modelled from the spec: the Arduino runtime's `main` (not under src/), which calls
`setup()` once and then `loop()` again and again; here `passes` times. -/
def arduinoMain {σ : Type} (E : Env σ) (passes : Nat) : Sketch σ Unit := do
  setup E
  forLoop (fun _ => loop E) passes ()

/-! ## Observations used to state the properties -/

/-- A motion command: `Move` or `MoveVelocity` on any connector. -/
def isMoveCommand : Event → Bool
  | Event.call (Call.onMotor _ (MotorCall.Move _ _)) _ => true
  | Event.call (Call.onMotor _ (MotorCall.MoveVelocity _)) _ => true
  | _ => false

/-- The answer the collaborators give to call `c` in world `w`. -/
def answer {σ : Type} (E : Env σ) (c : Call) (w : World σ) : Int := (E w.ext c).1

/-- The world after call `c` was made in world `w`. -/
def afterCall {σ : Type} (E : Env σ) (c : Call) (w : World σ) : World σ :=
  { w with ext := (E w.ext c).2, trace := Event.call c (E w.ext c).1 :: w.trace }

/-- The world after `n` consecutive calls `c`. -/
def afterCalls {σ : Type} (E : Env σ) (c : Call) : Nat → World σ → World σ
  | 0, w => w
  | n + 1, w => afterCalls E c n (afterCall E c w)

/-- The answer to the call `c` made after `i` earlier consecutive calls `c`. -/
def answerAt {σ : Type} (E : Env σ) (c : Call) (i : Nat) (w : World σ) : Int :=
  answer E c (afterCalls E c i w)

/-- The world a helper starts its body in: its entry is in the history. -/
def entered {σ : Type} (h : Helper) (w : World σ) : World σ :=
  { w with trace := Event.enter h :: w.trace }

/-- The poll `motor.StepsComplete()`. -/
def pollSteps : Call := Call.onMotor motor MotorCall.StepsComplete

/-- The poll `motor.CruiseVelocityReached()`. -/
def pollCruise : Call := Call.onMotor motor MotorCall.CruiseVelocityReached

/-- The world after `n` rounds of the loop of `WaitForMotorCruise` in which both
polls were made. -/
def afterCruiseRounds {σ : Type} (E : Env σ) : Nat → World σ → World σ
  | 0, w => w
  | n + 1, w => afterCruiseRounds E n (afterCall E pollSteps (afterCall E pollCruise w))

/-- In round `i` of the loop of `WaitForMotorCruise` both polls answer false. -/
def cruiseRoundIdle {σ : Type} (E : Env σ) (w : World σ) (i : Nat) : Prop :=
  asBool (answer E pollCruise (afterCruiseRounds E i w)) = false ∧
  asBool (answer E pollSteps (afterCall E pollCruise (afterCruiseRounds E i w))) = false

/-- The history `tr` is the history `base` followed by newer events that all satisfy `good`. -/
def OnlyAdded (good : Event → Bool) (base tr : List Event) : Prop :=
  ∃ evs : List Event, tr = evs ++ base ∧ ∀ e ∈ evs, good e = true

/-- Hoare triple for a piece of sketch code: from a world satisfying `P`, on any fuel, a
return satisfies `Q` and a spinning state satisfies `S`. -/
def sat {σ α : Type} (m : Sketch σ α) (P : World σ → Prop) (Q : α → World σ → Prop)
    (S : World σ → Prop) : Prop :=
  ∀ (fuel : Nat) (w : World σ), P w → (m fuel w).holds Q S

/-- The event is the entry into `AssertPosition`. -/
def isAssertPositionEntry : Event → Bool
  | Event.enter (Helper.AssertPosition _) => true
  | _ => false

/-- The event is the entry into `AssertVelocity`. -/
def isAssertVelocityEntry : Event → Bool
  | Event.enter (Helper.AssertVelocity _) => true
  | _ => false

/-- Going back in time from the newest event of the history, an entry into
`WaitForMotorStop` is met before any motion command. -/
def stopWaited : List Event → Bool
  | [] => false
  | e :: tr => decide (e = Event.enter Helper.WaitForMotorStop) || (!isMoveCommand e && stopWaited tr)

/-- Going back in time from the newest event of the history, an entry into
`WaitForMotorCruise` is met before any motion command. -/
def cruiseWaited : List Event → Bool
  | [] => false
  | e :: tr =>
    decide (e = Event.enter Helper.WaitForMotorCruise) || (!isMoveCommand e && cruiseWaited tr)

/-- Checker for the history: every entry into `AssertPosition` has `stopWaited` before it
and every entry into `AssertVelocity` has `cruiseWaited` before it. -/
def waitsBeforeAsserts : List Event → Bool
  | [] => true
  | e :: tr =>
    (!isAssertPositionEntry e || stopWaited tr) &&
    (!isAssertVelocityEntry e || cruiseWaited tr) && waitsBeforeAsserts tr

/-- The property of a history (newest event first) that the sketch waits before it asserts:
every entry into `AssertPosition` is preceded by an entry into `WaitForMotorStop` with no
motion command between the two, and every entry into `AssertVelocity` is preceded by an
entry into `WaitForMotorCruise` with no motion command between the two. -/
def WaitsBeforeAsserts (tr : List Event) : Prop :=
  (∀ (newer older : List Event) (t : Int),
    tr = newer ++ Event.enter (Helper.AssertPosition t) :: older →
    ∃ between before : List Event,
      older = between ++ Event.enter Helper.WaitForMotorStop :: before ∧
      ∀ e ∈ between, isMoveCommand e = false) ∧
  (∀ (newer older : List Event) (t : Int),
    tr = newer ++ Event.enter (Helper.AssertVelocity t) :: older →
    ∃ between before : List Event,
      older = between ++ Event.enter Helper.WaitForMotorCruise :: before ∧
      ∀ e ∈ between, isMoveCommand e = false)

/-- Assertion on worlds used to prove `WaitsBeforeAsserts`: the history passes the checker,
and it has `stopWaited` if `s` and `cruiseWaited` if `c`. -/
def Waited {σ : Type} (s c : Bool) (w : World σ) : Prop :=
  waitsBeforeAsserts w.trace = true ∧
  (s = true → stopWaited w.trace = true) ∧ (c = true → cruiseWaited w.trace = true)

/-- Every event the code `m` adds to the history satisfies `good`, on any fuel, from any
world, whether it returns or is still spinning. -/
def Adds {σ α : Type} (good : Event → Bool) (m : Sketch σ α) : Prop :=
  ∀ (fuel : Nat) (w : World σ), OnlyAdded good w.trace (m fuel w).world.trace

/-- The event is not a call on a motor connector other than `c`. -/
def notOnOtherMotor (c : Connector) : Event → Bool
  | Event.call (Call.onMotor c' _) _ => decide (c' = c)
  | _ => true

/-- Targets of the entries into `AssertPosition` in a history, newest first. -/
def assertedPositions : List Event → List Int
  | [] => []
  | Event.enter (Helper.AssertPosition t) :: tr => t :: assertedPositions tr
  | _ :: tr => assertedPositions tr

/-- Distances of the `Move(d, MOVE_TARGET_REL_END_POSN)` commands in a history, newest
first. -/
def relativeDistances : List Event → List Int
  | [] => []
  | Event.call (Call.onMotor _ (MotorCall.Move d MOVE_TARGET.MOVE_TARGET_REL_END_POSN)) _ :: tr =>
    d :: relativeDistances tr
  | _ :: tr => relativeDistances tr

/-- The seven positions the hardcoded relative moves are expected to reach, oldest first. -/
def expectedRelativeFixed : List Int := [1000, -1000, -11000, -4000, 34000, 31000, 30200]

/-- In the events `evs` (newest first), the target of each entry into `AssertPosition` is
the sum of the relative distances commanded before it. -/
def AssertsRunningSum (evs : List Event) : Prop :=
  ∀ (newer older : List Event) (t : Int),
    evs = newer ++ Event.enter (Helper.AssertPosition t) :: older →
    t = (relativeDistances older).sum

/-- Assertion on worlds used for the hardcoded relative moves: since the history `base`,
the positions asserted are `L` (newest first), they are the first few of
`expectedRelativeFixed`, the relative distances commanded sum to `x`, and every asserted
position was the running sum. -/
def RelAt {σ : Type} (base : List Event) (L : List Int) (x : Int) (w : World σ) : Prop :=
  ∃ evs : List Event, w.trace = evs ++ base ∧ assertedPositions evs = L ∧
    (relativeDistances evs).sum = x ∧ AssertsRunningSum evs ∧
    ∃ k, k < 8 ∧ L.reverse = expectedRelativeFixed.take k

/-- The assertion `RelAt` for some positions and some sum. -/
def RelSpin {σ : Type} (base : List Event) (w : World σ) : Prop :=
  ∃ (L : List Int) (x : Int), RelAt base L x w

/-- More fuel does not change a return: if the code returns on some fuel, it returns the
same value in the same world on any larger fuel. -/
def FuelMono {σ α : Type} (m : Sketch σ α) : Prop :=
  ∀ (f f' : Nat) (w : World σ) (a : α) (w1 : World σ),
    f ≤ f' → m f w = Outcome.returned a w1 → m f' w = Outcome.returned a w1

/-- The poll `motor.HlfbState()`. -/
def pollHlfb : Call := Call.onMotor motor MotorCall.HlfbState

/-- The check `motor.IsInHwFault()`. -/
def checkHwFault : Call := Call.onMotor motor MotorCall.IsInHwFault

/-- The event is a poll of `HlfbState` on any connector. -/
def isHlfbPoll : Event → Bool
  | Event.call (Call.onMotor _ MotorCall.HlfbState) _ => true
  | _ => false

/-- The event is neither a motion command nor a poll of `HlfbState`. -/
def notMoveNorHlfb (e : Event) : Bool := !isMoveCommand e && !isHlfbPoll e

/-- The event is not a motion command. -/
def notMove (e : Event) : Bool := !isMoveCommand e

/-- Lines 51-102 of `setup`: everything before the loop that waits for HLFB; the value is
the `startTime` of that wait. -/
def setup_untilHlfbLoop {σ : Type} (E : Env σ) : Sketch σ Int := do
  setup_beforeFaultCheck E
  setup_faultCheck E
  setup_beforeHlfbLoop E

/-- The world after `n` rounds of the loop that waits for HLFB in which the loop went on:
each round is a poll of `HlfbState` and a reading of `millis()`. -/
def afterHlfbRounds {σ : Type} (E : Env σ) : Nat → World σ → World σ
  | 0, w => w
  | n + 1, w => afterHlfbRounds E n (afterCall E Call.millis (afterCall E pollHlfb w))

/-- The elapsed time `millis() - startTime`, in `uint32_t` arithmetic, that the round of
the HLFB wait starting in world `w` computes after its poll. -/
def hlfbElapsed {σ : Type} (E : Env σ) (startTime : Int) (w : World σ) : Int :=
  wrapUInt32 (wrapUInt32 (answer E Call.millis (afterCall E pollHlfb w)) - startTime)

/-- In round `i` of the HLFB wait started in world `w` the poll answers not-asserted and
the elapsed time is at most 3600 ms, so the loop goes on. -/
def hlfbRoundIdle {σ : Type} (E : Env σ) (startTime : Int) (w : World σ) (i : Nat) : Prop :=
  answer E pollHlfb (afterHlfbRounds E i w) ≠ HLFB_ASSERTED ∧
  hlfbElapsed E startTime (afterHlfbRounds E i w) ≤ 3600

/-- A collaborator for examples on which `setup` succeeds at once: it answers false (0) to
`motor.IsInHwFault()` and 1 to every other call (Serial open, HLFB asserted). -/
def healthyEnv : Env Unit := fun _ c => (if c = checkHwFault then 0 else 1, ())

/-- A collaborator for examples whose motor never asserts HLFB: its state counts the calls
made, `millis()` answers 1000 times that count, `Serial` is open (1), and every other
call answers 0. -/
def noHlfbEnv : Env Nat := fun s c =>
  (if c = Call.millis then 1000 * (s : Int) else if c = Call.Serial_isOpen then 1 else 0, s + 1)

/-- The call is a motion command `motor.Move(...)` or `motor.MoveVelocity(...)`. -/
def isMotion : Call → Bool
  | Call.onMotor _ (MotorCall.Move _ _) => true
  | Call.onMotor _ (MotorCall.MoveVelocity _) => true
  | _ => false

/-- The call is a read of `PositionRefCommanded()` on any connector. -/
def isPositionRead : Call → Bool
  | Call.onMotor _ MotorCall.PositionRefCommanded => true
  | _ => false

/-- The read `motor.PositionRefCommanded()`. -/
def readPosition : Call := Call.onMotor motor MotorCall.PositionRefCommanded

/-- Modelled from the spec: the motor driver behind `motor` (library code that is not
under src/), as the ideal motor of the specification.  The motor holds a commanded end
target `e` and a commanded position `p`, both `int32_t`, and is either in a position move
or in a velocity move.  `Move(t, MOVE_TARGET_ABSOLUTE)` sets `e := t`;
`Move(d, MOVE_TARGET_REL_END_POSN)` sets `e := e + d` after a position move and
`e := p + d` when issued during a velocity move (sums in `int32_t`); a poll of
`StepsComplete()` that answers true leaves `p = e`, so `WaitForMotorStop` returns with
`p = e`; `PositionRefCommanded()` returns `p`.  Calls that are no motion command leave the
kind of move, and during a position move the end target, as they are.  Nothing else is
fixed: the position may change at any call but the read, and every other answer (random
draws, delays, polls) is arbitrary. -/
structure IdealMotor {σ : Type} (E : Env σ) where
  /-- The commanded end target. -/
  e : σ → Int
  /-- The commanded position. -/
  p : σ → Int
  /-- Whether a velocity move is in progress. -/
  inVelocityMove : σ → Bool
  move_absolute : ∀ (s : σ) (t : Int),
    inVelocityMove (E s (Call.onMotor motor
      (MotorCall.Move t MOVE_TARGET.MOVE_TARGET_ABSOLUTE))).2 = false ∧
    e (E s (Call.onMotor motor (MotorCall.Move t MOVE_TARGET.MOVE_TARGET_ABSOLUTE))).2 = t
  move_relative : ∀ (s : σ) (d : Int),
    inVelocityMove (E s (Call.onMotor motor
      (MotorCall.Move d MOVE_TARGET.MOVE_TARGET_REL_END_POSN))).2 = false ∧
    e (E s (Call.onMotor motor (MotorCall.Move d MOVE_TARGET.MOVE_TARGET_REL_END_POSN))).2
      = if inVelocityMove s = true then wrapInt32 (p s + d) else wrapInt32 (e s + d)
  move_velocity : ∀ (s : σ) (v : Int),
    inVelocityMove (E s (Call.onMotor motor (MotorCall.MoveVelocity v))).2 = true
  steps_complete : ∀ s : σ, asBool (E s pollSteps).1 = true →
    p (E s pollSteps).2 = e (E s pollSteps).2
  position_ref : ∀ s : σ, (E s readPosition).1 = p s ∧ p (E s readPosition).2 = p s
  quiet : ∀ (s : σ) (c : Call), isMotion c = false →
    inVelocityMove (E s c).2 = inVelocityMove s ∧
    (inVelocityMove s = false → e (E s c).2 = e s)

/-- What is known about the ideal motor at a point of the sketch. -/
inductive Mode where
  /-- Nothing is known. -/
  | any
  /-- A position move with end target `t` is in progress or complete. -/
  | pos (t : Int)
  /-- A position move with end target `t` is complete: the position is `t`. -/
  | settled (t : Int)
  /-- A velocity move is in progress. -/
  | vel
  /-- A velocity move is in progress and the position is `q`. -/
  | velAt (q : Int)

/-- The mode is kept by calls that are no motion command. -/
def Mode.isCalm : Mode → Bool
  | Mode.any => true
  | Mode.pos _ => true
  | Mode.vel => true
  | _ => false

/-- The state `s` of the ideal motor is as the mode says. -/
def Mode.holds {σ : Type} {E : Env σ} (M : IdealMotor E) : Mode → σ → Prop
  | Mode.any, _ => True
  | Mode.pos t, s => M.inVelocityMove s = false ∧ M.e s = t
  | Mode.settled t, s => M.inVelocityMove s = false ∧ M.e s = t ∧ M.p s = t
  | Mode.vel, s => M.inVelocityMove s = true
  | Mode.velAt q, s => M.inVelocityMove s = true ∧ M.p s = q

/-- Every position assertion in the history (newest event first) passed: the read of
`PositionRefCommanded()` that follows an entry into `AssertPosition(t)` answered `t`. -/
def PositionAssertsPass (tr : List Event) : Prop :=
  ∀ (newer older : List Event) (c : Connector) (r t : Int),
    tr = newer ++ Event.call (Call.onMotor c MotorCall.PositionRefCommanded) r ::
      Event.enter (Helper.AssertPosition t) :: older →
    r = t

/-- Assertion on worlds for the ideal motor: every position assertion so far passed and
the motor is as the mode says. -/
def Ideal {σ : Type} {E : Env σ} (M : IdealMotor E) (m : Mode) (w : World σ) : Prop :=
  PositionAssertsPass w.trace ∧ m.holds M w.ext

/-- Modelled from the spec: state of an ideal motor that completes every move at once. -/
structure InstantMotor where
  e : Int
  p : Int
  inVelocityMove : Bool
  deriving DecidableEq

/-- Modelled from the spec: an ideal motor that completes every move at once, for
examples.  Position moves reach their end target immediately, a velocity move leaves the
position where it is, `StepsComplete()` always answers true, and calls that are not to the
motor answer 0. -/
def instantEnv : Env InstantMotor := fun s c =>
  match c with
  | Call.onMotor _ (MotorCall.Move t MOVE_TARGET.MOVE_TARGET_ABSOLUTE) =>
    (1, { e := t, p := t, inVelocityMove := false })
  | Call.onMotor _ (MotorCall.Move d MOVE_TARGET.MOVE_TARGET_REL_END_POSN) =>
    (1, { e := if s.inVelocityMove = true then wrapInt32 (s.p + d) else wrapInt32 (s.e + d),
          p := if s.inVelocityMove = true then wrapInt32 (s.p + d) else wrapInt32 (s.e + d),
          inVelocityMove := false })
  | Call.onMotor _ (MotorCall.MoveVelocity _) => (1, { s with inVelocityMove := true })
  | Call.onMotor _ MotorCall.StepsComplete =>
    (1, { s with e := if s.inVelocityMove = true then s.p else s.e,
                 p := if s.inVelocityMove = true then s.p else s.e })
  | Call.onMotor _ MotorCall.PositionRefCommanded => (s.p, s)
  | _ => (0, s)

/-- Modelled from the spec: the motor that completes every move at once is an ideal motor. -/
def instantIdeal : IdealMotor instantEnv where
  e := fun s => s.e
  p := fun s => s.p
  inVelocityMove := fun s => s.inVelocityMove
  move_absolute := fun _ _ => ⟨rfl, rfl⟩
  move_relative := fun _ _ => ⟨rfl, rfl⟩
  move_velocity := fun _ _ => rfl
  steps_complete := fun _ _ => rfl
  position_ref := fun _ => ⟨rfl, rfl⟩
  quiet := by
    intro s c hq
    cases c with
    | onMotor k m => cases m <;> simp_all [instantEnv, isMotion]
    | _ => exact ⟨rfl, fun _ => rfl⟩

/-- Assertion on worlds for the ideal motor: the motor is as the mode says. -/
def InMode {σ : Type} {E : Env σ} (M : IdealMotor E) (m : Mode) (w : World σ) : Prop :=
  m.holds M w.ext

/-- A position move of the ideal motor completes within `N` polls: from every state in
which no velocity move is in progress, one of the first `N + 1` consecutive polls of
`motor.StepsComplete()` answers true. -/
def CompletesWithin {σ : Type} {E : Env σ} (M : IdealMotor E) (N : Nat) : Prop :=
  ∀ w : World σ, M.inVelocityMove w.ext = false →
    ∃ n, n ≤ N ∧ asBool (answerAt E pollSteps n w) = true

/-- Triple for code that runs to its end: from a world satisfying `P`, on any fuel above
`N`, the code returns, and the return satisfies `Q`. -/
def Returns {σ α : Type} (N : Nat) (m : Sketch σ α) (P : World σ → Prop)
    (Q : α → World σ → Prop) : Prop :=
  ∀ (fuel : Nat) (w : World σ), N < fuel → P w →
    ∃ (a : α) (w' : World σ), m fuel w = Outcome.returned a w' ∧ Q a w'

/-- The check `Serial` (converted to `bool`) of the serial wait. -/
def pollSerial : Call := Call.Serial_isOpen

/-- The world after `n` rounds of the serial wait in which the loop went on: each round is
a check of `Serial` and a reading of `millis()`. -/
def afterSerialRounds {σ : Type} (E : Env σ) : Nat → World σ → World σ
  | 0, w => w
  | n + 1, w => afterSerialRounds E n (afterCall E Call.millis (afterCall E pollSerial w))

/-- Whether `Serial` is open at the check of round `i` of the serial wait started in `w`. -/
def serialOpenAt {σ : Type} (E : Env σ) (w : World σ) (i : Nat) : Bool :=
  asBool (answer E pollSerial (afterSerialRounds E i w))

/-- The answer of `millis()` in round `i` of the serial wait started in `w` (the reading
made after the check of `Serial` of that round). -/
def serialMillisAt {σ : Type} (E : Env σ) (w : World σ) (i : Nat) : Int :=
  answer E Call.millis (afterCall E pollSerial (afterSerialRounds E i w))

/-- The elapsed time `millis() - startTime`, in `uint32_t` arithmetic, that round `i` of the
serial wait started in `w` computes. -/
def serialElapsedAt {σ : Type} (E : Env σ) (startTime : Int) (w : World σ) (i : Nat) : Int :=
  wrapUInt32 (wrapUInt32 (serialMillisAt E w i) - startTime)

/-- In round `i` of the serial wait `Serial` is not open and the elapsed time is below
5000 ms, so the loop goes on. -/
def serialRoundIdle {σ : Type} (E : Env σ) (startTime : Int) (w : World σ) (i : Nat) : Prop :=
  serialOpenAt E w i = false ∧ serialElapsedAt E startTime w i < 5000

/-- The readings of `millis()` in the serial wait started in `w` with start time
`startTime` come from a non-decreasing clock: there are true times, `t0` when `startTime`
was taken and `t i` at the reading of round `i`, that never go back, and `startTime` and
the readings are these times as `uint32_t` millisecond counts (modulo 2^32). -/
def SerialClock {σ : Type} (E : Env σ) (startTime : Int) (w : World σ) (t0 : Int)
    (t : Nat → Int) : Prop :=
  wrapUInt32 startTime = wrapUInt32 t0 ∧
  (∀ i, wrapUInt32 (serialMillisAt E w i) = wrapUInt32 (t i)) ∧
  t0 ≤ t 0 ∧ ∀ i, t i ≤ t (i + 1)

/-- A collaborator for examples whose serial port never opens and whose clock is near the
rollover of `millis()`: its state counts the calls made, `millis()` answers
4294967000 plus 1000 times that count as a `uint32_t`, and every other call answers 0. -/
def rolloverEnv : Env Nat := fun s c =>
  (if c = Call.millis then wrapUInt32 (4294967000 + 1000 * (s : Int)) else 0, s + 1)

/-- A counting collaborator for examples: its state is the number of calls made so far, and
it answers false (0) to the first `n` calls and true (1) from then on. -/
def countingEnv (n : Nat) : Env Nat := fun s _ => (if s < n then 0 else 1, s + 1)

/-- A collaborator for examples whose every answer is the constant `r`. -/
def constEnv (r : Int) : Env Unit := fun _ _ => (r, ())

/-- A collaborator for examples that answers true (1) to `motor.StepsComplete()` and
false (0) to every other call. -/
def stepsOnlyEnv : Env Unit := fun _ c => (if c = pollSteps then 1 else 0, ())

/-- An example world: fresh collaborators, `testNum = 0`, empty history. -/
def freshWorld {σ : Type} (s : σ) : World σ := { ext := s, testNum := 0, trace := [] }

/-! ## Basic facts about the embedding -/

theorem bind_def {σ α β : Type} (m : Sketch σ α) (f : α → Sketch σ β) :
    (m >>= f) = Sketch.bind m f := rfl

theorem pure_def {σ α : Type} (a : α) : (pure a : Sketch σ α) = Sketch.pure a := rfl

theorem wrapInt32_of_range (x : Int) (hlo : -2147483648 ≤ x) (hhi : x < 2147483648) :
    wrapInt32 x = x := by
  unfold wrapInt32
  omega

theorem OnlyAdded.refl (good : Event → Bool) (base : List Event) : OnlyAdded good base base :=
  ⟨[], rfl, by simp⟩

theorem OnlyAdded.consEvent {good : Event → Bool} {base tr : List Event} {e : Event}
    (he : good e = true) (h : OnlyAdded good base tr) : OnlyAdded good base (e :: tr) := by
  obtain ⟨evs, h1, h2⟩ := h
  refine ⟨e :: evs, by simp [h1], ?_⟩
  intro x hx
  rcases List.mem_cons.mp hx with h | h
  · rw [h]; exact he
  · exact h2 x h

theorem OnlyAdded.trans {good : Event → Bool} {a b c : List Event}
    (h1 : OnlyAdded good a b) (h2 : OnlyAdded good b c) : OnlyAdded good a c := by
  obtain ⟨e1, h1, g1⟩ := h1
  obtain ⟨e2, h2, g2⟩ := h2
  refine ⟨e2 ++ e1, by simp [h1, h2], ?_⟩
  intro x hx
  rcases List.mem_append.mp hx with h | h
  · exact g2 x h
  · exact g1 x h

theorem OnlyAdded.mono {good good' : Event → Bool} {a b : List Event}
    (hg : ∀ e, good e = true → good' e = true) (h : OnlyAdded good a b) :
    OnlyAdded good' a b := by
  obtain ⟨evs, h1, h2⟩ := h
  exact ⟨evs, h1, fun e he => hg e (h2 e he)⟩

/-- The failure loop `while (true) { delay(ms); }` only ever delays. -/
theorem delayLoop_spins {σ : Type} (E : Env σ) (ms : Int) (fuel : Nat) :
    ∀ (n : Nat) (w : World σ),
      whileGo (Sketch.pure true) (delay E ms) fuel n w
        = Outcome.spinning (afterCalls E (Call.delay ms) n w) := by
  intro n
  induction n with
  | zero => intro w; rfl
  | succ n ih =>
    intro w
    simp only [whileGo, Sketch.pure, delay, bind_def, pure_def, Sketch.bind, call, afterCalls]
    exact ih _

theorem afterCalls_testNum {σ : Type} (E : Env σ) (c : Call) :
    ∀ (n : Nat) (w : World σ), (afterCalls E c n w).testNum = w.testNum := by
  intro n
  induction n with
  | zero => intro w; rfl
  | succ n ih => intro w; simp only [afterCalls]; rw [ih]; rfl

theorem afterCalls_trace {σ : Type} (E : Env σ) (c : Call) :
    ∀ (n : Nat) (w : World σ), ∃ evs : List Event,
      (afterCalls E c n w).trace = evs ++ w.trace ∧ evs.length = n ∧
      ∀ e ∈ evs, ∃ r, e = Event.call c r := by
  intro n
  induction n with
  | zero => intro w; exact ⟨[], rfl, rfl, by simp⟩
  | succ n ih =>
    intro w
    obtain ⟨evs, h1, h2, h3⟩ := ih (afterCall E c w)
    refine ⟨evs ++ [Event.call c (E w.ext c).1], ?_, ?_, ?_⟩
    · show (afterCalls E c n (afterCall E c w)).trace = _
      rw [h1]
      simp [afterCall]
    · simp [h2]
    · intro e he
      rcases List.mem_append.mp he with h | h
      · exact h3 e h
      · exact ⟨_, List.mem_singleton.mp h⟩

theorem afterCalls_onlyAdded {σ : Type} (E : Env σ) (c : Call) {good : Event → Bool}
    (hc : ∀ r, good (Event.call c r) = true) (n : Nat) (w : World σ) :
    OnlyAdded good w.trace (afterCalls E c n w).trace := by
  obtain ⟨evs, h1, _, h3⟩ := afterCalls_trace E c n w
  refine ⟨evs, h1, ?_⟩
  intro e he
  obtain ⟨r, hr⟩ := h3 e he
  rw [hr]
  exact hc r

/-! ## The assertion helpers -/

/-- C1: `AssertPosition(targetPos)` reads `motor.PositionRefCommanded()` once.  If the
value read differs from `targetPos`, the call never returns: there is a world `w1` (the one
in which the failure loop is entered) such that for every amount of fuel the call is still
spinning, in the world reached from `w1` by that many `delay(100)` calls, with `testNum`
unchanged.  If the value read equals `targetPos`, the call returns and `testNum` has been
incremented as a 32-bit `int`: it is exactly one greater than before whenever `testNum` was
an `int` below `INT32_MAX` (no signed overflow).  Either way no `Move` or `MoveVelocity` is
issued. -/
theorem AssertPosition_contract {σ : Type} (E : Env σ) (targetPos : Int) (w : World σ) :
    (answer E (Call.onMotor motor MotorCall.PositionRefCommanded) w ≠ targetPos →
      ∃ w1 : World σ, ∀ fuel : Nat, ∃ w' : World σ,
        AssertPosition E targetPos fuel w = Outcome.spinning w' ∧
        w' = afterCalls E (Call.delay 100) fuel w1 ∧
        w'.testNum = w.testNum ∧
        OnlyAdded (fun e => !isMoveCommand e) w.trace w'.trace) ∧
    (answer E (Call.onMotor motor MotorCall.PositionRefCommanded) w = targetPos →
      ∀ fuel : Nat, ∃ w' : World σ,
        AssertPosition E targetPos fuel w = Outcome.returned () w' ∧
        w'.testNum = wrapInt32 (w.testNum + 1) ∧
        (-2147483648 ≤ w.testNum → w.testNum < 2147483647 → w'.testNum = w.testNum + 1) ∧
        OnlyAdded (fun e => !isMoveCommand e) w.trace w'.trace) := by
  constructor
  · intro hne
    simp only [answer] at hne
    simp only [AssertPosition, bind_def, pure_def, Sketch.bind, Sketch.pure, enter, motorGet,
      call, Serial_print, Serial_println, getTestNum, whileLoop, hne, ne_eq, not_false_eq_true,
      if_true, delayLoop_spins]
    refine ⟨_, fun fuel => ⟨_, rfl, rfl, ?_, ?_⟩⟩
    · rw [afterCalls_testNum]
    · refine OnlyAdded.trans ?_ (afterCalls_onlyAdded E _ (by intro r; rfl) fuel _)
      repeat (first | exact OnlyAdded.refl _ _ | refine OnlyAdded.consEvent rfl ?_)
  · intro heq fuel
    simp only [answer] at heq
    simp only [AssertPosition, bind_def, pure_def, Sketch.bind, Sketch.pure, enter, motorGet,
      call, Serial_print, Serial_println, getTestNum, whileLoop, heq, ne_eq, not_true_eq_false,
      if_false, incrTestNum]
    refine ⟨_, rfl, rfl, fun hlo hhi => wrapInt32_of_range _ (by omega) (by omega), ?_⟩
    repeat (first | exact OnlyAdded.refl _ _ | refine OnlyAdded.consEvent rfl ?_)

/-- Witness for C1 on a collaborator that answers 5 to every call, from `testNum = 0`:
asserting 5 returns on fuel 3 with `testNum = 1`, asserting 7 is spinning on fuel 3 with
`testNum = 0`. -/
theorem AssertPosition_contract_witness :
    (∃ w' : World Unit,
        AssertPosition (constEnv 5) 5 3 (freshWorld ()) = Outcome.returned () w' ∧
        w'.testNum = 1) ∧
    (∃ w' : World Unit,
        AssertPosition (constEnv 5) 7 3 (freshWorld ()) = Outcome.spinning w' ∧
        w'.testNum = 0) :=
  ⟨(((AssertPosition_contract (constEnv 5) 5 (freshWorld ())).2 rfl 3).imp
      (fun _ h => ⟨h.1, h.2.2.1 (by decide) (by decide)⟩)),
   (((AssertPosition_contract (constEnv 5) 7 (freshWorld ())).1 (by decide)).elim
      (fun _ h => (h 3).imp (fun _ h' => ⟨h'.1, h'.2.2.1⟩)))⟩

/-- C2: `AssertVelocity(targetVel)` returns if and only if the value read from
`motor.VelocityRefCommanded()` equals `targetVel`.  When it returns, `testNum` has been
incremented as a 32-bit `int`: it is exactly one greater than before whenever `testNum` was
an `int` below `INT32_MAX` (no signed overflow).  When the values differ it never returns:
for every amount of fuel it is still spinning in its `delay(100)` loop, with `testNum`
unchanged. -/
theorem AssertVelocity_contract {σ : Type} (E : Env σ) (targetVel : Int) (w : World σ) :
    (∀ fuel : Nat, (AssertVelocity E targetVel fuel w).isReturned = true ↔
      answer E (Call.onMotor motor MotorCall.VelocityRefCommanded) w = targetVel) ∧
    (answer E (Call.onMotor motor MotorCall.VelocityRefCommanded) w = targetVel →
      ∀ fuel : Nat, ∃ w' : World σ,
        AssertVelocity E targetVel fuel w = Outcome.returned () w' ∧
        w'.testNum = wrapInt32 (w.testNum + 1) ∧
        (-2147483648 ≤ w.testNum → w.testNum < 2147483647 → w'.testNum = w.testNum + 1)) ∧
    (answer E (Call.onMotor motor MotorCall.VelocityRefCommanded) w ≠ targetVel →
      ∃ w1 : World σ, ∀ fuel : Nat, ∃ w' : World σ,
        AssertVelocity E targetVel fuel w = Outcome.spinning w' ∧
        w' = afterCalls E (Call.delay 100) fuel w1 ∧
        w'.testNum = w.testNum) := by
  have hret : answer E (Call.onMotor motor MotorCall.VelocityRefCommanded) w = targetVel →
      ∀ fuel : Nat, ∃ w' : World σ,
        AssertVelocity E targetVel fuel w = Outcome.returned () w' ∧
        w'.testNum = wrapInt32 (w.testNum + 1) ∧
        (-2147483648 ≤ w.testNum → w.testNum < 2147483647 →
          w'.testNum = w.testNum + 1) := by
    intro heq fuel
    simp only [answer] at heq
    simp only [AssertVelocity, bind_def, pure_def, Sketch.bind, Sketch.pure, enter, motorGet,
      call, Serial_print, Serial_println, getTestNum, whileLoop, heq, ne_eq, not_true_eq_false,
      if_false, incrTestNum]
    exact ⟨_, rfl, rfl, fun hlo hhi => wrapInt32_of_range _ (by omega) (by omega)⟩
  have hspin : answer E (Call.onMotor motor MotorCall.VelocityRefCommanded) w ≠ targetVel →
      ∃ w1 : World σ, ∀ fuel : Nat, ∃ w' : World σ,
        AssertVelocity E targetVel fuel w = Outcome.spinning w' ∧
        w' = afterCalls E (Call.delay 100) fuel w1 ∧
        w'.testNum = w.testNum := by
    intro hne
    simp only [answer] at hne
    simp only [AssertVelocity, bind_def, pure_def, Sketch.bind, Sketch.pure, enter, motorGet,
      call, Serial_print, Serial_println, getTestNum, whileLoop, hne, ne_eq, not_false_eq_true,
      if_true, delayLoop_spins]
    refine ⟨_, fun fuel => ⟨_, rfl, rfl, ?_⟩⟩
    rw [afterCalls_testNum]
  refine ⟨?_, hret, hspin⟩
  intro fuel
  constructor
  · intro h
    by_contra hne
    obtain ⟨w1, hw1⟩ := hspin hne
    obtain ⟨w', h', _⟩ := hw1 fuel
    rw [h'] at h
    simp [Outcome.isReturned] at h
  · intro heq
    obtain ⟨w', h', _⟩ := hret heq fuel
    rw [h']
    rfl

/-- Witness for C2 on a collaborator that answers 5 to every call, from `testNum = 0`: on
fuel 3, asserting velocity 5 returns with `testNum = 1` and asserting velocity 7 does not
return. -/
theorem AssertVelocity_contract_witness :
    (∃ w' : World Unit,
        AssertVelocity (constEnv 5) 5 3 (freshWorld ()) = Outcome.returned () w' ∧
        w'.testNum = 1) ∧
    (AssertVelocity (constEnv 5) 7 3 (freshWorld ())).isReturned = false :=
  ⟨(((AssertVelocity_contract (constEnv 5) 5 (freshWorld ())).2.1 rfl 3).imp
      (fun _ h => ⟨h.1, h.2.2 (by decide) (by decide)⟩)),
   Bool.eq_false_iff.mpr (fun h =>
     absurd (((AssertVelocity_contract (constEnv 5) 7 (freshWorld ())).1 3).mp h)
       (by decide))⟩

/-! ## The waiting helpers -/

theorem stopLoop_returns {σ : Type} (E : Env σ) (fuel : Nat) :
    ∀ (k n : Nat) (w : World σ), k < n →
      (∀ i, i < k → asBool (answerAt E pollSteps i w) = false) →
      asBool (answerAt E pollSteps k w) = true →
      whileGo (do let done ← motorGet E MotorCall.StepsComplete
                  pure (!(asBool done))) (pure ()) fuel n w
        = Outcome.returned () (afterCalls E pollSteps (k + 1) w) := by
  intro k
  induction k with
  | zero =>
    intro n w hn _ hk
    obtain ⟨n, rfl⟩ : ∃ m, n = m + 1 := ⟨n - 1, by omega⟩
    simp only [answerAt, afterCalls, answer, pollSteps] at hk
    simp only [whileGo, bind_def, pure_def, Sketch.bind, Sketch.pure, motorGet, call, hk,
      Bool.not_true, afterCalls, afterCall, pollSteps]
  | succ k ih =>
    intro n w hn hpre hk
    obtain ⟨n, rfl⟩ : ∃ m, n = m + 1 := ⟨n - 1, by omega⟩
    have h0 := hpre 0 (by omega)
    simp only [answerAt, afterCalls, answer, pollSteps] at h0
    simp only [whileGo, bind_def, pure_def, Sketch.bind, Sketch.pure, motorGet, call, h0,
      Bool.not_false]
    exact ih n (afterCall E pollSteps w) (by omega)
      (fun i hi => hpre (i + 1) (by omega)) hk

theorem stopLoop_spins {σ : Type} (E : Env σ) (fuel : Nat) :
    ∀ (n : Nat) (w : World σ),
      (∀ i, i < n → asBool (answerAt E pollSteps i w) = false) →
      whileGo (do let done ← motorGet E MotorCall.StepsComplete
                  pure (!(asBool done))) (pure ()) fuel n w
        = Outcome.spinning (afterCalls E pollSteps n w) := by
  intro n
  induction n with
  | zero => intro w _; rfl
  | succ n ih =>
    intro w hpre
    have h0 := hpre 0 (by omega)
    simp only [answerAt, afterCalls, answer, pollSteps] at h0
    simp only [whileGo, bind_def, pure_def, Sketch.bind, Sketch.pure, motorGet, call, h0,
      Bool.not_false]
    exact ih (afterCall E pollSteps w) (fun i hi => hpre (i + 1) (by omega))

theorem afterCalls_succ_trace {σ : Type} (E : Env σ) (c : Call) :
    ∀ (n : Nat) (w : World σ),
      (afterCalls E c (n + 1) w).trace
        = Event.call c (answerAt E c n w) :: (afterCalls E c n w).trace := by
  intro n
  induction n with
  | zero => intro w; rfl
  | succ n ih =>
    intro w
    have h := ih (afterCall E c w)
    simpa only [afterCalls, answerAt] using h

/-- C3: `WaitForMotorStop` polls `motor.StepsComplete()` and nothing else.  For every
sequence of answers: if poll number `k` is the first to answer true, the call returns (on any
fuel above `k`) in the world reached right after that poll, whose newest event is that poll
with its true answer; if every poll made answers false, the call is still spinning after as
many polls as there is fuel, so it never returns when all polls answer false.  The worlds
reached differ from the start only by the polls: `testNum` is unchanged and the history gains
the entry into the helper and `StepsComplete` polls, no command. -/
theorem WaitForMotorStop_contract {σ : Type} (E : Env σ) (w : World σ) :
    (∀ k : Nat,
      (∀ i, i < k → asBool (answerAt E pollSteps i (entered Helper.WaitForMotorStop w)) = false) →
      asBool (answerAt E pollSteps k (entered Helper.WaitForMotorStop w)) = true →
      ∀ fuel : Nat, k < fuel →
        WaitForMotorStop E fuel w
          = Outcome.returned () (afterCalls E pollSteps (k + 1) (entered Helper.WaitForMotorStop w)) ∧
        (afterCalls E pollSteps (k + 1) (entered Helper.WaitForMotorStop w)).trace.head?
          = some (Event.call pollSteps
              (answerAt E pollSteps k (entered Helper.WaitForMotorStop w)))) ∧
    (∀ fuel : Nat,
      (∀ i, i < fuel →
        asBool (answerAt E pollSteps i (entered Helper.WaitForMotorStop w)) = false) →
      WaitForMotorStop E fuel w
        = Outcome.spinning (afterCalls E pollSteps fuel (entered Helper.WaitForMotorStop w))) ∧
    (∀ n : Nat,
      (afterCalls E pollSteps n (entered Helper.WaitForMotorStop w)).testNum = w.testNum ∧
      ∃ evs : List Event,
        (afterCalls E pollSteps n (entered Helper.WaitForMotorStop w)).trace
          = evs ++ Event.enter Helper.WaitForMotorStop :: w.trace ∧
        evs.length = n ∧ ∀ e ∈ evs, ∃ r, e = Event.call pollSteps r) := by
  refine ⟨?_, ?_, ?_⟩
  · intro k hpre hk fuel hfuel
    refine ⟨?_, ?_⟩
    · simp only [WaitForMotorStop, bind_def, Sketch.bind, enter, whileLoop]
      exact stopLoop_returns E fuel k fuel _ hfuel hpre hk
    · rw [afterCalls_succ_trace]
      rfl
  · intro fuel hpre
    simp only [WaitForMotorStop, bind_def, Sketch.bind, enter, whileLoop]
    exact stopLoop_spins E fuel fuel _ hpre
  · intro n
    refine ⟨?_, ?_⟩
    · rw [afterCalls_testNum]
      rfl
    · exact afterCalls_trace E pollSteps n _

/-- Witness for C3 on a collaborator whose third answer is the first true one: the call
returns after three polls on fuel 5, and is still spinning after two polls on fuel 2. -/
theorem WaitForMotorStop_contract_witness :
    WaitForMotorStop (countingEnv 2) 5 (freshWorld 0)
      = Outcome.returned ()
          (afterCalls (countingEnv 2) pollSteps 3 (entered Helper.WaitForMotorStop (freshWorld 0))) ∧
    WaitForMotorStop (countingEnv 2) 2 (freshWorld 0)
      = Outcome.spinning
          (afterCalls (countingEnv 2) pollSteps 2 (entered Helper.WaitForMotorStop (freshWorld 0))) :=
  ⟨((WaitForMotorStop_contract (countingEnv 2) (freshWorld 0)).1 2 (by decide) (by decide) 5
      (by decide)).1,
   (WaitForMotorStop_contract (countingEnv 2) (freshWorld 0)).2.1 2 (by decide)⟩

theorem cruiseLoop_step {σ : Type} (E : Env σ) (fuel n : Nat) (w : World σ)
    (hc : asBool (answer E pollCruise w) = false)
    (hs : asBool (answer E pollSteps (afterCall E pollCruise w)) = false) :
    whileGo (do let cruise ← motorGet E MotorCall.CruiseVelocityReached
                if !(asBool cruise) then
                  let done ← motorGet E MotorCall.StepsComplete
                  pure (!(asBool done))
                else
                  pure false) (pure ()) fuel (n + 1) w
      = whileGo (do let cruise ← motorGet E MotorCall.CruiseVelocityReached
                    if !(asBool cruise) then
                      let done ← motorGet E MotorCall.StepsComplete
                      pure (!(asBool done))
                    else
                      pure false) (pure ()) fuel n
          (afterCall E pollSteps (afterCall E pollCruise w)) := by
  simp only [answer, pollCruise, pollSteps, afterCall] at hc hs
  simp only [whileGo, bind_def, pure_def, Sketch.bind, Sketch.pure, motorGet, call, hc, hs,
    Bool.not_false, if_true, afterCall, pollCruise, pollSteps]

theorem cruiseLoop_exit_cruise {σ : Type} (E : Env σ) (fuel n : Nat) (w : World σ)
    (hc : asBool (answer E pollCruise w) = true) :
    whileGo (do let cruise ← motorGet E MotorCall.CruiseVelocityReached
                if !(asBool cruise) then
                  let done ← motorGet E MotorCall.StepsComplete
                  pure (!(asBool done))
                else
                  pure false) (pure ()) fuel (n + 1) w
      = Outcome.returned () (afterCall E pollCruise w) := by
  simp only [answer, pollCruise, afterCall] at hc
  simp only [whileGo, bind_def, pure_def, Sketch.bind, Sketch.pure, motorGet, call, hc,
    Bool.not_true, afterCall, pollCruise]
  rfl

theorem cruiseLoop_exit_steps {σ : Type} (E : Env σ) (fuel n : Nat) (w : World σ)
    (hc : asBool (answer E pollCruise w) = false)
    (hs : asBool (answer E pollSteps (afterCall E pollCruise w)) = true) :
    whileGo (do let cruise ← motorGet E MotorCall.CruiseVelocityReached
                if !(asBool cruise) then
                  let done ← motorGet E MotorCall.StepsComplete
                  pure (!(asBool done))
                else
                  pure false) (pure ()) fuel (n + 1) w
      = Outcome.returned () (afterCall E pollSteps (afterCall E pollCruise w)) := by
  simp only [answer, pollCruise, pollSteps, afterCall] at hc hs
  simp only [whileGo, bind_def, pure_def, Sketch.bind, Sketch.pure, motorGet, call, hc, hs,
    Bool.not_false, Bool.not_true, if_true, afterCall, pollCruise, pollSteps]

theorem cruiseLoop_rounds {σ : Type} (E : Env σ) (fuel : Nat) :
    ∀ (k n : Nat) (w : World σ), (∀ i, i < k → cruiseRoundIdle E w i) →
      whileGo (do let cruise ← motorGet E MotorCall.CruiseVelocityReached
                  if !(asBool cruise) then
                    let done ← motorGet E MotorCall.StepsComplete
                    pure (!(asBool done))
                  else
                    pure false) (pure ()) fuel (n + k) w
        = whileGo (do let cruise ← motorGet E MotorCall.CruiseVelocityReached
                      if !(asBool cruise) then
                        let done ← motorGet E MotorCall.StepsComplete
                        pure (!(asBool done))
                      else
                        pure false) (pure ()) fuel n (afterCruiseRounds E k w) := by
  intro k
  induction k with
  | zero => intro n w _; rfl
  | succ k ih =>
    intro n w hpre
    have h0 := hpre 0 (by omega)
    rw [show n + (k + 1) = (n + k) + 1 by omega, cruiseLoop_step E fuel (n + k) w h0.1 h0.2]
    exact ih n _ (fun i hi => hpre (i + 1) (by omega))

/-- C4: `WaitForMotorCruise` polls `motor.CruiseVelocityReached()` and, when that answers
false, `motor.StepsComplete()`.  As long as both answer false it keeps polling: after `fuel`
such rounds it is still spinning.  It returns at the first round in which the cruise poll
answers true (right after that poll), or in which the cruise poll answers false and the
`StepsComplete` poll answers true (right after that poll): in that case it returns although
the newest cruise answer says the cruise velocity is not reached. -/
theorem WaitForMotorCruise_contract {σ : Type} (E : Env σ) (w : World σ) :
    (∀ k : Nat, (∀ i, i < k → cruiseRoundIdle E (entered Helper.WaitForMotorCruise w) i) →
      asBool (answer E pollCruise
        (afterCruiseRounds E k (entered Helper.WaitForMotorCruise w))) = true →
      ∀ fuel : Nat, k < fuel →
        WaitForMotorCruise E fuel w
          = Outcome.returned () (afterCall E pollCruise
              (afterCruiseRounds E k (entered Helper.WaitForMotorCruise w)))) ∧
    (∀ k : Nat, (∀ i, i < k → cruiseRoundIdle E (entered Helper.WaitForMotorCruise w) i) →
      asBool (answer E pollCruise
        (afterCruiseRounds E k (entered Helper.WaitForMotorCruise w))) = false →
      asBool (answer E pollSteps (afterCall E pollCruise
        (afterCruiseRounds E k (entered Helper.WaitForMotorCruise w)))) = true →
      ∀ fuel : Nat, k < fuel →
        WaitForMotorCruise E fuel w
          = Outcome.returned () (afterCall E pollSteps (afterCall E pollCruise
              (afterCruiseRounds E k (entered Helper.WaitForMotorCruise w))))) ∧
    (∀ fuel : Nat,
      (∀ i, i < fuel → cruiseRoundIdle E (entered Helper.WaitForMotorCruise w) i) →
      WaitForMotorCruise E fuel w
        = Outcome.spinning (afterCruiseRounds E fuel (entered Helper.WaitForMotorCruise w))) := by
  refine ⟨?_, ?_, ?_⟩
  · intro k hpre hc fuel hfuel
    obtain ⟨n, rfl⟩ : ∃ m, fuel = (m + 1) + k := ⟨fuel - k - 1, by omega⟩
    simp only [WaitForMotorCruise, bind_def, Sketch.bind, enter, whileLoop]
    exact (cruiseLoop_rounds E _ k (n + 1) _ hpre).trans (cruiseLoop_exit_cruise E _ n _ hc)
  · intro k hpre hc hs fuel hfuel
    obtain ⟨n, rfl⟩ : ∃ m, fuel = (m + 1) + k := ⟨fuel - k - 1, by omega⟩
    simp only [WaitForMotorCruise, bind_def, Sketch.bind, enter, whileLoop]
    exact (cruiseLoop_rounds E _ k (n + 1) _ hpre).trans (cruiseLoop_exit_steps E _ n _ hc hs)
  · intro fuel hpre
    simp only [WaitForMotorCruise, bind_def, Sketch.bind, enter, whileLoop]
    have h := cruiseLoop_rounds E fuel fuel 0 _ hpre
    rw [Nat.zero_add] at h
    exact h

/-- Witness for C4: with `StepsComplete()` true and `CruiseVelocityReached()` false, the
call returns in its first round, after a cruise poll answered 0 (not reached). -/
theorem WaitForMotorCruise_contract_witness :
    WaitForMotorCruise stepsOnlyEnv 1 (freshWorld ())
      = Outcome.returned () (afterCall stepsOnlyEnv pollSteps (afterCall stepsOnlyEnv pollCruise
          (afterCruiseRounds stepsOnlyEnv 0 (entered Helper.WaitForMotorCruise (freshWorld ()))))) ∧
    (afterCall stepsOnlyEnv pollSteps (afterCall stepsOnlyEnv pollCruise
        (entered Helper.WaitForMotorCruise (freshWorld ())))).trace
      = [Event.call pollSteps 1, Event.call pollCruise 0,
          Event.enter Helper.WaitForMotorCruise] :=
  ⟨(WaitForMotorCruise_contract stepsOnlyEnv (freshWorld ())).2.1 0
      (fun i hi => absurd hi (Nat.not_lt_zero i)) (by decide) (by decide) 1 (by decide),
   by decide⟩

/-! ## Rules for Hoare triples -/

theorem sat_pure {σ α : Type} {a : α} {P : World σ → Prop} {Q : α → World σ → Prop}
    {S : World σ → Prop} (h : ∀ w, P w → Q a w) : sat (pure a : Sketch σ α) P Q S := by
  intro fuel w hP
  exact h w hP

theorem sat_bind {σ α β : Type} {m : Sketch σ α} {f : α → Sketch σ β} {P : World σ → Prop}
    {R : α → World σ → Prop} {Q : β → World σ → Prop} {S : World σ → Prop}
    (h1 : sat m P R S) (h2 : ∀ a, sat (f a) (R a) Q S) : sat (m >>= f) P Q S := by
  intro fuel w hP
  have h := h1 fuel w hP
  simp only [bind_def, Sketch.bind]
  cases hm : m fuel w with
  | returned a w1 =>
    rw [hm] at h
    exact h2 a fuel w1 h
  | spinning w1 =>
    rw [hm] at h
    exact h

theorem sat_conseq {σ α : Type} {m : Sketch σ α} {P P' : World σ → Prop}
    {Q Q' : α → World σ → Prop} {S S' : World σ → Prop}
    (h : sat m P Q S) (hP : ∀ w, P' w → P w) (hQ : ∀ a w, Q a w → Q' a w)
    (hS : ∀ w, S w → S' w) : sat m P' Q' S' := by
  intro fuel w hP'
  have h := h fuel w (hP w hP')
  cases hm : m fuel w with
  | returned a w1 =>
    rw [hm] at h
    exact hQ a w1 h
  | spinning w1 =>
    rw [hm] at h
    exact hS w1 h

theorem sat_call {σ : Type} {E : Env σ} {c : Call} {P : World σ → Prop}
    {Q : Int → World σ → Prop} {S : World σ → Prop}
    (h : ∀ w, P w → Q (answer E c w) (afterCall E c w)) : sat (call E c) P Q S := by
  intro fuel w hP
  exact h w hP

theorem sat_enter {σ : Type} {h : Helper} {P : World σ → Prop}
    {Q : Unit → World σ → Prop} {S : World σ → Prop}
    (hq : ∀ w, P w → Q () (entered h w)) : sat (enter h) P Q S := by
  intro fuel w hP
  exact hq w hP

theorem sat_getTestNum {σ : Type} {P : World σ → Prop}
    {Q : Int → World σ → Prop} {S : World σ → Prop}
    (hq : ∀ w, P w → Q w.testNum w) : sat getTestNum P Q S := by
  intro fuel w hP
  exact hq w hP

theorem sat_incrTestNum {σ : Type} {P : World σ → Prop}
    {Q : Unit → World σ → Prop} {S : World σ → Prop}
    (hq : ∀ w, P w → Q () { w with testNum := wrapInt32 (w.testNum + 1) }) :
    sat incrTestNum P Q S := by
  intro fuel w hP
  exact hq w hP

theorem sat_ite {σ α : Type} {c : Prop} [Decidable c] {m1 m2 : Sketch σ α}
    {P : World σ → Prop} {Q : α → World σ → Prop} {S : World σ → Prop}
    (h1 : c → sat m1 P Q S) (h2 : ¬ c → sat m2 P Q S) :
    sat (if c then m1 else m2) P Q S := by
  by_cases hc : c
  · rw [if_pos hc]; exact h1 hc
  · rw [if_neg hc]; exact h2 hc

theorem sat_whileGo {σ : Type} {cond : Sketch σ Bool} {body : Sketch σ Unit}
    {I J : World σ → Prop} {Q : Unit → World σ → Prop} {S : World σ → Prop}
    (hc : sat cond I (fun b w => if b = true then J w else Q () w) S)
    (hb : sat body J (fun _ => I) S) (hI : ∀ w, I w → S w) (fuel : Nat) :
    ∀ (n : Nat) (w : World σ), I w → (whileGo cond body fuel n w).holds Q S := by
  intro n
  induction n with
  | zero => intro w hw; exact hI w hw
  | succ n ih =>
    intro w hw
    have h1 := hc fuel w hw
    simp only [whileGo]
    cases hm : cond fuel w with
    | returned b w1 =>
      rw [hm] at h1
      cases b with
      | true =>
        simp only [Outcome.holds, if_true] at h1
        have h2 := hb fuel w1 h1
        cases hm2 : body fuel w1 with
        | returned u w2 =>
          rw [hm2] at h2
          simp only [hm2]
          exact ih w2 h2
        | spinning w2 =>
          rw [hm2] at h2
          simp only [hm2]
          exact h2
      | false =>
        exact h1
    | spinning w1 =>
      rw [hm] at h1
      exact h1

theorem sat_while {σ : Type} {cond : Sketch σ Bool} {body : Sketch σ Unit}
    {I J : World σ → Prop} {Q : Unit → World σ → Prop} {S : World σ → Prop}
    (hc : sat cond I (fun b w => if b = true then J w else Q () w) S)
    (hb : sat body J (fun _ => I) S) (hI : ∀ w, I w → S w) :
    sat (whileLoop cond body) I Q S := by
  intro fuel w hw
  exact sat_whileGo hc hb hI fuel fuel w hw

theorem sat_for {σ β : Type} {body : β → Sketch σ β} {I : β → World σ → Prop}
    {S : World σ → Prop} (hb : ∀ s, sat (body s) (I s) I S) :
    ∀ (n : Nat) (s : β), sat (forLoop body n s) (I s) I S := by
  intro n
  induction n with
  | zero => intro s fuel w hw; exact hw
  | succ n ih =>
    intro s
    exact sat_bind (hb s) (fun a => ih a)

theorem bind_assoc' {σ α β γ : Type} (m : Sketch σ α) (f : α → Sketch σ β)
    (g : β → Sketch σ γ) : (m >>= f) >>= g = m >>= fun a => f a >>= g := by
  funext fuel w
  simp only [bind_def, Sketch.bind]
  cases m fuel w <;> rfl

theorem pure_bind' {σ α β : Type} (a : α) (f : α → Sketch σ β) :
    (pure a : Sketch σ α) >>= f = f a := rfl

theorem bind_pure_unit {σ : Type} (m : Sketch σ Unit) : m = m >>= fun _ => pure () := by
  funext fuel w
  simp only [bind_def, pure_def, Sketch.bind, Sketch.pure]
  cases m fuel w <;> rfl

/-! ## The sketch waits before it asserts -/

theorem Waited.weakenFlags {σ : Type} {s c s' c' : Bool} {w : World σ} (h : Waited s c w)
    (hs : s' = true → s = true) (hc : c' = true → c = true) : Waited s' c' w :=
  ⟨h.1, fun h' => h.2.1 (hs h'), fun h' => h.2.2 (hc h')⟩

/-- A call that is not a motion command keeps what has been waited for. -/
theorem waited_call {σ : Type} (E : Env σ) (c : Call) (s k : Bool)
    (hc : ∀ r, isMoveCommand (Event.call c r) = false) :
    sat (call E c) (Waited s k) (fun _ => Waited s k) (Waited false false) := by
  refine sat_call ?_
  intro w h
  obtain ⟨h1, h2, h3⟩ := h
  refine ⟨?_, ?_, ?_⟩
  · simp [afterCall, waitsBeforeAsserts, isAssertPositionEntry, isAssertVelocityEntry, h1]
  · intro hs
    simp [afterCall, stopWaited, hc, h2 hs]
  · intro hk
    simp [afterCall, cruiseWaited, hc, h3 hk]

/-- A motion command: nothing has been waited for after it. -/
theorem waited_move {σ : Type} (E : Env σ) (c : Call) (s k : Bool) :
    sat (call E c) (Waited s k) (fun _ => Waited false false) (Waited false false) := by
  refine sat_call ?_
  intro w h
  refine ⟨?_, by simp, by simp⟩
  simp [afterCall, waitsBeforeAsserts, isAssertPositionEntry, isAssertVelocityEntry, h.1]

theorem waited_call_bind {σ β : Type} (E : Env σ) (c : Call) {s k : Bool}
    {f : Int → Sketch σ β} {Q : β → World σ → Prop}
    (hc : ∀ r, isMoveCommand (Event.call c r) = false)
    (h : ∀ r, sat (f r) (Waited s k) Q (Waited false false)) :
    sat (call E c >>= f) (Waited s k) Q (Waited false false) :=
  sat_bind (waited_call E c s k hc) h

theorem waited_move_bind {σ β : Type} (E : Env σ) (c : Call) {s k : Bool}
    {f : Int → Sketch σ β} {Q : β → World σ → Prop}
    (h : ∀ r, sat (f r) (Waited false false) Q (Waited false false)) :
    sat (call E c >>= f) (Waited s k) Q (Waited false false) :=
  sat_bind (waited_move E c s k) h

theorem waited_getTestNum_bind {σ β : Type} {s k : Bool}
    {f : Int → Sketch σ β} {Q : β → World σ → Prop}
    (h : ∀ r, sat (f r) (Waited s k) Q (Waited false false)) :
    sat (getTestNum >>= f) (Waited s k) Q (Waited false false) :=
  sat_bind (sat_getTestNum (fun _ hw => hw)) h

theorem waited_pure {σ α : Type} (a : α) {s k s' k' : Bool}
    (hs : s' = true → s = true) (hk : k' = true → k = true) :
    sat (pure a : Sketch σ α) (Waited s k) (fun _ => Waited s' k') (Waited false false) :=
  sat_pure (fun _ h => h.weakenFlags hs hk)

theorem waited_delayLoop {σ : Type} (E : Env σ) (ms : Int) (s k : Bool)
    (Q : Unit → World σ → Prop) :
    sat (whileLoop (pure true) (delay E ms)) (Waited s k) Q (Waited false false) := by
  refine sat_while (I := Waited s k) (J := Waited s k) ?_ ?_ ?_
  · exact sat_pure (fun w h => by simpa using h)
  · simp only [delay]
    refine waited_call_bind _ _ (fun _ => rfl) (fun _ => ?_)
    exact waited_pure _ id id
  · intro w h
    exact h.weakenFlags (by simp) (by simp)

theorem waited_WaitForMotorStop {σ : Type} (E : Env σ) (s k : Bool) :
    sat (WaitForMotorStop E) (Waited s k) (fun _ => Waited true k) (Waited false false) := by
  simp only [WaitForMotorStop, motorGet]
  refine sat_bind (R := fun _ => Waited true k) (sat_enter ?_) (fun _ => ?_)
  · intro w h
    refine ⟨?_, ?_, ?_⟩
    · simp [entered, waitsBeforeAsserts, isAssertPositionEntry, isAssertVelocityEntry, h.1]
    · intro _
      simp [entered, stopWaited]
    · intro hk
      simp [entered, cruiseWaited, isMoveCommand, h.2.2 hk]
  · refine sat_while (I := Waited true k) (J := Waited true k) ?_ ?_ ?_
    · refine waited_call_bind _ _ (fun _ => rfl) (fun r => ?_)
      exact sat_pure (fun w h => by split <;> exact h)
    · exact waited_pure _ id id
    · intro w h
      exact h.weakenFlags (by simp) (by simp)

theorem waited_WaitForMotorCruise {σ : Type} (E : Env σ) (s k : Bool) :
    sat (WaitForMotorCruise E) (Waited s k) (fun _ => Waited s true) (Waited false false) := by
  simp only [WaitForMotorCruise, motorGet]
  refine sat_bind (R := fun _ => Waited s true) (sat_enter ?_) (fun _ => ?_)
  · intro w h
    refine ⟨?_, ?_, ?_⟩
    · simp [entered, waitsBeforeAsserts, isAssertPositionEntry, isAssertVelocityEntry, h.1]
    · intro hs
      simp [entered, stopWaited, isMoveCommand, h.2.1 hs]
    · intro _
      simp [entered, cruiseWaited]
  · refine sat_while (I := Waited s true) (J := Waited s true) ?_ ?_ ?_
    · refine waited_call_bind _ _ (fun _ => rfl) (fun r => ?_)
      refine sat_ite (fun _ => ?_) (fun _ => ?_)
      · refine waited_call_bind _ _ (fun _ => rfl) (fun r => ?_)
        exact sat_pure (fun w h => by split <;> exact h)
      · exact sat_pure (fun w h => by simpa using h)
    · exact waited_pure _ id id
    · intro w h
      exact h.weakenFlags (by simp) (by simp)

theorem waited_AssertPosition {σ : Type} (E : Env σ) (t : Int) (k : Bool) :
    sat (AssertPosition E t) (Waited true k) (fun _ => Waited true k) (Waited false false) := by
  simp only [AssertPosition, motorGet, Serial_print, Serial_println, bind_assoc', pure_bind']
  refine sat_bind (R := fun _ => Waited true k) (sat_enter ?_) (fun _ => ?_)
  · intro w h
    refine ⟨?_, ?_, ?_⟩
    · simp [entered, waitsBeforeAsserts, isAssertPositionEntry, isAssertVelocityEntry, h.1,
        h.2.1 rfl]
    · intro _
      simp [entered, stopWaited, isMoveCommand, h.2.1 rfl]
    · intro hk
      simp [entered, cruiseWaited, isMoveCommand, h.2.2 hk]
  · refine waited_call_bind _ _ (fun _ => rfl) (fun r => ?_)
    refine sat_bind (R := fun _ => Waited true k) (sat_ite (fun _ => ?_) (fun _ => ?_))
      (fun _ => ?_)
    · repeat (first
        | refine waited_call_bind _ _ (fun _ => rfl) (fun _ => ?_)
        | refine waited_getTestNum_bind (fun _ => ?_))
      exact waited_delayLoop E 100 _ _ _
    · exact waited_pure _ id id
    · repeat (first
        | refine waited_call_bind _ _ (fun _ => rfl) (fun _ => ?_)
        | refine waited_getTestNum_bind (fun _ => ?_))
      exact sat_incrTestNum (fun w h => h)

theorem waited_AssertVelocity {σ : Type} (E : Env σ) (t : Int) (s : Bool) :
    sat (AssertVelocity E t) (Waited s true) (fun _ => Waited s true) (Waited false false) := by
  simp only [AssertVelocity, motorGet, Serial_print, Serial_println, bind_assoc', pure_bind']
  refine sat_bind (R := fun _ => Waited s true) (sat_enter ?_) (fun _ => ?_)
  · intro w h
    refine ⟨?_, ?_, ?_⟩
    · simp [entered, waitsBeforeAsserts, isAssertPositionEntry, isAssertVelocityEntry, h.1,
        h.2.2 rfl]
    · intro hs
      simp [entered, stopWaited, isMoveCommand, h.2.1 hs]
    · intro _
      simp [entered, cruiseWaited, isMoveCommand, h.2.2 rfl]
  · refine waited_call_bind _ _ (fun _ => rfl) (fun r => ?_)
    refine sat_bind (R := fun _ => Waited s true) (sat_ite (fun _ => ?_) (fun _ => ?_))
      (fun _ => ?_)
    · repeat (first
        | refine waited_call_bind _ _ (fun _ => rfl) (fun _ => ?_)
        | refine waited_getTestNum_bind (fun _ => ?_))
      exact waited_delayLoop E 100 _ _ _
    · exact waited_pure _ id id
    · repeat (first
        | refine waited_call_bind _ _ (fun _ => rfl) (fun _ => ?_)
        | refine waited_getTestNum_bind (fun _ => ?_))
      exact sat_incrTestNum (fun w h => h)

theorem waited_for {σ β : Type} {body : β → Sketch σ β}
    (hb : ∀ v, sat (body v) (Waited false false) (fun _ => Waited false false)
      (Waited false false)) (n : Nat) (v : β) (s k : Bool) :
    sat (forLoop body n v) (Waited s k) (fun _ => Waited false false) (Waited false false) :=
  sat_conseq (sat_for hb n v) (fun _ h => h.weakenFlags (by simp) (by simp)) (fun _ _ h => h)
    (fun _ h => h)

theorem waited_loop_absoluteMove {σ : Type} (E : Env σ) (moveType : MOVE_TARGET) (t : Int) (s k : Bool) :
    sat (loop_absoluteMove E moveType t) (Waited s k) (fun _ => Waited false false)
      (Waited false false) := by
  simp only [loop_absoluteMove, Serial_print, Serial_println, delay, random, randomRange, motorGet,
    motorDo, Move, MoveVelocity, bind_assoc', pure_bind']
  repeat (first
    | refine waited_call_bind _ _ (fun _ => rfl) (fun _ => ?_)
    | refine waited_move_bind _ _ (fun _ => ?_)
    | refine waited_getTestNum_bind (fun _ => ?_)
    | refine sat_bind (waited_WaitForMotorStop _ _ _) (fun _ => ?_)
    | refine sat_bind (waited_WaitForMotorCruise _ _ _) (fun _ => ?_)
    | refine sat_bind (waited_AssertPosition _ _ _) (fun _ => ?_)
    | refine sat_bind (waited_AssertVelocity _ _ _) (fun _ => ?_)
    | exact waited_pure _ (by simp) (by simp))

theorem waited_loop_absoluteBody {σ : Type} (E : Env σ) (moveType : MOVE_TARGET) (v : Vars) (s k : Bool) :
    sat (loop_absoluteBody E moveType v) (Waited s k) (fun _ => Waited false false)
      (Waited false false) := by
  simp only [loop_absoluteBody, Serial_print, Serial_println, delay, random, randomRange, motorGet,
    motorDo, Move, MoveVelocity, bind_assoc', pure_bind']
  repeat (first
    | refine waited_call_bind _ _ (fun _ => rfl) (fun _ => ?_)
    | refine waited_move_bind _ _ (fun _ => ?_)
    | refine waited_getTestNum_bind (fun _ => ?_)
    | refine sat_bind (waited_WaitForMotorStop _ _ _) (fun _ => ?_)
    | refine sat_bind (waited_WaitForMotorCruise _ _ _) (fun _ => ?_)
    | refine sat_bind (waited_AssertPosition _ _ _) (fun _ => ?_)
    | refine sat_bind (waited_AssertVelocity _ _ _) (fun _ => ?_)
    | exact waited_pure _ (by simp) (by simp))

theorem waited_loop_relativeMove {σ : Type} (E : Env σ) (moveType : MOVE_TARGET) (targetPos relativeMove : Int) (s k : Bool) :
    sat (loop_relativeMove E moveType targetPos relativeMove) (Waited s k) (fun _ => Waited false false)
      (Waited false false) := by
  simp only [loop_relativeMove, Serial_print, Serial_println, delay, random, randomRange, motorGet,
    motorDo, Move, MoveVelocity, bind_assoc', pure_bind']
  repeat (first
    | refine waited_call_bind _ _ (fun _ => rfl) (fun _ => ?_)
    | refine waited_move_bind _ _ (fun _ => ?_)
    | refine waited_getTestNum_bind (fun _ => ?_)
    | refine sat_bind (waited_WaitForMotorStop _ _ _) (fun _ => ?_)
    | refine sat_bind (waited_WaitForMotorCruise _ _ _) (fun _ => ?_)
    | refine sat_bind (waited_AssertPosition _ _ _) (fun _ => ?_)
    | refine sat_bind (waited_AssertVelocity _ _ _) (fun _ => ?_)
    | exact waited_pure _ (by simp) (by simp))

theorem waited_loop_relativeBody {σ : Type} (E : Env σ) (moveType : MOVE_TARGET) (v : Vars) (s k : Bool) :
    sat (loop_relativeBody E moveType v) (Waited s k) (fun _ => Waited false false)
      (Waited false false) := by
  simp only [loop_relativeBody, Serial_print, Serial_println, delay, random, randomRange, motorGet,
    motorDo, Move, MoveVelocity, bind_assoc', pure_bind']
  repeat (first
    | refine waited_call_bind _ _ (fun _ => rfl) (fun _ => ?_)
    | refine waited_move_bind _ _ (fun _ => ?_)
    | refine waited_getTestNum_bind (fun _ => ?_)
    | refine sat_bind (waited_WaitForMotorStop _ _ _) (fun _ => ?_)
    | refine sat_bind (waited_WaitForMotorCruise _ _ _) (fun _ => ?_)
    | refine sat_bind (waited_AssertPosition _ _ _) (fun _ => ?_)
    | refine sat_bind (waited_AssertVelocity _ _ _) (fun _ => ?_)
    | exact waited_pure _ (by simp) (by simp))

theorem waited_loop_velocitySimpleBody {σ : Type} (E : Env σ) (oldVelocity : Int) (u : Unit) (s k : Bool) :
    sat (loop_velocitySimpleBody E oldVelocity u) (Waited s k) (fun _ => Waited false false)
      (Waited false false) := by
  simp only [loop_velocitySimpleBody, Serial_print, Serial_println, delay, random, randomRange, motorGet,
    motorDo, Move, MoveVelocity, bind_assoc', pure_bind']
  repeat (first
    | refine waited_call_bind _ _ (fun _ => rfl) (fun _ => ?_)
    | refine waited_move_bind _ _ (fun _ => ?_)
    | refine waited_getTestNum_bind (fun _ => ?_)
    | refine sat_bind (waited_WaitForMotorStop _ _ _) (fun _ => ?_)
    | refine sat_bind (waited_WaitForMotorCruise _ _ _) (fun _ => ?_)
    | refine sat_bind (waited_AssertPosition _ _ _) (fun _ => ?_)
    | refine sat_bind (waited_AssertVelocity _ _ _) (fun _ => ?_)
    | exact waited_pure _ (by simp) (by simp))

theorem waited_loop_velocityInterruptBody {σ : Type} (E : Env σ) (oldVelocity : Int) (u : Unit) (s k : Bool) :
    sat (loop_velocityInterruptBody E oldVelocity u) (Waited s k) (fun _ => Waited false false)
      (Waited false false) := by
  simp only [loop_velocityInterruptBody, Serial_print, Serial_println, delay, random, randomRange, motorGet,
    motorDo, Move, MoveVelocity, bind_assoc', pure_bind']
  repeat (first
    | refine waited_call_bind _ _ (fun _ => rfl) (fun _ => ?_)
    | refine waited_move_bind _ _ (fun _ => ?_)
    | refine waited_getTestNum_bind (fun _ => ?_)
    | refine sat_bind (waited_WaitForMotorStop _ _ _) (fun _ => ?_)
    | refine sat_bind (waited_WaitForMotorCruise _ _ _) (fun _ => ?_)
    | refine sat_bind (waited_AssertPosition _ _ _) (fun _ => ?_)
    | refine sat_bind (waited_AssertVelocity _ _ _) (fun _ => ?_)
    | exact waited_pure _ (by simp) (by simp))

theorem waited_loop_abThenRelBody {σ : Type} (E : Env σ) (v : Vars) (s k : Bool) :
    sat (loop_abThenRelBody E v) (Waited s k) (fun _ => Waited false false)
      (Waited false false) := by
  simp only [loop_abThenRelBody, Serial_print, Serial_println, delay, random, randomRange, motorGet,
    motorDo, Move, MoveVelocity, bind_assoc', pure_bind']
  repeat (first
    | refine waited_call_bind _ _ (fun _ => rfl) (fun _ => ?_)
    | refine waited_move_bind _ _ (fun _ => ?_)
    | refine waited_getTestNum_bind (fun _ => ?_)
    | refine sat_bind (waited_WaitForMotorStop _ _ _) (fun _ => ?_)
    | refine sat_bind (waited_WaitForMotorCruise _ _ _) (fun _ => ?_)
    | refine sat_bind (waited_AssertPosition _ _ _) (fun _ => ?_)
    | refine sat_bind (waited_AssertVelocity _ _ _) (fun _ => ?_)
    | exact waited_pure _ (by simp) (by simp))

theorem waited_loop_relThenAbBody {σ : Type} (E : Env σ) (v : Vars) (s k : Bool) :
    sat (loop_relThenAbBody E v) (Waited s k) (fun _ => Waited false false)
      (Waited false false) := by
  simp only [loop_relThenAbBody, Serial_print, Serial_println, delay, random, randomRange, motorGet,
    motorDo, Move, MoveVelocity, bind_assoc', pure_bind']
  repeat (first
    | refine waited_call_bind _ _ (fun _ => rfl) (fun _ => ?_)
    | refine waited_move_bind _ _ (fun _ => ?_)
    | refine waited_getTestNum_bind (fun _ => ?_)
    | refine sat_bind (waited_WaitForMotorStop _ _ _) (fun _ => ?_)
    | refine sat_bind (waited_WaitForMotorCruise _ _ _) (fun _ => ?_)
    | refine sat_bind (waited_AssertPosition _ _ _) (fun _ => ?_)
    | refine sat_bind (waited_AssertVelocity _ _ _) (fun _ => ?_)
    | exact waited_pure _ (by simp) (by simp))

theorem waited_loop_relThenVelBody {σ : Type} (E : Env σ) (v : Vars) (s k : Bool) :
    sat (loop_relThenVelBody E v) (Waited s k) (fun _ => Waited false false)
      (Waited false false) := by
  simp only [loop_relThenVelBody, Serial_print, Serial_println, delay, random, randomRange, motorGet,
    motorDo, Move, MoveVelocity, bind_assoc', pure_bind']
  repeat (first
    | refine waited_call_bind _ _ (fun _ => rfl) (fun _ => ?_)
    | refine waited_move_bind _ _ (fun _ => ?_)
    | refine waited_getTestNum_bind (fun _ => ?_)
    | refine sat_bind (waited_WaitForMotorStop _ _ _) (fun _ => ?_)
    | refine sat_bind (waited_WaitForMotorCruise _ _ _) (fun _ => ?_)
    | refine sat_bind (waited_AssertPosition _ _ _) (fun _ => ?_)
    | refine sat_bind (waited_AssertVelocity _ _ _) (fun _ => ?_)
    | exact waited_pure _ (by simp) (by simp))

theorem waited_loop_velThenRelBody {σ : Type} (E : Env σ) (moveType : MOVE_TARGET) (v : Vars) (s k : Bool) :
    sat (loop_velThenRelBody E moveType v) (Waited s k) (fun _ => Waited false false)
      (Waited false false) := by
  simp only [loop_velThenRelBody, Serial_print, Serial_println, delay, random, randomRange, motorGet,
    motorDo, Move, MoveVelocity, bind_assoc', pure_bind']
  repeat (first
    | refine waited_call_bind _ _ (fun _ => rfl) (fun _ => ?_)
    | refine waited_move_bind _ _ (fun _ => ?_)
    | refine waited_getTestNum_bind (fun _ => ?_)
    | refine sat_bind (waited_WaitForMotorStop _ _ _) (fun _ => ?_)
    | refine sat_bind (waited_WaitForMotorCruise _ _ _) (fun _ => ?_)
    | refine sat_bind (waited_AssertPosition _ _ _) (fun _ => ?_)
    | refine sat_bind (waited_AssertVelocity _ _ _) (fun _ => ?_)
    | exact waited_pure _ (by simp) (by simp))

theorem waited_loop_velThenAbBody {σ : Type} (E : Env σ) (moveType : MOVE_TARGET) (v : Vars) (s k : Bool) :
    sat (loop_velThenAbBody E moveType v) (Waited s k) (fun _ => Waited false false)
      (Waited false false) := by
  simp only [loop_velThenAbBody, Serial_print, Serial_println, delay, random, randomRange, motorGet,
    motorDo, Move, MoveVelocity, bind_assoc', pure_bind']
  repeat (first
    | refine waited_call_bind _ _ (fun _ => rfl) (fun _ => ?_)
    | refine waited_move_bind _ _ (fun _ => ?_)
    | refine waited_getTestNum_bind (fun _ => ?_)
    | refine sat_bind (waited_WaitForMotorStop _ _ _) (fun _ => ?_)
    | refine sat_bind (waited_WaitForMotorCruise _ _ _) (fun _ => ?_)
    | refine sat_bind (waited_AssertPosition _ _ _) (fun _ => ?_)
    | refine sat_bind (waited_AssertVelocity _ _ _) (fun _ => ?_)
    | exact waited_pure _ (by simp) (by simp))

theorem waited_loop_absolute {σ : Type} (E : Env σ) (n : Int) (v : Vars) (s k : Bool) :
    sat (loop_absolute E n v) (Waited s k) (fun _ => Waited false false)
      (Waited false false) := by
  simp only [loop_absolute, Serial_print, Serial_println, delay, random, randomRange, motorGet,
    motorDo, Move, MoveVelocity, bind_assoc', pure_bind']
  repeat (first
    | refine sat_bind (waited_loop_absoluteMove _ _ _ _ _) (fun _ => ?_)
    | refine sat_bind (waited_for (fun v => waited_loop_absoluteBody E _ v _ _) _ _ _ _) (fun _ => ?_)
    | refine waited_call_bind _ _ (fun _ => rfl) (fun _ => ?_)
    | refine waited_move_bind _ _ (fun _ => ?_)
    | refine waited_getTestNum_bind (fun _ => ?_)
    | refine sat_bind (waited_WaitForMotorStop _ _ _) (fun _ => ?_)
    | refine sat_bind (waited_WaitForMotorCruise _ _ _) (fun _ => ?_)
    | refine sat_bind (waited_AssertPosition _ _ _) (fun _ => ?_)
    | refine sat_bind (waited_AssertVelocity _ _ _) (fun _ => ?_)
    | exact waited_pure _ (by simp) (by simp))

theorem waited_loop_relativeFixed {σ : Type} (E : Env σ)  (s k : Bool) :
    sat (loop_relativeFixed E ) (Waited s k) (fun _ => Waited false false)
      (Waited false false) := by
  simp only [loop_relativeFixed, Serial_print, Serial_println, delay, random, randomRange, motorGet,
    motorDo, Move, MoveVelocity, bind_assoc', pure_bind']
  repeat (first
    | refine sat_bind (waited_loop_relativeMove _ _ _ _ _ _) (fun _ => ?_)
    | refine waited_call_bind _ _ (fun _ => rfl) (fun _ => ?_)
    | refine waited_move_bind _ _ (fun _ => ?_)
    | refine waited_getTestNum_bind (fun _ => ?_)
    | refine sat_bind (waited_WaitForMotorStop _ _ _) (fun _ => ?_)
    | refine sat_bind (waited_WaitForMotorCruise _ _ _) (fun _ => ?_)
    | refine sat_bind (waited_AssertPosition _ _ _) (fun _ => ?_)
    | refine sat_bind (waited_AssertVelocity _ _ _) (fun _ => ?_)
    | exact waited_pure _ (by simp) (by simp))

theorem waited_loop_relative {σ : Type} (E : Env σ) (n : Int) (s k : Bool) :
    sat (loop_relative E n) (Waited s k) (fun _ => Waited false false)
      (Waited false false) := by
  simp only [loop_relative, Serial_print, Serial_println, delay, random, randomRange, motorGet,
    motorDo, Move, MoveVelocity, bind_assoc', pure_bind']
  repeat (first
    | refine sat_bind (waited_loop_relativeFixed _ _ _) (fun _ => ?_)
    | refine sat_bind (waited_for (fun v => waited_loop_relativeBody E _ v _ _) _ _ _ _) (fun _ => ?_)
    | refine waited_call_bind _ _ (fun _ => rfl) (fun _ => ?_)
    | refine waited_move_bind _ _ (fun _ => ?_)
    | refine waited_getTestNum_bind (fun _ => ?_)
    | refine sat_bind (waited_WaitForMotorStop _ _ _) (fun _ => ?_)
    | refine sat_bind (waited_WaitForMotorCruise _ _ _) (fun _ => ?_)
    | refine sat_bind (waited_AssertPosition _ _ _) (fun _ => ?_)
    | refine sat_bind (waited_AssertVelocity _ _ _) (fun _ => ?_)
    | exact waited_pure _ (by simp) (by simp))

theorem waited_loop_velocity {σ : Type} (E : Env σ) (n1 n2 : Int) (s k : Bool) :
    sat (loop_velocity E n1 n2) (Waited s k) (fun _ => Waited false false)
      (Waited false false) := by
  simp only [loop_velocity, Serial_print, Serial_println, delay, random, randomRange, motorGet,
    motorDo, Move, MoveVelocity, bind_assoc', pure_bind']
  repeat (first
    | refine sat_bind (waited_for (fun v => waited_loop_velocitySimpleBody E _ v _ _) _ _ _ _) (fun _ => ?_)
    | refine sat_bind (waited_for (fun v => waited_loop_velocityInterruptBody E _ v _ _) _ _ _ _) (fun _ => ?_)
    | refine waited_call_bind _ _ (fun _ => rfl) (fun _ => ?_)
    | refine waited_move_bind _ _ (fun _ => ?_)
    | refine waited_getTestNum_bind (fun _ => ?_)
    | refine sat_bind (waited_WaitForMotorStop _ _ _) (fun _ => ?_)
    | refine sat_bind (waited_WaitForMotorCruise _ _ _) (fun _ => ?_)
    | refine sat_bind (waited_AssertPosition _ _ _) (fun _ => ?_)
    | refine sat_bind (waited_AssertVelocity _ _ _) (fun _ => ?_)
    | exact waited_pure _ (by simp) (by simp))

theorem waited_loop_abThenRel {σ : Type} (E : Env σ) (n : Int) (v : Vars) (s k : Bool) :
    sat (loop_abThenRel E n v) (Waited s k) (fun _ => Waited false false)
      (Waited false false) := by
  simp only [loop_abThenRel, Serial_print, Serial_println, delay, random, randomRange, motorGet,
    motorDo, Move, MoveVelocity, bind_assoc', pure_bind']
  repeat (first
    | refine sat_bind (waited_for (fun v => waited_loop_abThenRelBody E v _ _) _ _ _ _) (fun _ => ?_)
    | refine waited_call_bind _ _ (fun _ => rfl) (fun _ => ?_)
    | refine waited_move_bind _ _ (fun _ => ?_)
    | refine waited_getTestNum_bind (fun _ => ?_)
    | refine sat_bind (waited_WaitForMotorStop _ _ _) (fun _ => ?_)
    | refine sat_bind (waited_WaitForMotorCruise _ _ _) (fun _ => ?_)
    | refine sat_bind (waited_AssertPosition _ _ _) (fun _ => ?_)
    | refine sat_bind (waited_AssertVelocity _ _ _) (fun _ => ?_)
    | exact waited_pure _ (by simp) (by simp))

theorem waited_loop_relThenAb {σ : Type} (E : Env σ) (n : Int) (v : Vars) (s k : Bool) :
    sat (loop_relThenAb E n v) (Waited s k) (fun _ => Waited false false)
      (Waited false false) := by
  simp only [loop_relThenAb, Serial_print, Serial_println, delay, random, randomRange, motorGet,
    motorDo, Move, MoveVelocity, bind_assoc', pure_bind']
  repeat (first
    | refine sat_bind (waited_for (fun v => waited_loop_relThenAbBody E v _ _) _ _ _ _) (fun _ => ?_)
    | refine waited_call_bind _ _ (fun _ => rfl) (fun _ => ?_)
    | refine waited_move_bind _ _ (fun _ => ?_)
    | refine waited_getTestNum_bind (fun _ => ?_)
    | refine sat_bind (waited_WaitForMotorStop _ _ _) (fun _ => ?_)
    | refine sat_bind (waited_WaitForMotorCruise _ _ _) (fun _ => ?_)
    | refine sat_bind (waited_AssertPosition _ _ _) (fun _ => ?_)
    | refine sat_bind (waited_AssertVelocity _ _ _) (fun _ => ?_)
    | exact waited_pure _ (by simp) (by simp))

theorem waited_loop_relThenVel {σ : Type} (E : Env σ) (n : Int) (v : Vars) (s k : Bool) :
    sat (loop_relThenVel E n v) (Waited s k) (fun _ => Waited false false)
      (Waited false false) := by
  simp only [loop_relThenVel, Serial_print, Serial_println, delay, random, randomRange, motorGet,
    motorDo, Move, MoveVelocity, bind_assoc', pure_bind']
  repeat (first
    | refine sat_bind (waited_for (fun v => waited_loop_relThenVelBody E v _ _) _ _ _ _) (fun _ => ?_)
    | refine waited_call_bind _ _ (fun _ => rfl) (fun _ => ?_)
    | refine waited_move_bind _ _ (fun _ => ?_)
    | refine waited_getTestNum_bind (fun _ => ?_)
    | refine sat_bind (waited_WaitForMotorStop _ _ _) (fun _ => ?_)
    | refine sat_bind (waited_WaitForMotorCruise _ _ _) (fun _ => ?_)
    | refine sat_bind (waited_AssertPosition _ _ _) (fun _ => ?_)
    | refine sat_bind (waited_AssertVelocity _ _ _) (fun _ => ?_)
    | exact waited_pure _ (by simp) (by simp))

theorem waited_loop_velThenRel {σ : Type} (E : Env σ) (n : Int) (v : Vars) (s k : Bool) :
    sat (loop_velThenRel E n v) (Waited s k) (fun _ => Waited false false)
      (Waited false false) := by
  simp only [loop_velThenRel, Serial_print, Serial_println, delay, random, randomRange, motorGet,
    motorDo, Move, MoveVelocity, bind_assoc', pure_bind']
  repeat (first
    | refine sat_bind (waited_for (fun v => waited_loop_velThenRelBody E _ v _ _) _ _ _ _) (fun _ => ?_)
    | refine waited_call_bind _ _ (fun _ => rfl) (fun _ => ?_)
    | refine waited_move_bind _ _ (fun _ => ?_)
    | refine waited_getTestNum_bind (fun _ => ?_)
    | refine sat_bind (waited_WaitForMotorStop _ _ _) (fun _ => ?_)
    | refine sat_bind (waited_WaitForMotorCruise _ _ _) (fun _ => ?_)
    | refine sat_bind (waited_AssertPosition _ _ _) (fun _ => ?_)
    | refine sat_bind (waited_AssertVelocity _ _ _) (fun _ => ?_)
    | exact waited_pure _ (by simp) (by simp))

theorem waited_loop_velThenAb {σ : Type} (E : Env σ) (n : Int) (v : Vars) (s k : Bool) :
    sat (loop_velThenAb E n v) (Waited s k) (fun _ => Waited false false)
      (Waited false false) := by
  simp only [loop_velThenAb, Serial_print, Serial_println, delay, random, randomRange, motorGet,
    motorDo, Move, MoveVelocity, bind_assoc', pure_bind']
  repeat (first
    | refine sat_bind (waited_for (fun v => waited_loop_velThenAbBody E _ v _ _) _ _ _ _) (fun _ => ?_)
    | refine waited_call_bind _ _ (fun _ => rfl) (fun _ => ?_)
    | refine waited_move_bind _ _ (fun _ => ?_)
    | refine waited_getTestNum_bind (fun _ => ?_)
    | refine sat_bind (waited_WaitForMotorStop _ _ _) (fun _ => ?_)
    | refine sat_bind (waited_WaitForMotorCruise _ _ _) (fun _ => ?_)
    | refine sat_bind (waited_AssertPosition _ _ _) (fun _ => ?_)
    | refine sat_bind (waited_AssertVelocity _ _ _) (fun _ => ?_)
    | exact waited_pure _ (by simp) (by simp))


theorem waited_loop {σ : Type} (E : Env σ) (s k : Bool) :
    sat (loop E) (Waited s k) (fun _ => Waited false false) (Waited false false) := by
  simp only [loop, if_true, Serial_println, Move, motorDo, bind_assoc', pure_bind']
  refine sat_bind (waited_loop_absolute _ _ _ _ _) (fun _ => ?_)
  refine sat_bind (waited_loop_relative _ _ _ _) (fun _ => ?_)
  refine sat_bind (waited_loop_velocity _ _ _ _ _) (fun _ => ?_)
  refine sat_bind (waited_loop_abThenRel _ _ _ _ _) (fun _ => ?_)
  refine sat_bind (waited_loop_relThenAb _ _ _ _ _) (fun _ => ?_)
  refine sat_bind (waited_loop_relThenVel _ _ _ _ _) (fun _ => ?_)
  refine sat_bind (waited_loop_velThenRel _ _ _ _ _) (fun _ => ?_)
  refine sat_bind (waited_loop_velThenAb _ _ _ _ _) (fun _ => ?_)
  refine waited_call_bind _ _ (fun _ => rfl) (fun _ => ?_)
  refine waited_move_bind _ _ (fun _ => ?_)
  refine sat_bind (waited_WaitForMotorStop _ _ _) (fun _ => ?_)
  refine sat_while (I := Waited true false) (J := Waited true false) ?_ ?_ ?_
  · exact sat_pure (fun w h => by simpa using h.weakenFlags (by simp) (by simp))
  · simp only [delay]
    refine waited_call_bind _ _ (fun _ => rfl) (fun _ => ?_)
    exact waited_pure _ id id
  · intro w h
    exact h.weakenFlags (by simp) (by simp)

theorem stopWaited_iff (tr : List Event) :
    stopWaited tr = true ↔
      ∃ between before : List Event,
        tr = between ++ Event.enter Helper.WaitForMotorStop :: before ∧
        ∀ e ∈ between, isMoveCommand e = false := by
  induction tr with
  | nil => simp [stopWaited]
  | cons e tr ih =>
    simp only [stopWaited, Bool.or_eq_true, decide_eq_true_eq, Bool.and_eq_true,
      Bool.not_eq_true']
    constructor
    · rintro (h | ⟨h1, h2⟩)
      · exact ⟨[], tr, by simp [h], by simp⟩
      · obtain ⟨b, a, hb, hm⟩ := ih.mp h2
        refine ⟨e :: b, a, by simp [hb], ?_⟩
        intro x hx
        rcases List.mem_cons.mp hx with h | h
        · rw [h]; exact h1
        · exact hm x h
    · rintro ⟨b, a, hb, hm⟩
      cases b with
      | nil =>
        left
        simp only [List.nil_append, List.cons.injEq] at hb
        exact hb.1
      | cons x b =>
        right
        simp only [List.cons_append, List.cons.injEq] at hb
        refine ⟨?_, ih.mpr ⟨b, a, hb.2, fun y hy => hm y (List.mem_cons_of_mem _ hy)⟩⟩
        rw [hb.1]
        exact hm x (List.mem_cons_self _ _)

theorem cruiseWaited_iff (tr : List Event) :
    cruiseWaited tr = true ↔
      ∃ between before : List Event,
        tr = between ++ Event.enter Helper.WaitForMotorCruise :: before ∧
        ∀ e ∈ between, isMoveCommand e = false := by
  induction tr with
  | nil => simp [cruiseWaited]
  | cons e tr ih =>
    simp only [cruiseWaited, Bool.or_eq_true, decide_eq_true_eq, Bool.and_eq_true,
      Bool.not_eq_true']
    constructor
    · rintro (h | ⟨h1, h2⟩)
      · exact ⟨[], tr, by simp [h], by simp⟩
      · obtain ⟨b, a, hb, hm⟩ := ih.mp h2
        refine ⟨e :: b, a, by simp [hb], ?_⟩
        intro x hx
        rcases List.mem_cons.mp hx with h | h
        · rw [h]; exact h1
        · exact hm x h
    · rintro ⟨b, a, hb, hm⟩
      cases b with
      | nil =>
        left
        simp only [List.nil_append, List.cons.injEq] at hb
        exact hb.1
      | cons x b =>
        right
        simp only [List.cons_append, List.cons.injEq] at hb
        refine ⟨?_, ih.mpr ⟨b, a, hb.2, fun y hy => hm y (List.mem_cons_of_mem _ hy)⟩⟩
        rw [hb.1]
        exact hm x (List.mem_cons_self _ _)

theorem waitsBeforeAsserts_iff (tr : List Event) :
    waitsBeforeAsserts tr = true ↔ WaitsBeforeAsserts tr := by
  induction tr with
  | nil =>
    simp only [waitsBeforeAsserts, WaitsBeforeAsserts, true_iff]
    constructor <;> intro newer older t h <;> simp at h
  | cons e tr ih =>
    simp only [waitsBeforeAsserts, Bool.and_eq_true, Bool.or_eq_true, Bool.not_eq_true']
    constructor
    · rintro ⟨⟨hp, hv⟩, hrest⟩
      obtain ⟨ihp, ihv⟩ := ih.mp hrest
      constructor
      · intro newer older t h
        cases newer with
        | nil =>
          simp only [List.nil_append, List.cons.injEq] at h
          obtain ⟨he, ht⟩ := h
          rw [he] at hp
          simp only [isAssertPositionEntry, Bool.true_eq_false, false_or] at hp
          rw [← ht]
          exact (stopWaited_iff tr).mp hp
        | cons x newer =>
          simp only [List.cons_append, List.cons.injEq] at h
          exact ihp newer older t h.2
      · intro newer older t h
        cases newer with
        | nil =>
          simp only [List.nil_append, List.cons.injEq] at h
          obtain ⟨he, ht⟩ := h
          rw [he] at hv
          simp only [isAssertVelocityEntry, Bool.true_eq_false, false_or] at hv
          rw [← ht]
          exact (cruiseWaited_iff tr).mp hv
        | cons x newer =>
          simp only [List.cons_append, List.cons.injEq] at h
          exact ihv newer older t h.2
    · rintro ⟨hp, hv⟩
      refine ⟨⟨?_, ?_⟩, ?_⟩
      · cases hpe : isAssertPositionEntry e with
        | false => left; rfl
        | true =>
          right
          cases e with
          | call c r => simp [isAssertPositionEntry] at hpe
          | enter h =>
            cases h with
            | AssertPosition t => exact (stopWaited_iff tr).mpr (hp [] tr t rfl)
            | WaitForMotorStop => simp [isAssertPositionEntry] at hpe
            | WaitForMotorCruise => simp [isAssertPositionEntry] at hpe
            | AssertVelocity t => simp [isAssertPositionEntry] at hpe
      · cases hve : isAssertVelocityEntry e with
        | false => left; rfl
        | true =>
          right
          cases e with
          | call c r => simp [isAssertVelocityEntry] at hve
          | enter h =>
            cases h with
            | AssertVelocity t => exact (cruiseWaited_iff tr).mpr (hv [] tr t rfl)
            | WaitForMotorStop => simp [isAssertVelocityEntry] at hve
            | WaitForMotorCruise => simp [isAssertVelocityEntry] at hve
            | AssertPosition t => simp [isAssertVelocityEntry] at hve
      · refine ih.mpr ⟨?_, ?_⟩
        · intro newer older t h
          exact hp (e :: newer) older t (by simp [h])
        · intro newer older t h
          exact hv (e :: newer) older t (by simp [h])

/-- C5: in every execution of `loop()`, from any world and on any fuel, returned or still
spinning, the history it ends with has every entry into `AssertPosition` preceded by an
entry into `WaitForMotorStop` with no `Move` or `MoveVelocity` between the two, and every
entry into `AssertVelocity` preceded by an entry into `WaitForMotorCruise` with no `Move` or
`MoveVelocity` between the two, provided the history it started with had that property
(the empty history has it). -/
theorem loop_waits_before_asserts {σ : Type} (E : Env σ) (fuel : Nat) (w : World σ)
    (h : WaitsBeforeAsserts w.trace) : WaitsBeforeAsserts (loop E fuel w).world.trace := by
  have hw : Waited false false w := ⟨(waitsBeforeAsserts_iff _).mpr h, by simp, by simp⟩
  have hs := waited_loop E false false fuel w hw
  apply (waitsBeforeAsserts_iff _).mp
  cases hl : loop E fuel w with
  | returned a w1 =>
    rw [hl] at hs
    exact hs.1
  | spinning w1 =>
    rw [hl] at hs
    exact hs.1

/-- Witness for C5 on a collaborator that answers 1 to every call, from the empty history. -/
theorem loop_waits_before_asserts_witness :
    WaitsBeforeAsserts (loop (constEnv 1) 2 (freshWorld ())).world.trace :=
  loop_waits_before_asserts (constEnv 1) 2 (freshWorld ())
    ((waitsBeforeAsserts_iff []).mp rfl)

/-! ## What the code adds to the history -/

theorem adds_pure {σ α : Type} (good : Event → Bool) (a : α) :
    Adds good (pure a : Sketch σ α) :=
  fun _ w => OnlyAdded.refl good w.trace

theorem adds_call {σ : Type} (good : Event → Bool) (E : Env σ) (c : Call)
    (hc : ∀ r, good (Event.call c r) = true) : Adds good (call E c) :=
  fun _ w => OnlyAdded.consEvent (hc _) (OnlyAdded.refl good w.trace)

theorem adds_enter {σ : Type} (good : Event → Bool) (h : Helper)
    (hc : good (Event.enter h) = true) : Adds good (enter h : Sketch σ Unit) :=
  fun _ w => OnlyAdded.consEvent hc (OnlyAdded.refl good w.trace)

theorem adds_getTestNum {σ : Type} (good : Event → Bool) :
    Adds good (getTestNum : Sketch σ Int) :=
  fun _ w => OnlyAdded.refl good w.trace

theorem adds_incrTestNum {σ : Type} (good : Event → Bool) :
    Adds good (incrTestNum : Sketch σ Unit) :=
  fun _ w => OnlyAdded.refl good w.trace

theorem adds_bind {σ α β : Type} {good : Event → Bool} {m : Sketch σ α}
    {f : α → Sketch σ β} (h1 : Adds good m) (h2 : ∀ a, Adds good (f a)) :
    Adds good (m >>= f) := by
  intro fuel w
  have h := h1 fuel w
  simp only [bind_def, Sketch.bind]
  cases hm : m fuel w with
  | returned a w1 =>
    rw [hm] at h
    exact OnlyAdded.trans h (h2 a fuel w1)
  | spinning w1 =>
    rw [hm] at h
    exact h

theorem adds_ite {σ α : Type} {good : Event → Bool} {c : Prop} [Decidable c]
    {m1 m2 : Sketch σ α} (h1 : Adds good m1) (h2 : Adds good m2) :
    Adds good (if c then m1 else m2) := by
  by_cases hc : c
  · rw [if_pos hc]; exact h1
  · rw [if_neg hc]; exact h2

theorem adds_whileGo {σ : Type} {good : Event → Bool} {cond : Sketch σ Bool}
    {body : Sketch σ Unit} (hc : Adds good cond) (hb : Adds good body) (fuel : Nat) :
    ∀ (n : Nat) (w : World σ),
      OnlyAdded good w.trace (whileGo cond body fuel n w).world.trace := by
  intro n
  induction n with
  | zero => intro w; exact OnlyAdded.refl good w.trace
  | succ n ih =>
    intro w
    have h1 := hc fuel w
    simp only [whileGo]
    cases hm : cond fuel w with
    | returned b w1 =>
      rw [hm] at h1
      cases b with
      | true =>
        have h2 := hb fuel w1
        cases hm2 : body fuel w1 with
        | returned u w2 =>
          rw [hm2] at h2
          simp only [hm2]
          exact OnlyAdded.trans (OnlyAdded.trans h1 h2) (ih w2)
        | spinning w2 =>
          rw [hm2] at h2
          simp only [hm2]
          exact OnlyAdded.trans h1 h2
      | false => exact h1
    | spinning w1 =>
      rw [hm] at h1
      exact h1

theorem adds_while {σ : Type} {good : Event → Bool} {cond : Sketch σ Bool}
    {body : Sketch σ Unit} (hc : Adds good cond) (hb : Adds good body) :
    Adds good (whileLoop cond body) :=
  fun fuel w => adds_whileGo hc hb fuel fuel w

theorem adds_for {σ β : Type} {good : Event → Bool} {body : β → Sketch σ β}
    (hb : ∀ s, Adds good (body s)) : ∀ (n : Nat) (s : β), Adds good (forLoop body n s) := by
  intro n
  induction n with
  | zero => intro s; exact adds_pure good s
  | succ n ih =>
    intro s
    exact adds_bind (hb s) (fun a => ih a)

theorem onlyOnMotor_WaitForMotorStop {σ : Type} (E : Env σ)  :
    Adds (notOnOtherMotor Connector.ConnectorM1) (WaitForMotorStop E ) := by
  simp only [WaitForMotorStop, blockForever, millis, setup_serialCond, setup_hlfbCond, setup_hlfbBody,
    Serial_print, Serial_println, delay, random, randomRange, motorGet, motorDo, Move,
    MoveVelocity, if_true, bind_assoc', pure_bind']
  repeat (first
    | refine adds_bind (adds_call _ _ _ (fun _ => rfl)) (fun _ => ?_)
    | refine adds_bind (adds_getTestNum _) (fun _ => ?_)
    | refine adds_bind (adds_enter _ _ rfl) (fun _ => ?_)
    | refine adds_bind (adds_ite ?_ ?_) (fun _ => ?_)
    | refine adds_bind (adds_while ?_ ?_) (fun _ => ?_)
    | exact adds_pure _ _
    | exact adds_call _ _ _ (fun _ => rfl)
    | exact adds_incrTestNum _
    | refine adds_ite ?_ ?_
    | refine adds_while ?_ ?_)

theorem onlyOnMotor_WaitForMotorCruise {σ : Type} (E : Env σ)  :
    Adds (notOnOtherMotor Connector.ConnectorM1) (WaitForMotorCruise E ) := by
  simp only [WaitForMotorCruise, blockForever, millis, setup_serialCond, setup_hlfbCond, setup_hlfbBody,
    Serial_print, Serial_println, delay, random, randomRange, motorGet, motorDo, Move,
    MoveVelocity, if_true, bind_assoc', pure_bind']
  repeat (first
    | refine adds_bind (adds_call _ _ _ (fun _ => rfl)) (fun _ => ?_)
    | refine adds_bind (adds_getTestNum _) (fun _ => ?_)
    | refine adds_bind (adds_enter _ _ rfl) (fun _ => ?_)
    | refine adds_bind (adds_ite ?_ ?_) (fun _ => ?_)
    | refine adds_bind (adds_while ?_ ?_) (fun _ => ?_)
    | exact adds_pure _ _
    | exact adds_call _ _ _ (fun _ => rfl)
    | exact adds_incrTestNum _
    | refine adds_ite ?_ ?_
    | refine adds_while ?_ ?_)

theorem onlyOnMotor_AssertPosition {σ : Type} (E : Env σ) (t : Int) :
    Adds (notOnOtherMotor Connector.ConnectorM1) (AssertPosition E t) := by
  simp only [AssertPosition, blockForever, millis, setup_serialCond, setup_hlfbCond, setup_hlfbBody,
    Serial_print, Serial_println, delay, random, randomRange, motorGet, motorDo, Move,
    MoveVelocity, if_true, bind_assoc', pure_bind']
  repeat (first
    | refine adds_bind (adds_call _ _ _ (fun _ => rfl)) (fun _ => ?_)
    | refine adds_bind (adds_getTestNum _) (fun _ => ?_)
    | refine adds_bind (adds_enter _ _ rfl) (fun _ => ?_)
    | refine adds_bind (adds_ite ?_ ?_) (fun _ => ?_)
    | refine adds_bind (adds_while ?_ ?_) (fun _ => ?_)
    | exact adds_pure _ _
    | exact adds_call _ _ _ (fun _ => rfl)
    | exact adds_incrTestNum _
    | refine adds_ite ?_ ?_
    | refine adds_while ?_ ?_)

theorem onlyOnMotor_AssertVelocity {σ : Type} (E : Env σ) (t : Int) :
    Adds (notOnOtherMotor Connector.ConnectorM1) (AssertVelocity E t) := by
  simp only [AssertVelocity, blockForever, millis, setup_serialCond, setup_hlfbCond, setup_hlfbBody,
    Serial_print, Serial_println, delay, random, randomRange, motorGet, motorDo, Move,
    MoveVelocity, if_true, bind_assoc', pure_bind']
  repeat (first
    | refine adds_bind (adds_call _ _ _ (fun _ => rfl)) (fun _ => ?_)
    | refine adds_bind (adds_getTestNum _) (fun _ => ?_)
    | refine adds_bind (adds_enter _ _ rfl) (fun _ => ?_)
    | refine adds_bind (adds_ite ?_ ?_) (fun _ => ?_)
    | refine adds_bind (adds_while ?_ ?_) (fun _ => ?_)
    | exact adds_pure _ _
    | exact adds_call _ _ _ (fun _ => rfl)
    | exact adds_incrTestNum _
    | refine adds_ite ?_ ?_
    | refine adds_while ?_ ?_)

theorem onlyOnMotor_setup_configure {σ : Type} (E : Env σ)  :
    Adds (notOnOtherMotor Connector.ConnectorM1) (setup_configure E ) := by
  simp only [setup_configure, blockForever, millis, setup_serialCond, setup_hlfbCond, setup_hlfbBody,
    Serial_print, Serial_println, delay, random, randomRange, motorGet, motorDo, Move,
    MoveVelocity, if_true, bind_assoc', pure_bind']
  repeat (first
    | refine adds_bind (adds_call _ _ _ (fun _ => rfl)) (fun _ => ?_)
    | refine adds_bind (adds_getTestNum _) (fun _ => ?_)
    | refine adds_bind (adds_enter _ _ rfl) (fun _ => ?_)
    | refine adds_bind (adds_ite ?_ ?_) (fun _ => ?_)
    | refine adds_bind (adds_while ?_ ?_) (fun _ => ?_)
    | exact adds_pure _ _
    | exact adds_call _ _ _ (fun _ => rfl)
    | exact adds_incrTestNum _
    | refine adds_ite ?_ ?_
    | refine adds_while ?_ ?_)

theorem onlyOnMotor_setup_serialLoop {σ : Type} (E : Env σ) (a b : Int) :
    Adds (notOnOtherMotor Connector.ConnectorM1) (setup_serialLoop E a b) := by
  simp only [setup_serialLoop, blockForever, millis, setup_serialCond, setup_hlfbCond, setup_hlfbBody,
    Serial_print, Serial_println, delay, random, randomRange, motorGet, motorDo, Move,
    MoveVelocity, if_true, bind_assoc', pure_bind']
  repeat (first
    | refine adds_bind (adds_call _ _ _ (fun _ => rfl)) (fun _ => ?_)
    | refine adds_bind (adds_getTestNum _) (fun _ => ?_)
    | refine adds_bind (adds_enter _ _ rfl) (fun _ => ?_)
    | refine adds_bind (adds_ite ?_ ?_) (fun _ => ?_)
    | refine adds_bind (adds_while ?_ ?_) (fun _ => ?_)
    | exact adds_pure _ _
    | exact adds_call _ _ _ (fun _ => rfl)
    | exact adds_incrTestNum _
    | refine adds_ite ?_ ?_
    | refine adds_while ?_ ?_)

theorem onlyOnMotor_setup_serialWait {σ : Type} (E : Env σ)  :
    Adds (notOnOtherMotor Connector.ConnectorM1) (setup_serialWait E ) := by
  simp only [setup_serialWait, blockForever, millis, setup_serialCond, setup_hlfbCond, setup_hlfbBody,
    Serial_print, Serial_println, delay, random, randomRange, motorGet, motorDo, Move,
    MoveVelocity, if_true, bind_assoc', pure_bind']
  repeat (first
    | refine adds_bind (adds_call _ _ _ (fun _ => rfl)) (fun _ => ?_)
    | refine adds_bind (adds_getTestNum _) (fun _ => ?_)
    | refine adds_bind (adds_enter _ _ rfl) (fun _ => ?_)
    | refine adds_bind (onlyOnMotor_setup_serialLoop E _ _) (fun _ => ?_)
    | refine adds_bind (adds_ite ?_ ?_) (fun _ => ?_)
    | refine adds_bind (adds_while ?_ ?_) (fun _ => ?_)
    | exact adds_pure _ _
    | exact adds_call _ _ _ (fun _ => rfl)
    | exact adds_incrTestNum _
    | exact (onlyOnMotor_setup_serialLoop E _ _)
    | refine adds_ite ?_ ?_
    | refine adds_while ?_ ?_)

theorem onlyOnMotor_setup_enable {σ : Type} (E : Env σ)  :
    Adds (notOnOtherMotor Connector.ConnectorM1) (setup_enable E ) := by
  simp only [setup_enable, blockForever, millis, setup_serialCond, setup_hlfbCond, setup_hlfbBody,
    Serial_print, Serial_println, delay, random, randomRange, motorGet, motorDo, Move,
    MoveVelocity, if_true, bind_assoc', pure_bind']
  repeat (first
    | refine adds_bind (adds_call _ _ _ (fun _ => rfl)) (fun _ => ?_)
    | refine adds_bind (adds_getTestNum _) (fun _ => ?_)
    | refine adds_bind (adds_enter _ _ rfl) (fun _ => ?_)
    | refine adds_bind (adds_ite ?_ ?_) (fun _ => ?_)
    | refine adds_bind (adds_while ?_ ?_) (fun _ => ?_)
    | exact adds_pure _ _
    | exact adds_call _ _ _ (fun _ => rfl)
    | exact adds_incrTestNum _
    | refine adds_ite ?_ ?_
    | refine adds_while ?_ ?_)

theorem onlyOnMotor_setup_beforeFaultCheck {σ : Type} (E : Env σ)  :
    Adds (notOnOtherMotor Connector.ConnectorM1) (setup_beforeFaultCheck E ) := by
  simp only [setup_beforeFaultCheck, blockForever, millis, setup_serialCond, setup_hlfbCond, setup_hlfbBody,
    Serial_print, Serial_println, delay, random, randomRange, motorGet, motorDo, Move,
    MoveVelocity, if_true, bind_assoc', pure_bind']
  repeat (first
    | refine adds_bind (adds_call _ _ _ (fun _ => rfl)) (fun _ => ?_)
    | refine adds_bind (adds_getTestNum _) (fun _ => ?_)
    | refine adds_bind (adds_enter _ _ rfl) (fun _ => ?_)
    | refine adds_bind (onlyOnMotor_setup_configure E) (fun _ => ?_)
    | refine adds_bind (onlyOnMotor_setup_serialWait E) (fun _ => ?_)
    | refine adds_bind (onlyOnMotor_setup_enable E) (fun _ => ?_)
    | refine adds_bind (adds_ite ?_ ?_) (fun _ => ?_)
    | refine adds_bind (adds_while ?_ ?_) (fun _ => ?_)
    | exact adds_pure _ _
    | exact adds_call _ _ _ (fun _ => rfl)
    | exact adds_incrTestNum _
    | exact (onlyOnMotor_setup_configure E)
    | exact (onlyOnMotor_setup_serialWait E)
    | exact (onlyOnMotor_setup_enable E)
    | refine adds_ite ?_ ?_
    | refine adds_while ?_ ?_)

theorem onlyOnMotor_setup_faultCheck {σ : Type} (E : Env σ)  :
    Adds (notOnOtherMotor Connector.ConnectorM1) (setup_faultCheck E ) := by
  simp only [setup_faultCheck, blockForever, millis, setup_serialCond, setup_hlfbCond, setup_hlfbBody,
    Serial_print, Serial_println, delay, random, randomRange, motorGet, motorDo, Move,
    MoveVelocity, if_true, bind_assoc', pure_bind']
  repeat (first
    | refine adds_bind (adds_call _ _ _ (fun _ => rfl)) (fun _ => ?_)
    | refine adds_bind (adds_getTestNum _) (fun _ => ?_)
    | refine adds_bind (adds_enter _ _ rfl) (fun _ => ?_)
    | refine adds_bind (adds_ite ?_ ?_) (fun _ => ?_)
    | refine adds_bind (adds_while ?_ ?_) (fun _ => ?_)
    | exact adds_pure _ _
    | exact adds_call _ _ _ (fun _ => rfl)
    | exact adds_incrTestNum _
    | refine adds_ite ?_ ?_
    | refine adds_while ?_ ?_)

theorem onlyOnMotor_setup_hlfbLoop {σ : Type} (E : Env σ) (a b : Int) :
    Adds (notOnOtherMotor Connector.ConnectorM1) (setup_hlfbLoop E a b) := by
  simp only [setup_hlfbLoop, blockForever, millis, setup_serialCond, setup_hlfbCond, setup_hlfbBody,
    Serial_print, Serial_println, delay, random, randomRange, motorGet, motorDo, Move,
    MoveVelocity, if_true, bind_assoc', pure_bind']
  repeat (first
    | refine adds_bind (adds_call _ _ _ (fun _ => rfl)) (fun _ => ?_)
    | refine adds_bind (adds_getTestNum _) (fun _ => ?_)
    | refine adds_bind (adds_enter _ _ rfl) (fun _ => ?_)
    | refine adds_bind (adds_ite ?_ ?_) (fun _ => ?_)
    | refine adds_bind (adds_while ?_ ?_) (fun _ => ?_)
    | exact adds_pure _ _
    | exact adds_call _ _ _ (fun _ => rfl)
    | exact adds_incrTestNum _
    | refine adds_ite ?_ ?_
    | refine adds_while ?_ ?_)

theorem onlyOnMotor_setup_beforeHlfbLoop {σ : Type} (E : Env σ)  :
    Adds (notOnOtherMotor Connector.ConnectorM1) (setup_beforeHlfbLoop E ) := by
  simp only [setup_beforeHlfbLoop, blockForever, millis, setup_serialCond, setup_hlfbCond, setup_hlfbBody,
    Serial_print, Serial_println, delay, random, randomRange, motorGet, motorDo, Move,
    MoveVelocity, if_true, bind_assoc', pure_bind']
  repeat (first
    | refine adds_bind (adds_call _ _ _ (fun _ => rfl)) (fun _ => ?_)
    | refine adds_bind (adds_getTestNum _) (fun _ => ?_)
    | refine adds_bind (adds_enter _ _ rfl) (fun _ => ?_)
    | refine adds_bind (adds_ite ?_ ?_) (fun _ => ?_)
    | refine adds_bind (adds_while ?_ ?_) (fun _ => ?_)
    | exact adds_pure _ _
    | exact adds_call _ _ _ (fun _ => rfl)
    | exact adds_incrTestNum _
    | refine adds_ite ?_ ?_
    | refine adds_while ?_ ?_)

theorem onlyOnMotor_setup_afterFaultCheck {σ : Type} (E : Env σ)  :
    Adds (notOnOtherMotor Connector.ConnectorM1) (setup_afterFaultCheck E ) := by
  simp only [setup_afterFaultCheck, blockForever, millis, setup_serialCond, setup_hlfbCond, setup_hlfbBody,
    Serial_print, Serial_println, delay, random, randomRange, motorGet, motorDo, Move,
    MoveVelocity, if_true, bind_assoc', pure_bind']
  repeat (first
    | refine adds_bind (adds_call _ _ _ (fun _ => rfl)) (fun _ => ?_)
    | refine adds_bind (adds_getTestNum _) (fun _ => ?_)
    | refine adds_bind (adds_enter _ _ rfl) (fun _ => ?_)
    | refine adds_bind (onlyOnMotor_setup_beforeHlfbLoop E) (fun _ => ?_)
    | refine adds_bind (onlyOnMotor_setup_hlfbLoop E _ _) (fun _ => ?_)
    | refine adds_bind (adds_ite ?_ ?_) (fun _ => ?_)
    | refine adds_bind (adds_while ?_ ?_) (fun _ => ?_)
    | exact adds_pure _ _
    | exact adds_call _ _ _ (fun _ => rfl)
    | exact adds_incrTestNum _
    | exact (onlyOnMotor_setup_beforeHlfbLoop E)
    | exact (onlyOnMotor_setup_hlfbLoop E _ _)
    | refine adds_ite ?_ ?_
    | refine adds_while ?_ ?_)

theorem onlyOnMotor_setup {σ : Type} (E : Env σ)  :
    Adds (notOnOtherMotor Connector.ConnectorM1) (setup E ) := by
  simp only [setup, blockForever, millis, setup_serialCond, setup_hlfbCond, setup_hlfbBody,
    Serial_print, Serial_println, delay, random, randomRange, motorGet, motorDo, Move,
    MoveVelocity, if_true, bind_assoc', pure_bind']
  repeat (first
    | refine adds_bind (adds_call _ _ _ (fun _ => rfl)) (fun _ => ?_)
    | refine adds_bind (adds_getTestNum _) (fun _ => ?_)
    | refine adds_bind (adds_enter _ _ rfl) (fun _ => ?_)
    | refine adds_bind (onlyOnMotor_setup_beforeFaultCheck E) (fun _ => ?_)
    | refine adds_bind (onlyOnMotor_setup_faultCheck E) (fun _ => ?_)
    | refine adds_bind (onlyOnMotor_setup_afterFaultCheck E) (fun _ => ?_)
    | refine adds_bind (adds_ite ?_ ?_) (fun _ => ?_)
    | refine adds_bind (adds_while ?_ ?_) (fun _ => ?_)
    | exact adds_pure _ _
    | exact adds_call _ _ _ (fun _ => rfl)
    | exact adds_incrTestNum _
    | exact (onlyOnMotor_setup_beforeFaultCheck E)
    | exact (onlyOnMotor_setup_faultCheck E)
    | exact (onlyOnMotor_setup_afterFaultCheck E)
    | refine adds_ite ?_ ?_
    | refine adds_while ?_ ?_)

theorem onlyOnMotor_loop_absoluteMove {σ : Type} (E : Env σ) (mt : MOVE_TARGET) (t : Int) :
    Adds (notOnOtherMotor Connector.ConnectorM1) (loop_absoluteMove E mt t) := by
  simp only [loop_absoluteMove, blockForever, millis, setup_serialCond, setup_hlfbCond, setup_hlfbBody,
    Serial_print, Serial_println, delay, random, randomRange, motorGet, motorDo, Move,
    MoveVelocity, if_true, bind_assoc', pure_bind']
  repeat (first
    | refine adds_bind (adds_call _ _ _ (fun _ => rfl)) (fun _ => ?_)
    | refine adds_bind (adds_getTestNum _) (fun _ => ?_)
    | refine adds_bind (adds_enter _ _ rfl) (fun _ => ?_)
    | refine adds_bind (onlyOnMotor_WaitForMotorStop E) (fun _ => ?_)
    | refine adds_bind (onlyOnMotor_AssertPosition E _) (fun _ => ?_)
    | refine adds_bind (adds_ite ?_ ?_) (fun _ => ?_)
    | refine adds_bind (adds_while ?_ ?_) (fun _ => ?_)
    | exact adds_pure _ _
    | exact adds_call _ _ _ (fun _ => rfl)
    | exact adds_incrTestNum _
    | exact (onlyOnMotor_WaitForMotorStop E)
    | exact (onlyOnMotor_AssertPosition E _)
    | refine adds_ite ?_ ?_
    | refine adds_while ?_ ?_)

theorem onlyOnMotor_loop_absoluteBody {σ : Type} (E : Env σ) (mt : MOVE_TARGET) (v : Vars) :
    Adds (notOnOtherMotor Connector.ConnectorM1) (loop_absoluteBody E mt v) := by
  simp only [loop_absoluteBody, blockForever, millis, setup_serialCond, setup_hlfbCond, setup_hlfbBody,
    Serial_print, Serial_println, delay, random, randomRange, motorGet, motorDo, Move,
    MoveVelocity, if_true, bind_assoc', pure_bind']
  repeat (first
    | refine adds_bind (adds_call _ _ _ (fun _ => rfl)) (fun _ => ?_)
    | refine adds_bind (adds_getTestNum _) (fun _ => ?_)
    | refine adds_bind (adds_enter _ _ rfl) (fun _ => ?_)
    | refine adds_bind (onlyOnMotor_WaitForMotorStop E) (fun _ => ?_)
    | refine adds_bind (onlyOnMotor_AssertPosition E _) (fun _ => ?_)
    | refine adds_bind (adds_ite ?_ ?_) (fun _ => ?_)
    | refine adds_bind (adds_while ?_ ?_) (fun _ => ?_)
    | exact adds_pure _ _
    | exact adds_call _ _ _ (fun _ => rfl)
    | exact adds_incrTestNum _
    | exact (onlyOnMotor_WaitForMotorStop E)
    | exact (onlyOnMotor_AssertPosition E _)
    | refine adds_ite ?_ ?_
    | refine adds_while ?_ ?_)

theorem onlyOnMotor_loop_absolute {σ : Type} (E : Env σ) (n : Int) (v : Vars) :
    Adds (notOnOtherMotor Connector.ConnectorM1) (loop_absolute E n v) := by
  simp only [loop_absolute, blockForever, millis, setup_serialCond, setup_hlfbCond, setup_hlfbBody,
    Serial_print, Serial_println, delay, random, randomRange, motorGet, motorDo, Move,
    MoveVelocity, if_true, bind_assoc', pure_bind']
  repeat (first
    | refine adds_bind (adds_call _ _ _ (fun _ => rfl)) (fun _ => ?_)
    | refine adds_bind (adds_getTestNum _) (fun _ => ?_)
    | refine adds_bind (adds_enter _ _ rfl) (fun _ => ?_)
    | refine adds_bind (onlyOnMotor_loop_absoluteMove E _ _) (fun _ => ?_)
    | refine adds_bind (onlyOnMotor_WaitForMotorStop E) (fun _ => ?_)
    | refine adds_bind (adds_for (fun _ => onlyOnMotor_loop_absoluteBody E _ _) _ _) (fun _ => ?_)
    | refine adds_bind (adds_ite ?_ ?_) (fun _ => ?_)
    | refine adds_bind (adds_while ?_ ?_) (fun _ => ?_)
    | exact adds_pure _ _
    | exact adds_call _ _ _ (fun _ => rfl)
    | exact adds_incrTestNum _
    | exact (onlyOnMotor_loop_absoluteMove E _ _)
    | exact (onlyOnMotor_WaitForMotorStop E)
    | exact (adds_for (fun _ => onlyOnMotor_loop_absoluteBody E _ _) _ _)
    | refine adds_ite ?_ ?_
    | refine adds_while ?_ ?_)

theorem onlyOnMotor_loop_relativeMove {σ : Type} (E : Env σ) (mt : MOVE_TARGET) (a b : Int) :
    Adds (notOnOtherMotor Connector.ConnectorM1) (loop_relativeMove E mt a b) := by
  simp only [loop_relativeMove, blockForever, millis, setup_serialCond, setup_hlfbCond, setup_hlfbBody,
    Serial_print, Serial_println, delay, random, randomRange, motorGet, motorDo, Move,
    MoveVelocity, if_true, bind_assoc', pure_bind']
  repeat (first
    | refine adds_bind (adds_call _ _ _ (fun _ => rfl)) (fun _ => ?_)
    | refine adds_bind (adds_getTestNum _) (fun _ => ?_)
    | refine adds_bind (adds_enter _ _ rfl) (fun _ => ?_)
    | refine adds_bind (onlyOnMotor_WaitForMotorStop E) (fun _ => ?_)
    | refine adds_bind (onlyOnMotor_AssertPosition E _) (fun _ => ?_)
    | refine adds_bind (adds_ite ?_ ?_) (fun _ => ?_)
    | refine adds_bind (adds_while ?_ ?_) (fun _ => ?_)
    | exact adds_pure _ _
    | exact adds_call _ _ _ (fun _ => rfl)
    | exact adds_incrTestNum _
    | exact (onlyOnMotor_WaitForMotorStop E)
    | exact (onlyOnMotor_AssertPosition E _)
    | refine adds_ite ?_ ?_
    | refine adds_while ?_ ?_)

theorem onlyOnMotor_loop_relativeFixed {σ : Type} (E : Env σ)  :
    Adds (notOnOtherMotor Connector.ConnectorM1) (loop_relativeFixed E ) := by
  simp only [loop_relativeFixed, blockForever, millis, setup_serialCond, setup_hlfbCond, setup_hlfbBody,
    Serial_print, Serial_println, delay, random, randomRange, motorGet, motorDo, Move,
    MoveVelocity, if_true, bind_assoc', pure_bind']
  repeat (first
    | refine adds_bind (adds_call _ _ _ (fun _ => rfl)) (fun _ => ?_)
    | refine adds_bind (adds_getTestNum _) (fun _ => ?_)
    | refine adds_bind (adds_enter _ _ rfl) (fun _ => ?_)
    | refine adds_bind (onlyOnMotor_loop_relativeMove E _ _ _) (fun _ => ?_)
    | refine adds_bind (onlyOnMotor_WaitForMotorStop E) (fun _ => ?_)
    | refine adds_bind (onlyOnMotor_AssertPosition E _) (fun _ => ?_)
    | refine adds_bind (adds_ite ?_ ?_) (fun _ => ?_)
    | refine adds_bind (adds_while ?_ ?_) (fun _ => ?_)
    | exact adds_pure _ _
    | exact adds_call _ _ _ (fun _ => rfl)
    | exact adds_incrTestNum _
    | exact (onlyOnMotor_loop_relativeMove E _ _ _)
    | exact (onlyOnMotor_WaitForMotorStop E)
    | exact (onlyOnMotor_AssertPosition E _)
    | refine adds_ite ?_ ?_
    | refine adds_while ?_ ?_)

theorem onlyOnMotor_loop_relativeBody {σ : Type} (E : Env σ) (mt : MOVE_TARGET) (v : Vars) :
    Adds (notOnOtherMotor Connector.ConnectorM1) (loop_relativeBody E mt v) := by
  simp only [loop_relativeBody, blockForever, millis, setup_serialCond, setup_hlfbCond, setup_hlfbBody,
    Serial_print, Serial_println, delay, random, randomRange, motorGet, motorDo, Move,
    MoveVelocity, if_true, bind_assoc', pure_bind']
  repeat (first
    | refine adds_bind (adds_call _ _ _ (fun _ => rfl)) (fun _ => ?_)
    | refine adds_bind (adds_getTestNum _) (fun _ => ?_)
    | refine adds_bind (adds_enter _ _ rfl) (fun _ => ?_)
    | refine adds_bind (onlyOnMotor_WaitForMotorStop E) (fun _ => ?_)
    | refine adds_bind (onlyOnMotor_AssertPosition E _) (fun _ => ?_)
    | refine adds_bind (adds_ite ?_ ?_) (fun _ => ?_)
    | refine adds_bind (adds_while ?_ ?_) (fun _ => ?_)
    | exact adds_pure _ _
    | exact adds_call _ _ _ (fun _ => rfl)
    | exact adds_incrTestNum _
    | exact (onlyOnMotor_WaitForMotorStop E)
    | exact (onlyOnMotor_AssertPosition E _)
    | refine adds_ite ?_ ?_
    | refine adds_while ?_ ?_)

theorem onlyOnMotor_loop_relative {σ : Type} (E : Env σ) (n : Int) :
    Adds (notOnOtherMotor Connector.ConnectorM1) (loop_relative E n) := by
  simp only [loop_relative, blockForever, millis, setup_serialCond, setup_hlfbCond, setup_hlfbBody,
    Serial_print, Serial_println, delay, random, randomRange, motorGet, motorDo, Move,
    MoveVelocity, if_true, bind_assoc', pure_bind']
  repeat (first
    | refine adds_bind (adds_call _ _ _ (fun _ => rfl)) (fun _ => ?_)
    | refine adds_bind (adds_getTestNum _) (fun _ => ?_)
    | refine adds_bind (adds_enter _ _ rfl) (fun _ => ?_)
    | refine adds_bind (onlyOnMotor_loop_relativeFixed E) (fun _ => ?_)
    | refine adds_bind (adds_for (fun _ => onlyOnMotor_loop_relativeBody E _ _) _ _) (fun _ => ?_)
    | refine adds_bind (adds_ite ?_ ?_) (fun _ => ?_)
    | refine adds_bind (adds_while ?_ ?_) (fun _ => ?_)
    | exact adds_pure _ _
    | exact adds_call _ _ _ (fun _ => rfl)
    | exact adds_incrTestNum _
    | exact (onlyOnMotor_loop_relativeFixed E)
    | exact (adds_for (fun _ => onlyOnMotor_loop_relativeBody E _ _) _ _)
    | refine adds_ite ?_ ?_
    | refine adds_while ?_ ?_)

theorem onlyOnMotor_loop_velocitySimpleBody {σ : Type} (E : Env σ) (a : Int) (u : Unit) :
    Adds (notOnOtherMotor Connector.ConnectorM1) (loop_velocitySimpleBody E a u) := by
  simp only [loop_velocitySimpleBody, blockForever, millis, setup_serialCond, setup_hlfbCond, setup_hlfbBody,
    Serial_print, Serial_println, delay, random, randomRange, motorGet, motorDo, Move,
    MoveVelocity, if_true, bind_assoc', pure_bind']
  repeat (first
    | refine adds_bind (adds_call _ _ _ (fun _ => rfl)) (fun _ => ?_)
    | refine adds_bind (adds_getTestNum _) (fun _ => ?_)
    | refine adds_bind (adds_enter _ _ rfl) (fun _ => ?_)
    | refine adds_bind (onlyOnMotor_WaitForMotorCruise E) (fun _ => ?_)
    | refine adds_bind (onlyOnMotor_AssertVelocity E _) (fun _ => ?_)
    | refine adds_bind (adds_ite ?_ ?_) (fun _ => ?_)
    | refine adds_bind (adds_while ?_ ?_) (fun _ => ?_)
    | exact adds_pure _ _
    | exact adds_call _ _ _ (fun _ => rfl)
    | exact adds_incrTestNum _
    | exact (onlyOnMotor_WaitForMotorCruise E)
    | exact (onlyOnMotor_AssertVelocity E _)
    | refine adds_ite ?_ ?_
    | refine adds_while ?_ ?_)

theorem onlyOnMotor_loop_velocityInterruptBody {σ : Type} (E : Env σ) (a : Int) (u : Unit) :
    Adds (notOnOtherMotor Connector.ConnectorM1) (loop_velocityInterruptBody E a u) := by
  simp only [loop_velocityInterruptBody, blockForever, millis, setup_serialCond, setup_hlfbCond, setup_hlfbBody,
    Serial_print, Serial_println, delay, random, randomRange, motorGet, motorDo, Move,
    MoveVelocity, if_true, bind_assoc', pure_bind']
  repeat (first
    | refine adds_bind (adds_call _ _ _ (fun _ => rfl)) (fun _ => ?_)
    | refine adds_bind (adds_getTestNum _) (fun _ => ?_)
    | refine adds_bind (adds_enter _ _ rfl) (fun _ => ?_)
    | refine adds_bind (onlyOnMotor_WaitForMotorCruise E) (fun _ => ?_)
    | refine adds_bind (onlyOnMotor_AssertVelocity E _) (fun _ => ?_)
    | refine adds_bind (adds_ite ?_ ?_) (fun _ => ?_)
    | refine adds_bind (adds_while ?_ ?_) (fun _ => ?_)
    | exact adds_pure _ _
    | exact adds_call _ _ _ (fun _ => rfl)
    | exact adds_incrTestNum _
    | exact (onlyOnMotor_WaitForMotorCruise E)
    | exact (onlyOnMotor_AssertVelocity E _)
    | refine adds_ite ?_ ?_
    | refine adds_while ?_ ?_)

theorem onlyOnMotor_loop_velocity {σ : Type} (E : Env σ) (a b : Int) :
    Adds (notOnOtherMotor Connector.ConnectorM1) (loop_velocity E a b) := by
  simp only [loop_velocity, blockForever, millis, setup_serialCond, setup_hlfbCond, setup_hlfbBody,
    Serial_print, Serial_println, delay, random, randomRange, motorGet, motorDo, Move,
    MoveVelocity, if_true, bind_assoc', pure_bind']
  repeat (first
    | refine adds_bind (adds_call _ _ _ (fun _ => rfl)) (fun _ => ?_)
    | refine adds_bind (adds_getTestNum _) (fun _ => ?_)
    | refine adds_bind (adds_enter _ _ rfl) (fun _ => ?_)
    | refine adds_bind (adds_for (fun _ => onlyOnMotor_loop_velocitySimpleBody E _ _) _ _) (fun _ => ?_)
    | refine adds_bind (adds_for (fun _ => onlyOnMotor_loop_velocityInterruptBody E _ _) _ _) (fun _ => ?_)
    | refine adds_bind (adds_ite ?_ ?_) (fun _ => ?_)
    | refine adds_bind (adds_while ?_ ?_) (fun _ => ?_)
    | exact adds_pure _ _
    | exact adds_call _ _ _ (fun _ => rfl)
    | exact adds_incrTestNum _
    | exact (adds_for (fun _ => onlyOnMotor_loop_velocitySimpleBody E _ _) _ _)
    | exact (adds_for (fun _ => onlyOnMotor_loop_velocityInterruptBody E _ _) _ _)
    | refine adds_ite ?_ ?_
    | refine adds_while ?_ ?_)

theorem onlyOnMotor_loop_abThenRelBody {σ : Type} (E : Env σ) (v : Vars) :
    Adds (notOnOtherMotor Connector.ConnectorM1) (loop_abThenRelBody E v) := by
  simp only [loop_abThenRelBody, blockForever, millis, setup_serialCond, setup_hlfbCond, setup_hlfbBody,
    Serial_print, Serial_println, delay, random, randomRange, motorGet, motorDo, Move,
    MoveVelocity, if_true, bind_assoc', pure_bind']
  repeat (first
    | refine adds_bind (adds_call _ _ _ (fun _ => rfl)) (fun _ => ?_)
    | refine adds_bind (adds_getTestNum _) (fun _ => ?_)
    | refine adds_bind (adds_enter _ _ rfl) (fun _ => ?_)
    | refine adds_bind (onlyOnMotor_WaitForMotorStop E) (fun _ => ?_)
    | refine adds_bind (onlyOnMotor_AssertPosition E _) (fun _ => ?_)
    | refine adds_bind (adds_ite ?_ ?_) (fun _ => ?_)
    | refine adds_bind (adds_while ?_ ?_) (fun _ => ?_)
    | exact adds_pure _ _
    | exact adds_call _ _ _ (fun _ => rfl)
    | exact adds_incrTestNum _
    | exact (onlyOnMotor_WaitForMotorStop E)
    | exact (onlyOnMotor_AssertPosition E _)
    | refine adds_ite ?_ ?_
    | refine adds_while ?_ ?_)

theorem onlyOnMotor_loop_abThenRel {σ : Type} (E : Env σ) (n : Int) (v : Vars) :
    Adds (notOnOtherMotor Connector.ConnectorM1) (loop_abThenRel E n v) := by
  simp only [loop_abThenRel, blockForever, millis, setup_serialCond, setup_hlfbCond, setup_hlfbBody,
    Serial_print, Serial_println, delay, random, randomRange, motorGet, motorDo, Move,
    MoveVelocity, if_true, bind_assoc', pure_bind']
  repeat (first
    | refine adds_bind (adds_call _ _ _ (fun _ => rfl)) (fun _ => ?_)
    | refine adds_bind (adds_getTestNum _) (fun _ => ?_)
    | refine adds_bind (adds_enter _ _ rfl) (fun _ => ?_)
    | refine adds_bind (onlyOnMotor_WaitForMotorStop E) (fun _ => ?_)
    | refine adds_bind (adds_for (fun _ => onlyOnMotor_loop_abThenRelBody E _) _ _) (fun _ => ?_)
    | refine adds_bind (adds_ite ?_ ?_) (fun _ => ?_)
    | refine adds_bind (adds_while ?_ ?_) (fun _ => ?_)
    | exact adds_pure _ _
    | exact adds_call _ _ _ (fun _ => rfl)
    | exact adds_incrTestNum _
    | exact (onlyOnMotor_WaitForMotorStop E)
    | exact (adds_for (fun _ => onlyOnMotor_loop_abThenRelBody E _) _ _)
    | refine adds_ite ?_ ?_
    | refine adds_while ?_ ?_)

theorem onlyOnMotor_loop_relThenAbBody {σ : Type} (E : Env σ) (v : Vars) :
    Adds (notOnOtherMotor Connector.ConnectorM1) (loop_relThenAbBody E v) := by
  simp only [loop_relThenAbBody, blockForever, millis, setup_serialCond, setup_hlfbCond, setup_hlfbBody,
    Serial_print, Serial_println, delay, random, randomRange, motorGet, motorDo, Move,
    MoveVelocity, if_true, bind_assoc', pure_bind']
  repeat (first
    | refine adds_bind (adds_call _ _ _ (fun _ => rfl)) (fun _ => ?_)
    | refine adds_bind (adds_getTestNum _) (fun _ => ?_)
    | refine adds_bind (adds_enter _ _ rfl) (fun _ => ?_)
    | refine adds_bind (onlyOnMotor_WaitForMotorStop E) (fun _ => ?_)
    | refine adds_bind (onlyOnMotor_AssertPosition E _) (fun _ => ?_)
    | refine adds_bind (adds_ite ?_ ?_) (fun _ => ?_)
    | refine adds_bind (adds_while ?_ ?_) (fun _ => ?_)
    | exact adds_pure _ _
    | exact adds_call _ _ _ (fun _ => rfl)
    | exact adds_incrTestNum _
    | exact (onlyOnMotor_WaitForMotorStop E)
    | exact (onlyOnMotor_AssertPosition E _)
    | refine adds_ite ?_ ?_
    | refine adds_while ?_ ?_)

theorem onlyOnMotor_loop_relThenAb {σ : Type} (E : Env σ) (n : Int) (v : Vars) :
    Adds (notOnOtherMotor Connector.ConnectorM1) (loop_relThenAb E n v) := by
  simp only [loop_relThenAb, blockForever, millis, setup_serialCond, setup_hlfbCond, setup_hlfbBody,
    Serial_print, Serial_println, delay, random, randomRange, motorGet, motorDo, Move,
    MoveVelocity, if_true, bind_assoc', pure_bind']
  repeat (first
    | refine adds_bind (adds_call _ _ _ (fun _ => rfl)) (fun _ => ?_)
    | refine adds_bind (adds_getTestNum _) (fun _ => ?_)
    | refine adds_bind (adds_enter _ _ rfl) (fun _ => ?_)
    | refine adds_bind (onlyOnMotor_WaitForMotorStop E) (fun _ => ?_)
    | refine adds_bind (adds_for (fun _ => onlyOnMotor_loop_relThenAbBody E _) _ _) (fun _ => ?_)
    | refine adds_bind (adds_ite ?_ ?_) (fun _ => ?_)
    | refine adds_bind (adds_while ?_ ?_) (fun _ => ?_)
    | exact adds_pure _ _
    | exact adds_call _ _ _ (fun _ => rfl)
    | exact adds_incrTestNum _
    | exact (onlyOnMotor_WaitForMotorStop E)
    | exact (adds_for (fun _ => onlyOnMotor_loop_relThenAbBody E _) _ _)
    | refine adds_ite ?_ ?_
    | refine adds_while ?_ ?_)

theorem onlyOnMotor_loop_relThenVelBody {σ : Type} (E : Env σ) (v : Vars) :
    Adds (notOnOtherMotor Connector.ConnectorM1) (loop_relThenVelBody E v) := by
  simp only [loop_relThenVelBody, blockForever, millis, setup_serialCond, setup_hlfbCond, setup_hlfbBody,
    Serial_print, Serial_println, delay, random, randomRange, motorGet, motorDo, Move,
    MoveVelocity, if_true, bind_assoc', pure_bind']
  repeat (first
    | refine adds_bind (adds_call _ _ _ (fun _ => rfl)) (fun _ => ?_)
    | refine adds_bind (adds_getTestNum _) (fun _ => ?_)
    | refine adds_bind (adds_enter _ _ rfl) (fun _ => ?_)
    | refine adds_bind (onlyOnMotor_WaitForMotorStop E) (fun _ => ?_)
    | refine adds_bind (onlyOnMotor_WaitForMotorCruise E) (fun _ => ?_)
    | refine adds_bind (onlyOnMotor_AssertVelocity E _) (fun _ => ?_)
    | refine adds_bind (adds_ite ?_ ?_) (fun _ => ?_)
    | refine adds_bind (adds_while ?_ ?_) (fun _ => ?_)
    | exact adds_pure _ _
    | exact adds_call _ _ _ (fun _ => rfl)
    | exact adds_incrTestNum _
    | exact (onlyOnMotor_WaitForMotorStop E)
    | exact (onlyOnMotor_WaitForMotorCruise E)
    | exact (onlyOnMotor_AssertVelocity E _)
    | refine adds_ite ?_ ?_
    | refine adds_while ?_ ?_)

theorem onlyOnMotor_loop_relThenVel {σ : Type} (E : Env σ) (n : Int) (v : Vars) :
    Adds (notOnOtherMotor Connector.ConnectorM1) (loop_relThenVel E n v) := by
  simp only [loop_relThenVel, blockForever, millis, setup_serialCond, setup_hlfbCond, setup_hlfbBody,
    Serial_print, Serial_println, delay, random, randomRange, motorGet, motorDo, Move,
    MoveVelocity, if_true, bind_assoc', pure_bind']
  repeat (first
    | refine adds_bind (adds_call _ _ _ (fun _ => rfl)) (fun _ => ?_)
    | refine adds_bind (adds_getTestNum _) (fun _ => ?_)
    | refine adds_bind (adds_enter _ _ rfl) (fun _ => ?_)
    | refine adds_bind (onlyOnMotor_WaitForMotorStop E) (fun _ => ?_)
    | refine adds_bind (adds_for (fun _ => onlyOnMotor_loop_relThenVelBody E _) _ _) (fun _ => ?_)
    | refine adds_bind (adds_ite ?_ ?_) (fun _ => ?_)
    | refine adds_bind (adds_while ?_ ?_) (fun _ => ?_)
    | exact adds_pure _ _
    | exact adds_call _ _ _ (fun _ => rfl)
    | exact adds_incrTestNum _
    | exact (onlyOnMotor_WaitForMotorStop E)
    | exact (adds_for (fun _ => onlyOnMotor_loop_relThenVelBody E _) _ _)
    | refine adds_ite ?_ ?_
    | refine adds_while ?_ ?_)

theorem onlyOnMotor_loop_velThenRelBody {σ : Type} (E : Env σ) (mt : MOVE_TARGET) (v : Vars) :
    Adds (notOnOtherMotor Connector.ConnectorM1) (loop_velThenRelBody E mt v) := by
  simp only [loop_velThenRelBody, blockForever, millis, setup_serialCond, setup_hlfbCond, setup_hlfbBody,
    Serial_print, Serial_println, delay, random, randomRange, motorGet, motorDo, Move,
    MoveVelocity, if_true, bind_assoc', pure_bind']
  repeat (first
    | refine adds_bind (adds_call _ _ _ (fun _ => rfl)) (fun _ => ?_)
    | refine adds_bind (adds_getTestNum _) (fun _ => ?_)
    | refine adds_bind (adds_enter _ _ rfl) (fun _ => ?_)
    | refine adds_bind (onlyOnMotor_WaitForMotorStop E) (fun _ => ?_)
    | refine adds_bind (onlyOnMotor_AssertPosition E _) (fun _ => ?_)
    | refine adds_bind (adds_ite ?_ ?_) (fun _ => ?_)
    | refine adds_bind (adds_while ?_ ?_) (fun _ => ?_)
    | exact adds_pure _ _
    | exact adds_call _ _ _ (fun _ => rfl)
    | exact adds_incrTestNum _
    | exact (onlyOnMotor_WaitForMotorStop E)
    | exact (onlyOnMotor_AssertPosition E _)
    | refine adds_ite ?_ ?_
    | refine adds_while ?_ ?_)

theorem onlyOnMotor_loop_velThenRel {σ : Type} (E : Env σ) (n : Int) (v : Vars) :
    Adds (notOnOtherMotor Connector.ConnectorM1) (loop_velThenRel E n v) := by
  simp only [loop_velThenRel, blockForever, millis, setup_serialCond, setup_hlfbCond, setup_hlfbBody,
    Serial_print, Serial_println, delay, random, randomRange, motorGet, motorDo, Move,
    MoveVelocity, if_true, bind_assoc', pure_bind']
  repeat (first
    | refine adds_bind (adds_call _ _ _ (fun _ => rfl)) (fun _ => ?_)
    | refine adds_bind (adds_getTestNum _) (fun _ => ?_)
    | refine adds_bind (adds_enter _ _ rfl) (fun _ => ?_)
    | refine adds_bind (adds_for (fun _ => onlyOnMotor_loop_velThenRelBody E _ _) _ _) (fun _ => ?_)
    | refine adds_bind (adds_ite ?_ ?_) (fun _ => ?_)
    | refine adds_bind (adds_while ?_ ?_) (fun _ => ?_)
    | exact adds_pure _ _
    | exact adds_call _ _ _ (fun _ => rfl)
    | exact adds_incrTestNum _
    | exact (adds_for (fun _ => onlyOnMotor_loop_velThenRelBody E _ _) _ _)
    | refine adds_ite ?_ ?_
    | refine adds_while ?_ ?_)

theorem onlyOnMotor_loop_velThenAbBody {σ : Type} (E : Env σ) (mt : MOVE_TARGET) (v : Vars) :
    Adds (notOnOtherMotor Connector.ConnectorM1) (loop_velThenAbBody E mt v) := by
  simp only [loop_velThenAbBody, blockForever, millis, setup_serialCond, setup_hlfbCond, setup_hlfbBody,
    Serial_print, Serial_println, delay, random, randomRange, motorGet, motorDo, Move,
    MoveVelocity, if_true, bind_assoc', pure_bind']
  repeat (first
    | refine adds_bind (adds_call _ _ _ (fun _ => rfl)) (fun _ => ?_)
    | refine adds_bind (adds_getTestNum _) (fun _ => ?_)
    | refine adds_bind (adds_enter _ _ rfl) (fun _ => ?_)
    | refine adds_bind (onlyOnMotor_WaitForMotorStop E) (fun _ => ?_)
    | refine adds_bind (onlyOnMotor_AssertPosition E _) (fun _ => ?_)
    | refine adds_bind (adds_ite ?_ ?_) (fun _ => ?_)
    | refine adds_bind (adds_while ?_ ?_) (fun _ => ?_)
    | exact adds_pure _ _
    | exact adds_call _ _ _ (fun _ => rfl)
    | exact adds_incrTestNum _
    | exact (onlyOnMotor_WaitForMotorStop E)
    | exact (onlyOnMotor_AssertPosition E _)
    | refine adds_ite ?_ ?_
    | refine adds_while ?_ ?_)

theorem onlyOnMotor_loop_velThenAb {σ : Type} (E : Env σ) (n : Int) (v : Vars) :
    Adds (notOnOtherMotor Connector.ConnectorM1) (loop_velThenAb E n v) := by
  simp only [loop_velThenAb, blockForever, millis, setup_serialCond, setup_hlfbCond, setup_hlfbBody,
    Serial_print, Serial_println, delay, random, randomRange, motorGet, motorDo, Move,
    MoveVelocity, if_true, bind_assoc', pure_bind']
  repeat (first
    | refine adds_bind (adds_call _ _ _ (fun _ => rfl)) (fun _ => ?_)
    | refine adds_bind (adds_getTestNum _) (fun _ => ?_)
    | refine adds_bind (adds_enter _ _ rfl) (fun _ => ?_)
    | refine adds_bind (onlyOnMotor_WaitForMotorStop E) (fun _ => ?_)
    | refine adds_bind (adds_for (fun _ => onlyOnMotor_loop_velThenAbBody E _ _) _ _) (fun _ => ?_)
    | refine adds_bind (adds_ite ?_ ?_) (fun _ => ?_)
    | refine adds_bind (adds_while ?_ ?_) (fun _ => ?_)
    | exact adds_pure _ _
    | exact adds_call _ _ _ (fun _ => rfl)
    | exact adds_incrTestNum _
    | exact (onlyOnMotor_WaitForMotorStop E)
    | exact (adds_for (fun _ => onlyOnMotor_loop_velThenAbBody E _ _) _ _)
    | refine adds_ite ?_ ?_
    | refine adds_while ?_ ?_)

theorem onlyOnMotor_loop {σ : Type} (E : Env σ) :
    Adds (notOnOtherMotor Connector.ConnectorM1) (loop E) := by
  simp only [loop, Serial_println, delay, motorDo, Move, if_true, bind_assoc', pure_bind']
  refine adds_bind (onlyOnMotor_loop_absolute E _ _) (fun _ => ?_)
  refine adds_bind (onlyOnMotor_loop_relative E _) (fun _ => ?_)
  refine adds_bind (onlyOnMotor_loop_velocity E _ _) (fun _ => ?_)
  refine adds_bind (onlyOnMotor_loop_abThenRel E _ _) (fun _ => ?_)
  refine adds_bind (onlyOnMotor_loop_relThenAb E _ _) (fun _ => ?_)
  refine adds_bind (onlyOnMotor_loop_relThenVel E _ _) (fun _ => ?_)
  refine adds_bind (onlyOnMotor_loop_velThenRel E _ _) (fun _ => ?_)
  refine adds_bind (onlyOnMotor_loop_velThenAb E _ _) (fun _ => ?_)
  refine adds_bind (adds_call _ _ _ (fun _ => rfl)) (fun _ => ?_)
  refine adds_bind (adds_call _ _ _ (fun _ => rfl)) (fun _ => ?_)
  refine adds_bind (onlyOnMotor_WaitForMotorStop E) (fun _ => ?_)
  refine adds_while (adds_pure _ _) ?_
  exact adds_bind (adds_call _ _ _ (fun _ => rfl)) (fun _ => adds_pure _ _)

/-- Every event that `setup` and any number of passes of `loop` add to the history is
either not a motor call or a call on `ConnectorM1`. -/
theorem onlyOnMotor_arduinoMain {σ : Type} (E : Env σ) (passes : Nat) :
    Adds (notOnOtherMotor Connector.ConnectorM1) (arduinoMain E passes) := by
  simp only [arduinoMain]
  exact adds_bind (onlyOnMotor_setup E) (fun _ => adds_for (fun _ => onlyOnMotor_loop E) _ _)

/-- C6: the motor that the sketch configures, enables, commands and reads back is the one
on `ConnectorM1`, not the one on Connector M-0 that the header names: `motor` is defined as
`ConnectorM1`; every event that `setup()` and any number of passes of `loop()` add to the
history is either no motor call or a call on `ConnectorM1`; and the motor calls of the
first lines of `setup()` are `ConnectorM1.VelMax(10000)` and `ConnectorM1.AccelMax(100000)`. -/
theorem motor_is_ConnectorM1 :
    motor = Connector.ConnectorM1 ∧ motor ≠ Connector.ConnectorM0 ∧
    (∀ (σ : Type) (E : Env σ) (passes fuel : Nat) (w : World σ),
      OnlyAdded (notOnOtherMotor Connector.ConnectorM1) w.trace
        (arduinoMain E passes fuel w).world.trace) ∧
    (setup_configure (constEnv 0) 0 (freshWorld ())).world.trace
      = [Event.call (Call.onMotor Connector.ConnectorM1 (MotorCall.AccelMax 100000)) 0,
         Event.call (Call.onMotor Connector.ConnectorM1 (MotorCall.VelMax 10000)) 0,
         Event.call Call.MotorModeSet 0,
         Event.call Call.MotorInputClocking 0] :=
  ⟨rfl, by decide, fun _ E passes fuel w => onlyOnMotor_arduinoMain E passes fuel w, rfl⟩

/-! ## The hardcoded relative moves -/

theorem AssertsRunningSum.consEntry {e : Event} {evs : List Event}
    (he : ∀ t, e = Event.enter (Helper.AssertPosition t) → t = (relativeDistances evs).sum)
    (h : AssertsRunningSum evs) : AssertsRunningSum (e :: evs) := by
  intro newer older t heq
  cases newer with
  | nil =>
    simp only [List.nil_append, List.cons.injEq] at heq
    rw [← heq.2]
    exact he t heq.1
  | cons x newer =>
    simp only [List.cons_append, List.cons.injEq] at heq
    exact h newer older t heq.2

theorem RelAt.step {σ : Type} {base : List Event} {L : List Int} {x : Int} {w w' : World σ}
    {e : Event} (h : RelAt base L x w) (hw : w'.trace = e :: w.trace)
    (ha : ∀ tr, assertedPositions (e :: tr) = assertedPositions tr)
    (hd : ∀ tr, relativeDistances (e :: tr) = relativeDistances tr)
    (hne : ∀ t, e ≠ Event.enter (Helper.AssertPosition t)) : RelAt base L x w' := by
  obtain ⟨evs, h1, h2, h3, h4, h5⟩ := h
  refine ⟨e :: evs, by simp [hw, h1], by rw [ha, h2], by rw [hd, h3], ?_, h5⟩
  exact AssertsRunningSum.consEntry (fun t ht => absurd ht (hne t)) h4

theorem relAt_call {σ : Type} (E : Env σ) (c : Call) (base : List Event) (L : List Int)
    (x : Int) (hd : ∀ r tr, relativeDistances (Event.call c r :: tr) = relativeDistances tr) :
    sat (call E c) (RelAt base L x) (fun _ => RelAt base L x) (RelSpin base) :=
  sat_call (fun _ h => h.step rfl (fun _ => rfl) (hd _) (fun _ he => Event.noConfusion he))

theorem relAt_relMove {σ : Type} (E : Env σ) (k : Connector) (d : Int) (base : List Event)
    (L : List Int) (x : Int) :
    sat (call E (Call.onMotor k (MotorCall.Move d MOVE_TARGET.MOVE_TARGET_REL_END_POSN)))
      (RelAt base L x) (fun _ => RelAt base L (x + d)) (RelSpin base) := by
  refine sat_call ?_
  intro w h
  obtain ⟨evs, h1, h2, h3, h4, h5⟩ := h
  refine ⟨Event.call (Call.onMotor k (MotorCall.Move d MOVE_TARGET.MOVE_TARGET_REL_END_POSN))
      (E w.ext (Call.onMotor k (MotorCall.Move d MOVE_TARGET.MOVE_TARGET_REL_END_POSN))).1 :: evs,
    by simp [afterCall, h1], by simpa [assertedPositions] using h2, ?_, ?_, h5⟩
  · simp only [relativeDistances, List.sum_cons, h3]
    omega
  · exact AssertsRunningSum.consEntry (fun t ht => Event.noConfusion ht) h4

theorem relAt_getTestNum {σ : Type} (base : List Event) (L : List Int) (x : Int) :
    sat (getTestNum : Sketch σ Int) (RelAt base L x) (fun _ => RelAt base L x)
      (RelSpin base) :=
  sat_getTestNum (fun _ h => h)

theorem relAt_pure {σ α : Type} (a : α) (base : List Event) (L : List Int) (x : Int) :
    sat (pure a : Sketch σ α) (RelAt base L x) (fun _ => RelAt base L x) (RelSpin base) :=
  sat_pure (fun _ h => h)

theorem relAt_WaitForMotorStop {σ : Type} (E : Env σ) (base : List Event) (L : List Int)
    (x : Int) :
    sat (WaitForMotorStop E) (RelAt base L x) (fun _ => RelAt base L x) (RelSpin base) := by
  simp only [WaitForMotorStop, motorGet]
  refine sat_bind (R := fun _ => RelAt base L x) (sat_enter ?_) (fun _ => ?_)
  · intro w h
    exact h.step rfl (fun _ => rfl) (fun _ => rfl) (fun _ he => by simp at he)
  · refine sat_while (I := RelAt base L x) (J := RelAt base L x) ?_ ?_ ?_
    · refine sat_bind (relAt_call E _ base L x (fun _ _ => rfl)) (fun r => ?_)
      exact sat_pure (fun w h => by split <;> exact h)
    · exact relAt_pure _ _ _ _
    · intro w h
      exact ⟨L, x, h⟩

theorem relAt_AssertPosition {σ : Type} (E : Env σ) (t : Int) (base : List Event)
    (L : List Int) (x : Int) (hx : t = x)
    (hk : ∃ k, k < 8 ∧ (t :: L).reverse = expectedRelativeFixed.take k) :
    sat (AssertPosition E t) (RelAt base L x) (fun _ => RelAt base (t :: L) x)
      (RelSpin base) := by
  simp only [AssertPosition, motorGet, Serial_print, Serial_println, bind_assoc', pure_bind']
  refine sat_bind (R := fun _ => RelAt base (t :: L) x) (sat_enter ?_) (fun _ => ?_)
  · intro w h
    obtain ⟨evs, h1, h2, h3, h4, _⟩ := h
    refine ⟨Event.enter (Helper.AssertPosition t) :: evs, by simp [entered, h1],
      by simp [assertedPositions, h2], by simpa [relativeDistances] using h3, ?_, hk⟩
    refine AssertsRunningSum.consEntry ?_ h4
    intro t' ht'
    simp only [Event.enter.injEq, Helper.AssertPosition.injEq] at ht'
    rw [← ht', hx, h3]
  · refine sat_bind (relAt_call E _ base _ x (fun _ _ => rfl)) (fun r => ?_)
    refine sat_bind (R := fun _ => RelAt base (t :: L) x) (sat_ite (fun _ => ?_) (fun _ => ?_))
      (fun _ => ?_)
    · repeat (first
        | refine sat_bind (relAt_call E _ base _ x (fun _ _ => rfl)) (fun _ => ?_)
        | refine sat_bind (relAt_getTestNum base _ x) (fun _ => ?_))
      refine sat_while (I := RelAt base (t :: L) x) (J := RelAt base (t :: L) x) ?_ ?_ ?_
      · exact sat_pure (fun w h => by simpa using h)
      · simp only [delay]
        refine sat_bind (relAt_call E _ base _ x (fun _ _ => rfl)) (fun _ => ?_)
        exact relAt_pure _ _ _ _
      · intro w h
        exact ⟨_, x, h⟩
    · exact relAt_pure _ _ _ _
    · repeat (first
        | refine sat_bind (relAt_call E _ base _ x (fun _ _ => rfl)) (fun _ => ?_)
        | refine sat_bind (relAt_getTestNum base _ x) (fun _ => ?_))
      exact sat_incrTestNum (fun w h => h)

theorem relAt_relativeMove_bind {σ β : Type} (E : Env σ) (a b : Int) (base : List Event)
    (L : List Int) (x : Int) {f : Int → Sketch σ β} {Q : β → World σ → Prop}
    (hx : wrapInt32 (a + b) = x + b)
    (hk : ∃ k, k < 8 ∧ (wrapInt32 (a + b) :: L).reverse = expectedRelativeFixed.take k)
    (h : sat (f (wrapInt32 (a + b))) (RelAt base (wrapInt32 (a + b) :: L) (x + b)) Q
      (RelSpin base)) :
    sat (loop_relativeMove E MOVE_TARGET.MOVE_TARGET_REL_END_POSN a b >>= f)
      (RelAt base L x) Q (RelSpin base) := by
  refine sat_bind
    (R := fun r w => r = wrapInt32 (a + b) ∧ RelAt base (wrapInt32 (a + b) :: L) (x + b) w)
    ?_ ?_
  · simp only [loop_relativeMove, Move, motorDo, delay, bind_assoc', pure_bind']
    refine sat_bind (relAt_relMove E _ _ base L x) (fun _ => ?_)
    refine sat_bind (relAt_WaitForMotorStop E base L _) (fun _ => ?_)
    refine sat_bind (relAt_AssertPosition E _ base L _ hx hk) (fun _ => ?_)
    refine sat_bind (relAt_call E _ base _ _ (fun _ _ => rfl)) (fun _ => ?_)
    exact sat_pure (fun w h => ⟨rfl, h⟩)
  · intro r fuel w hw
    obtain ⟨hr, hw⟩ := hw
    rw [hr]
    exact h fuel w hw

theorem relAt_loop_relativeFixed {σ : Type} (E : Env σ) (w : World σ) :
    sat (loop_relativeFixed E) (fun w0 => w0 = w)
      (fun v w' => v.targetPos = 30200 ∧
        ∃ (L : List Int) (x : Int),
          RelAt (afterCall E (Call.onMotor motor
              (MotorCall.Move 0 MOVE_TARGET.MOVE_TARGET_ABSOLUTE))
            (afterCall E (Call.Serial_println
              (Printed.text "Testing Relative Position Moves...")) w)).trace L x w' ∧
          L.reverse = expectedRelativeFixed)
      (RelSpin (afterCall E (Call.onMotor motor
          (MotorCall.Move 0 MOVE_TARGET.MOVE_TARGET_ABSOLUTE))
        (afterCall E (Call.Serial_println
          (Printed.text "Testing Relative Position Moves...")) w)).trace) := by
  simp only [loop_relativeFixed, Serial_print, Serial_println, delay, motorDo, Move,
    bind_assoc', pure_bind']
  refine sat_bind (R := fun _ w1 => w1 = afterCall E _ w) (sat_call (fun _ h => by rw [h]))
    (fun _ => ?_)
  refine sat_bind (R := fun _ => RelAt (afterCall E (Call.onMotor motor
      (MotorCall.Move 0 MOVE_TARGET.MOVE_TARGET_ABSOLUTE)) (afterCall E (Call.Serial_println
      (Printed.text "Testing Relative Position Moves...")) w)).trace [] 0)
    (sat_call (fun w1 h => ?_)) (fun _ => ?_)
  · rw [h]
    exact ⟨[], rfl, rfl, rfl, fun newer older t he => by simp at he, 0, by decide, rfl⟩
  repeat (first
    | refine relAt_relativeMove_bind E _ _ _ _ _ (by decide) (by decide) ?_
    | refine sat_bind (relAt_relMove E _ _ _ _ _) (fun _ => ?_)
    | refine sat_bind (relAt_call E _ _ _ _ (fun _ _ => rfl)) (fun _ => ?_)
    | refine sat_bind (relAt_getTestNum _ _ _) (fun _ => ?_)
    | refine sat_bind (relAt_WaitForMotorStop E _ _ _) (fun _ => ?_)
    | refine sat_bind (relAt_AssertPosition E _ _ _ _ (by decide) (by decide)) (fun _ => ?_))
  exact sat_pure (fun w h => ⟨by decide, _, _, h, by decide⟩)

/-! ## More fuel does not change a return -/

theorem mono_pure {σ α : Type} (a : α) : FuelMono (pure a : Sketch σ α) :=
  fun _ _ _ _ _ _ h => h

theorem mono_call {σ : Type} (E : Env σ) (c : Call) : FuelMono (call E c) :=
  fun _ _ _ _ _ _ h => h

theorem mono_bind {σ α β : Type} {m : Sketch σ α} {f : α → Sketch σ β}
    (h1 : FuelMono m) (h2 : ∀ a, FuelMono (f a)) : FuelMono (m >>= f) := by
  intro f1 f2 w b w1 hle h
  simp only [bind_def, Sketch.bind] at h ⊢
  cases hm : m f1 w with
  | returned a w2 =>
    rw [hm] at h
    rw [h1 f1 f2 w a w2 hle hm]
    exact h2 a f1 f2 w2 b w1 hle h
  | spinning w2 =>
    rw [hm] at h
    exact Outcome.noConfusion h

theorem mono_ite {σ α : Type} {c : Prop} [Decidable c] {m1 m2 : Sketch σ α}
    (h1 : FuelMono m1) (h2 : FuelMono m2) : FuelMono (if c then m1 else m2) := by
  by_cases hc : c
  · rw [if_pos hc]; exact h1
  · rw [if_neg hc]; exact h2

theorem mono_whileGo {σ : Type} {cond : Sketch σ Bool} {body : Sketch σ Unit}
    (hc : FuelMono cond) (hb : FuelMono body) (f f' : Nat) (hle : f ≤ f') :
    ∀ (n n' : Nat) (w : World σ) (u : Unit) (w1 : World σ), n ≤ n' →
      whileGo cond body f n w = Outcome.returned u w1 →
      whileGo cond body f' n' w = Outcome.returned u w1 := by
  intro n
  induction n with
  | zero =>
    intro n' w u w1 _ h
    exact Outcome.noConfusion h
  | succ n ih =>
    intro n' w u w1 hn h
    obtain ⟨n', rfl⟩ : ∃ m, n' = m + 1 := ⟨n' - 1, by omega⟩
    simp only [whileGo] at h ⊢
    cases hm : cond f w with
    | returned b w2 =>
      rw [hm] at h
      rw [hc f f' w b w2 hle hm]
      cases b with
      | true =>
        simp only [] at h ⊢
        cases hm2 : body f w2 with
        | returned u2 w3 =>
          rw [hm2] at h
          rw [hb f f' w2 u2 w3 hle hm2]
          exact ih n' w3 u w1 (by omega) h
        | spinning w3 =>
          rw [hm2] at h
          exact Outcome.noConfusion h
      | false => exact h
    | spinning w2 =>
      rw [hm] at h
      exact Outcome.noConfusion h

theorem mono_while {σ : Type} {cond : Sketch σ Bool} {body : Sketch σ Unit}
    (hc : FuelMono cond) (hb : FuelMono body) : FuelMono (whileLoop cond body) :=
  fun f f' w u w1 hle h => mono_whileGo hc hb f f' hle f f' w u w1 hle h

theorem FuelMono.same {σ α : Type} {m : Sketch σ α} (hm : FuelMono m) {f f' : Nat}
    {w : World σ} {a a' : α} {w1 w2 : World σ} (h1 : m f w = Outcome.returned a w1)
    (h2 : m f' w = Outcome.returned a' w2) : a' = a ∧ w2 = w1 := by
  rcases Nat.le_total f f' with hle | hle
  · have h := hm f f' w a w1 hle h1
    rw [h2] at h
    simp only [Outcome.returned.injEq] at h
    exact h
  · have h := hm f' f w a' w2 hle h2
    rw [h1] at h
    simp only [Outcome.returned.injEq] at h
    exact ⟨h.1.symm, h.2.symm⟩

theorem blockForever_spins {σ : Type} (fuel : Nat) (w : World σ) :
    (blockForever : Sketch σ Unit) fuel w = Outcome.spinning w := by
  have h : ∀ n : Nat, whileGo (pure true) (pure ()) fuel n w = Outcome.spinning w := by
    intro n
    induction n with
    | zero => rfl
    | succ n ih => simpa only [whileGo, pure_def, Sketch.pure] using ih
  exact h fuel

theorem mono_setup_beforeFaultCheck {σ : Type} (E : Env σ) :
    FuelMono (setup_beforeFaultCheck E) := by
  simp only [setup_beforeFaultCheck, setup_configure, setup_serialWait, setup_serialLoop,
    setup_serialCond, setup_enable, millis, Serial_println, motorGet, motorDo]
  repeat (first
    | exact mono_pure _
    | exact mono_call _ _
    | refine mono_bind ?_ (fun _ => ?_)
    | refine mono_ite ?_ ?_
    | refine mono_while ?_ ?_)

theorem mono_setup_untilHlfbLoop {σ : Type} (E : Env σ) :
    FuelMono (setup_untilHlfbLoop E) := by
  simp only [setup_untilHlfbLoop, setup_faultCheck, setup_beforeHlfbLoop, blockForever, millis,
    Serial_print, Serial_println, motorGet, motorDo]
  repeat (first
    | exact mono_setup_beforeFaultCheck E
    | exact mono_pure _
    | exact mono_call _ _
    | refine mono_bind ?_ (fun _ => ?_)
    | refine mono_ite ?_ ?_
    | refine mono_while ?_ ?_)

/-! ## setup issues no motion command, and polls HLFB only after the fault check -/

theorem noMove_setup_configure {σ : Type} (E : Env σ)  :
    Adds notMove (setup_configure E ) := by
  simp only [setup_configure, blockForever, millis, setup_serialCond, setup_hlfbCond, setup_hlfbBody,
    Serial_print, Serial_println, delay, random, randomRange, motorGet, motorDo, Move,
    MoveVelocity, if_true, bind_assoc', pure_bind']
  repeat (first
    | refine adds_bind (adds_call _ _ _ (fun _ => rfl)) (fun _ => ?_)
    | refine adds_bind (adds_getTestNum _) (fun _ => ?_)
    | refine adds_bind (adds_enter _ _ rfl) (fun _ => ?_)
    | refine adds_bind (adds_ite ?_ ?_) (fun _ => ?_)
    | refine adds_bind (adds_while ?_ ?_) (fun _ => ?_)
    | exact adds_pure _ _
    | exact adds_call _ _ _ (fun _ => rfl)
    | exact adds_incrTestNum _
    | refine adds_ite ?_ ?_
    | refine adds_while ?_ ?_)

theorem noMove_setup_serialLoop {σ : Type} (E : Env σ) (a b : Int) :
    Adds notMove (setup_serialLoop E a b) := by
  simp only [setup_serialLoop, blockForever, millis, setup_serialCond, setup_hlfbCond, setup_hlfbBody,
    Serial_print, Serial_println, delay, random, randomRange, motorGet, motorDo, Move,
    MoveVelocity, if_true, bind_assoc', pure_bind']
  repeat (first
    | refine adds_bind (adds_call _ _ _ (fun _ => rfl)) (fun _ => ?_)
    | refine adds_bind (adds_getTestNum _) (fun _ => ?_)
    | refine adds_bind (adds_enter _ _ rfl) (fun _ => ?_)
    | refine adds_bind (adds_ite ?_ ?_) (fun _ => ?_)
    | refine adds_bind (adds_while ?_ ?_) (fun _ => ?_)
    | exact adds_pure _ _
    | exact adds_call _ _ _ (fun _ => rfl)
    | exact adds_incrTestNum _
    | refine adds_ite ?_ ?_
    | refine adds_while ?_ ?_)

theorem noMove_setup_serialWait {σ : Type} (E : Env σ)  :
    Adds notMove (setup_serialWait E ) := by
  simp only [setup_serialWait, blockForever, millis, setup_serialCond, setup_hlfbCond, setup_hlfbBody,
    Serial_print, Serial_println, delay, random, randomRange, motorGet, motorDo, Move,
    MoveVelocity, if_true, bind_assoc', pure_bind']
  repeat (first
    | refine adds_bind (adds_call _ _ _ (fun _ => rfl)) (fun _ => ?_)
    | refine adds_bind (adds_getTestNum _) (fun _ => ?_)
    | refine adds_bind (adds_enter _ _ rfl) (fun _ => ?_)
    | refine adds_bind (noMove_setup_serialLoop E _ _) (fun _ => ?_)
    | refine adds_bind (adds_ite ?_ ?_) (fun _ => ?_)
    | refine adds_bind (adds_while ?_ ?_) (fun _ => ?_)
    | exact adds_pure _ _
    | exact adds_call _ _ _ (fun _ => rfl)
    | exact adds_incrTestNum _
    | exact (noMove_setup_serialLoop E _ _)
    | refine adds_ite ?_ ?_
    | refine adds_while ?_ ?_)

theorem noMove_setup_enable {σ : Type} (E : Env σ)  :
    Adds notMove (setup_enable E ) := by
  simp only [setup_enable, blockForever, millis, setup_serialCond, setup_hlfbCond, setup_hlfbBody,
    Serial_print, Serial_println, delay, random, randomRange, motorGet, motorDo, Move,
    MoveVelocity, if_true, bind_assoc', pure_bind']
  repeat (first
    | refine adds_bind (adds_call _ _ _ (fun _ => rfl)) (fun _ => ?_)
    | refine adds_bind (adds_getTestNum _) (fun _ => ?_)
    | refine adds_bind (adds_enter _ _ rfl) (fun _ => ?_)
    | refine adds_bind (adds_ite ?_ ?_) (fun _ => ?_)
    | refine adds_bind (adds_while ?_ ?_) (fun _ => ?_)
    | exact adds_pure _ _
    | exact adds_call _ _ _ (fun _ => rfl)
    | exact adds_incrTestNum _
    | refine adds_ite ?_ ?_
    | refine adds_while ?_ ?_)

theorem noMove_setup_beforeFaultCheck {σ : Type} (E : Env σ)  :
    Adds notMove (setup_beforeFaultCheck E ) := by
  simp only [setup_beforeFaultCheck, blockForever, millis, setup_serialCond, setup_hlfbCond, setup_hlfbBody,
    Serial_print, Serial_println, delay, random, randomRange, motorGet, motorDo, Move,
    MoveVelocity, if_true, bind_assoc', pure_bind']
  repeat (first
    | refine adds_bind (adds_call _ _ _ (fun _ => rfl)) (fun _ => ?_)
    | refine adds_bind (adds_getTestNum _) (fun _ => ?_)
    | refine adds_bind (adds_enter _ _ rfl) (fun _ => ?_)
    | refine adds_bind (noMove_setup_configure E) (fun _ => ?_)
    | refine adds_bind (noMove_setup_serialWait E) (fun _ => ?_)
    | refine adds_bind (noMove_setup_enable E) (fun _ => ?_)
    | refine adds_bind (adds_ite ?_ ?_) (fun _ => ?_)
    | refine adds_bind (adds_while ?_ ?_) (fun _ => ?_)
    | exact adds_pure _ _
    | exact adds_call _ _ _ (fun _ => rfl)
    | exact adds_incrTestNum _
    | exact (noMove_setup_configure E)
    | exact (noMove_setup_serialWait E)
    | exact (noMove_setup_enable E)
    | refine adds_ite ?_ ?_
    | refine adds_while ?_ ?_)

theorem noMove_setup_faultCheck {σ : Type} (E : Env σ)  :
    Adds notMove (setup_faultCheck E ) := by
  simp only [setup_faultCheck, blockForever, millis, setup_serialCond, setup_hlfbCond, setup_hlfbBody,
    Serial_print, Serial_println, delay, random, randomRange, motorGet, motorDo, Move,
    MoveVelocity, if_true, bind_assoc', pure_bind']
  repeat (first
    | refine adds_bind (adds_call _ _ _ (fun _ => rfl)) (fun _ => ?_)
    | refine adds_bind (adds_getTestNum _) (fun _ => ?_)
    | refine adds_bind (adds_enter _ _ rfl) (fun _ => ?_)
    | refine adds_bind (adds_ite ?_ ?_) (fun _ => ?_)
    | refine adds_bind (adds_while ?_ ?_) (fun _ => ?_)
    | exact adds_pure _ _
    | exact adds_call _ _ _ (fun _ => rfl)
    | exact adds_incrTestNum _
    | refine adds_ite ?_ ?_
    | refine adds_while ?_ ?_)

theorem noMove_setup_hlfbLoop {σ : Type} (E : Env σ) (a b : Int) :
    Adds notMove (setup_hlfbLoop E a b) := by
  simp only [setup_hlfbLoop, blockForever, millis, setup_serialCond, setup_hlfbCond, setup_hlfbBody,
    Serial_print, Serial_println, delay, random, randomRange, motorGet, motorDo, Move,
    MoveVelocity, if_true, bind_assoc', pure_bind']
  repeat (first
    | refine adds_bind (adds_call _ _ _ (fun _ => rfl)) (fun _ => ?_)
    | refine adds_bind (adds_getTestNum _) (fun _ => ?_)
    | refine adds_bind (adds_enter _ _ rfl) (fun _ => ?_)
    | refine adds_bind (adds_ite ?_ ?_) (fun _ => ?_)
    | refine adds_bind (adds_while ?_ ?_) (fun _ => ?_)
    | exact adds_pure _ _
    | exact adds_call _ _ _ (fun _ => rfl)
    | exact adds_incrTestNum _
    | refine adds_ite ?_ ?_
    | refine adds_while ?_ ?_)

theorem noMove_setup_beforeHlfbLoop {σ : Type} (E : Env σ)  :
    Adds notMove (setup_beforeHlfbLoop E ) := by
  simp only [setup_beforeHlfbLoop, blockForever, millis, setup_serialCond, setup_hlfbCond, setup_hlfbBody,
    Serial_print, Serial_println, delay, random, randomRange, motorGet, motorDo, Move,
    MoveVelocity, if_true, bind_assoc', pure_bind']
  repeat (first
    | refine adds_bind (adds_call _ _ _ (fun _ => rfl)) (fun _ => ?_)
    | refine adds_bind (adds_getTestNum _) (fun _ => ?_)
    | refine adds_bind (adds_enter _ _ rfl) (fun _ => ?_)
    | refine adds_bind (adds_ite ?_ ?_) (fun _ => ?_)
    | refine adds_bind (adds_while ?_ ?_) (fun _ => ?_)
    | exact adds_pure _ _
    | exact adds_call _ _ _ (fun _ => rfl)
    | exact adds_incrTestNum _
    | refine adds_ite ?_ ?_
    | refine adds_while ?_ ?_)

theorem noMove_setup_afterFaultCheck {σ : Type} (E : Env σ)  :
    Adds notMove (setup_afterFaultCheck E ) := by
  simp only [setup_afterFaultCheck, blockForever, millis, setup_serialCond, setup_hlfbCond, setup_hlfbBody,
    Serial_print, Serial_println, delay, random, randomRange, motorGet, motorDo, Move,
    MoveVelocity, if_true, bind_assoc', pure_bind']
  repeat (first
    | refine adds_bind (adds_call _ _ _ (fun _ => rfl)) (fun _ => ?_)
    | refine adds_bind (adds_getTestNum _) (fun _ => ?_)
    | refine adds_bind (adds_enter _ _ rfl) (fun _ => ?_)
    | refine adds_bind (noMove_setup_beforeHlfbLoop E) (fun _ => ?_)
    | refine adds_bind (noMove_setup_hlfbLoop E _ _) (fun _ => ?_)
    | refine adds_bind (adds_ite ?_ ?_) (fun _ => ?_)
    | refine adds_bind (adds_while ?_ ?_) (fun _ => ?_)
    | exact adds_pure _ _
    | exact adds_call _ _ _ (fun _ => rfl)
    | exact adds_incrTestNum _
    | exact (noMove_setup_beforeHlfbLoop E)
    | exact (noMove_setup_hlfbLoop E _ _)
    | refine adds_ite ?_ ?_
    | refine adds_while ?_ ?_)

theorem noMove_setup {σ : Type} (E : Env σ)  :
    Adds notMove (setup E ) := by
  simp only [setup, blockForever, millis, setup_serialCond, setup_hlfbCond, setup_hlfbBody,
    Serial_print, Serial_println, delay, random, randomRange, motorGet, motorDo, Move,
    MoveVelocity, if_true, bind_assoc', pure_bind']
  repeat (first
    | refine adds_bind (adds_call _ _ _ (fun _ => rfl)) (fun _ => ?_)
    | refine adds_bind (adds_getTestNum _) (fun _ => ?_)
    | refine adds_bind (adds_enter _ _ rfl) (fun _ => ?_)
    | refine adds_bind (noMove_setup_beforeFaultCheck E) (fun _ => ?_)
    | refine adds_bind (noMove_setup_faultCheck E) (fun _ => ?_)
    | refine adds_bind (noMove_setup_afterFaultCheck E) (fun _ => ?_)
    | refine adds_bind (adds_ite ?_ ?_) (fun _ => ?_)
    | refine adds_bind (adds_while ?_ ?_) (fun _ => ?_)
    | exact adds_pure _ _
    | exact adds_call _ _ _ (fun _ => rfl)
    | exact adds_incrTestNum _
    | exact (noMove_setup_beforeFaultCheck E)
    | exact (noMove_setup_faultCheck E)
    | exact (noMove_setup_afterFaultCheck E)
    | refine adds_ite ?_ ?_
    | refine adds_while ?_ ?_)

theorem noMoveNorHlfb_setup_configure {σ : Type} (E : Env σ)  :
    Adds notMoveNorHlfb (setup_configure E ) := by
  simp only [setup_configure, blockForever, millis, setup_serialCond, setup_hlfbCond, setup_hlfbBody,
    Serial_print, Serial_println, delay, random, randomRange, motorGet, motorDo, Move,
    MoveVelocity, if_true, bind_assoc', pure_bind']
  repeat (first
    | refine adds_bind (adds_call _ _ _ (fun _ => rfl)) (fun _ => ?_)
    | refine adds_bind (adds_getTestNum _) (fun _ => ?_)
    | refine adds_bind (adds_enter _ _ rfl) (fun _ => ?_)
    | refine adds_bind (adds_ite ?_ ?_) (fun _ => ?_)
    | refine adds_bind (adds_while ?_ ?_) (fun _ => ?_)
    | exact adds_pure _ _
    | exact adds_call _ _ _ (fun _ => rfl)
    | exact adds_incrTestNum _
    | refine adds_ite ?_ ?_
    | refine adds_while ?_ ?_)

theorem noMoveNorHlfb_setup_serialLoop {σ : Type} (E : Env σ) (a b : Int) :
    Adds notMoveNorHlfb (setup_serialLoop E a b) := by
  simp only [setup_serialLoop, blockForever, millis, setup_serialCond, setup_hlfbCond, setup_hlfbBody,
    Serial_print, Serial_println, delay, random, randomRange, motorGet, motorDo, Move,
    MoveVelocity, if_true, bind_assoc', pure_bind']
  repeat (first
    | refine adds_bind (adds_call _ _ _ (fun _ => rfl)) (fun _ => ?_)
    | refine adds_bind (adds_getTestNum _) (fun _ => ?_)
    | refine adds_bind (adds_enter _ _ rfl) (fun _ => ?_)
    | refine adds_bind (adds_ite ?_ ?_) (fun _ => ?_)
    | refine adds_bind (adds_while ?_ ?_) (fun _ => ?_)
    | exact adds_pure _ _
    | exact adds_call _ _ _ (fun _ => rfl)
    | exact adds_incrTestNum _
    | refine adds_ite ?_ ?_
    | refine adds_while ?_ ?_)

theorem noMoveNorHlfb_setup_serialWait {σ : Type} (E : Env σ)  :
    Adds notMoveNorHlfb (setup_serialWait E ) := by
  simp only [setup_serialWait, blockForever, millis, setup_serialCond, setup_hlfbCond, setup_hlfbBody,
    Serial_print, Serial_println, delay, random, randomRange, motorGet, motorDo, Move,
    MoveVelocity, if_true, bind_assoc', pure_bind']
  repeat (first
    | refine adds_bind (adds_call _ _ _ (fun _ => rfl)) (fun _ => ?_)
    | refine adds_bind (adds_getTestNum _) (fun _ => ?_)
    | refine adds_bind (adds_enter _ _ rfl) (fun _ => ?_)
    | refine adds_bind (noMoveNorHlfb_setup_serialLoop E _ _) (fun _ => ?_)
    | refine adds_bind (adds_ite ?_ ?_) (fun _ => ?_)
    | refine adds_bind (adds_while ?_ ?_) (fun _ => ?_)
    | exact adds_pure _ _
    | exact adds_call _ _ _ (fun _ => rfl)
    | exact adds_incrTestNum _
    | exact (noMoveNorHlfb_setup_serialLoop E _ _)
    | refine adds_ite ?_ ?_
    | refine adds_while ?_ ?_)

theorem noMoveNorHlfb_setup_enable {σ : Type} (E : Env σ)  :
    Adds notMoveNorHlfb (setup_enable E ) := by
  simp only [setup_enable, blockForever, millis, setup_serialCond, setup_hlfbCond, setup_hlfbBody,
    Serial_print, Serial_println, delay, random, randomRange, motorGet, motorDo, Move,
    MoveVelocity, if_true, bind_assoc', pure_bind']
  repeat (first
    | refine adds_bind (adds_call _ _ _ (fun _ => rfl)) (fun _ => ?_)
    | refine adds_bind (adds_getTestNum _) (fun _ => ?_)
    | refine adds_bind (adds_enter _ _ rfl) (fun _ => ?_)
    | refine adds_bind (adds_ite ?_ ?_) (fun _ => ?_)
    | refine adds_bind (adds_while ?_ ?_) (fun _ => ?_)
    | exact adds_pure _ _
    | exact adds_call _ _ _ (fun _ => rfl)
    | exact adds_incrTestNum _
    | refine adds_ite ?_ ?_
    | refine adds_while ?_ ?_)

theorem noMoveNorHlfb_setup_beforeFaultCheck {σ : Type} (E : Env σ)  :
    Adds notMoveNorHlfb (setup_beforeFaultCheck E ) := by
  simp only [setup_beforeFaultCheck, blockForever, millis, setup_serialCond, setup_hlfbCond, setup_hlfbBody,
    Serial_print, Serial_println, delay, random, randomRange, motorGet, motorDo, Move,
    MoveVelocity, if_true, bind_assoc', pure_bind']
  repeat (first
    | refine adds_bind (adds_call _ _ _ (fun _ => rfl)) (fun _ => ?_)
    | refine adds_bind (adds_getTestNum _) (fun _ => ?_)
    | refine adds_bind (adds_enter _ _ rfl) (fun _ => ?_)
    | refine adds_bind (noMoveNorHlfb_setup_configure E) (fun _ => ?_)
    | refine adds_bind (noMoveNorHlfb_setup_serialWait E) (fun _ => ?_)
    | refine adds_bind (noMoveNorHlfb_setup_enable E) (fun _ => ?_)
    | refine adds_bind (adds_ite ?_ ?_) (fun _ => ?_)
    | refine adds_bind (adds_while ?_ ?_) (fun _ => ?_)
    | exact adds_pure _ _
    | exact adds_call _ _ _ (fun _ => rfl)
    | exact adds_incrTestNum _
    | exact (noMoveNorHlfb_setup_configure E)
    | exact (noMoveNorHlfb_setup_serialWait E)
    | exact (noMoveNorHlfb_setup_enable E)
    | refine adds_ite ?_ ?_
    | refine adds_while ?_ ?_)

theorem noMoveNorHlfb_setup_faultCheck {σ : Type} (E : Env σ)  :
    Adds notMoveNorHlfb (setup_faultCheck E ) := by
  simp only [setup_faultCheck, blockForever, millis, setup_serialCond, setup_hlfbCond, setup_hlfbBody,
    Serial_print, Serial_println, delay, random, randomRange, motorGet, motorDo, Move,
    MoveVelocity, if_true, bind_assoc', pure_bind']
  repeat (first
    | refine adds_bind (adds_call _ _ _ (fun _ => rfl)) (fun _ => ?_)
    | refine adds_bind (adds_getTestNum _) (fun _ => ?_)
    | refine adds_bind (adds_enter _ _ rfl) (fun _ => ?_)
    | refine adds_bind (adds_ite ?_ ?_) (fun _ => ?_)
    | refine adds_bind (adds_while ?_ ?_) (fun _ => ?_)
    | exact adds_pure _ _
    | exact adds_call _ _ _ (fun _ => rfl)
    | exact adds_incrTestNum _
    | refine adds_ite ?_ ?_
    | refine adds_while ?_ ?_)


theorem spinning_of_not_returned {σ α : Type} (o : Outcome σ α) (h : o.isReturned = false) :
    o = Outcome.spinning o.world := by
  cases o with
  | returned a w => simp [Outcome.isReturned] at h
  | spinning w => rfl

/-- When `setup` does not return, the runtime never reaches `loop`. -/
theorem arduinoMain_of_setup_spinning {σ : Type} (E : Env σ) (passes fuel : Nat)
    (w : World σ) (h : (setup E fuel w).isReturned = false) :
    arduinoMain E passes fuel w = Outcome.spinning (setup E fuel w).world := by
  have hs := spinning_of_not_returned _ h
  simp only [arduinoMain, bind_def, Sketch.bind]
  generalize setup E fuel w = o at hs ⊢
  rw [hs]
  rfl

theorem setup_faultCheck_fault {σ : Type} (E : Env σ) (fuel : Nat) (w : World σ)
    (hf : asBool (answer E checkHwFault w) = true) :
    (setup_faultCheck E fuel w).isReturned = false := by
  simp only [answer, checkHwFault] at hf
  simp only [setup_faultCheck, motorGet, Serial_println, bind_def, pure_def, Sketch.bind,
    Sketch.pure, call, hf, if_true, blockForever_spins, Outcome.isReturned]

theorem setup_faultCheck_noFault {σ : Type} (E : Env σ) (fuel : Nat) (w : World σ)
    (hf : asBool (answer E checkHwFault w) = false) :
    setup_faultCheck E fuel w = Outcome.returned () (afterCall E checkHwFault w) := by
  simp only [answer, checkHwFault] at hf
  simp only [setup_faultCheck, motorGet, bind_def, pure_def, Sketch.bind, Sketch.pure, call, hf,
    afterCall, checkHwFault]
  rfl

/-- C10: let `setup()` reach its hardware fault check in world `w1`.  If
`motor.IsInHwFault()` answers true there, `setup` never returns: on every fuel `setup` is
spinning, so the runtime never reaches `loop`, and since the sketch started it has issued
no `Move`, no `MoveVelocity` and no poll of `HlfbState()`.  If it answers false, `setup` goes on with the rest of its body, which starts
the HLFB wait, from the world right after the check. -/
theorem setup_faultCheck_contract {σ : Type} (E : Env σ) (fuel : Nat) (w w1 : World σ)
    (h : setup_beforeFaultCheck E fuel w = Outcome.returned () w1) :
    (asBool (answer E checkHwFault w1) = true →
      ∀ passes fuel' : Nat, ∃ w' : World σ,
        setup E fuel' w = Outcome.spinning w' ∧
        arduinoMain E passes fuel' w = Outcome.spinning w' ∧
        OnlyAdded notMoveNorHlfb w.trace w'.trace) ∧
    (asBool (answer E checkHwFault w1) = false →
      setup E fuel w = setup_afterFaultCheck E fuel (afterCall E checkHwFault w1)) := by
  constructor
  · intro hf passes fuel'
    have hadds := adds_bind (noMoveNorHlfb_setup_beforeFaultCheck E)
      (fun _ => noMoveNorHlfb_setup_faultCheck E) fuel' w
    have hnot : (setup E fuel' w).isReturned = false ∧
        (setup E fuel' w).world
          = ((setup_beforeFaultCheck E >>= fun _ => setup_faultCheck E) fuel' w).world := by
      simp only [setup, bind_def, Sketch.bind]
      cases hb : setup_beforeFaultCheck E fuel' w with
      | spinning w2 => exact ⟨rfl, rfl⟩
      | returned u w2 =>
        obtain ⟨_, hw⟩ := (mono_setup_beforeFaultCheck E).same h hb
        subst hw
        have hspin := spinning_of_not_returned _ (setup_faultCheck_fault E fuel' w2 hf)
        simp only []
        generalize setup_faultCheck E fuel' w2 = o at hspin ⊢
        rw [hspin]
        exact ⟨rfl, rfl⟩
    refine ⟨_, spinning_of_not_returned _ hnot.1,
      arduinoMain_of_setup_spinning E passes fuel' w hnot.1, ?_⟩
    rw [hnot.2]
    exact hadds
  · intro hf
    simp only [setup, bind_def, Sketch.bind, h, setup_faultCheck_noFault E fuel w1 hf]

/-- Witness for C10: on the healthy collaborator `setup` passes the fault check (fuel 1);
on the collaborator that answers 1 to everything the fault check blocks. -/
theorem setup_faultCheck_contract_witness :
    setup healthyEnv 1 (freshWorld ())
      = setup_afterFaultCheck healthyEnv 1
          (afterCall healthyEnv checkHwFault
            (setup_beforeFaultCheck healthyEnv 1 (freshWorld ())).world) ∧
    (∀ passes fuel' : Nat, ∃ w' : World Unit,
        setup (constEnv 1) fuel' (freshWorld ()) = Outcome.spinning w' ∧
        arduinoMain (constEnv 1) passes fuel' (freshWorld ()) = Outcome.spinning w' ∧
        OnlyAdded notMoveNorHlfb (freshWorld ()).trace w'.trace) :=
  ⟨(setup_faultCheck_contract healthyEnv 1 (freshWorld ())
      (setup_beforeFaultCheck healthyEnv 1 (freshWorld ())).world rfl).2 (by decide),
   (setup_faultCheck_contract (constEnv 1) 1 (freshWorld ())
      (setup_beforeFaultCheck (constEnv 1) 1 (freshWorld ())).world rfl).1 (by decide)⟩

/-! ## The wait for HLFB -/

theorem hlfbGo_step {σ : Type} (E : Env σ) (startTime : Int) (fuel n : Nat) (w : World σ)
    (hp : answer E pollHlfb w ≠ HLFB_ASSERTED) (he : hlfbElapsed E startTime w ≤ 3600) :
    whileGo (setup_hlfbCond E) (setup_hlfbBody E startTime 3600) fuel (n + 1) w
      = whileGo (setup_hlfbCond E) (setup_hlfbBody E startTime 3600) fuel n
          (afterCall E Call.millis (afterCall E pollHlfb w)) := by
  simp only [answer, pollHlfb] at hp
  simp only [hlfbElapsed, answer, afterCall, pollHlfb] at he
  have he' : ¬ (wrapUInt32 (wrapUInt32 (E (E w.ext (Call.onMotor motor MotorCall.HlfbState)).2
      Call.millis).1 - startTime) > 3600) := by omega
  simp only [whileGo, setup_hlfbCond, setup_hlfbBody, millis, motorGet, bind_def, pure_def,
    Sketch.bind, Sketch.pure, call, hp, ne_eq, not_false_eq_true, decide_True, he', if_false,
    afterCall, pollHlfb]

theorem hlfbGo_timeout {σ : Type} (E : Env σ) (startTime : Int) (fuel n : Nat) (w : World σ)
    (hp : answer E pollHlfb w ≠ HLFB_ASSERTED) (he : 3600 < hlfbElapsed E startTime w) :
    (whileGo (setup_hlfbCond E) (setup_hlfbBody E startTime 3600) fuel (n + 1) w).isReturned
      = false := by
  simp only [answer, pollHlfb] at hp
  simp only [hlfbElapsed, answer, afterCall, pollHlfb] at he
  have he' : wrapUInt32 (wrapUInt32 (E (E w.ext (Call.onMotor motor MotorCall.HlfbState)).2
      Call.millis).1 - startTime) > 3600 := by omega
  simp only [whileGo, setup_hlfbCond, setup_hlfbBody, millis, motorGet, Serial_println, bind_def,
    pure_def, Sketch.bind, Sketch.pure, call, hp, ne_eq, not_false_eq_true, decide_True, he',
    if_true, blockForever_spins, Outcome.isReturned]

theorem hlfbGo_asserted {σ : Type} (E : Env σ) (startTime : Int) (fuel n : Nat) (w : World σ)
    (hp : answer E pollHlfb w = HLFB_ASSERTED) :
    whileGo (setup_hlfbCond E) (setup_hlfbBody E startTime 3600) fuel (n + 1) w
      = Outcome.returned () (afterCall E pollHlfb w) := by
  simp only [answer, pollHlfb] at hp
  simp only [whileGo, setup_hlfbCond, motorGet, bind_def, pure_def, Sketch.bind, Sketch.pure,
    call, hp, ne_eq, not_true_eq_false, decide_False, afterCall, pollHlfb]

theorem hlfbGo_rounds {σ : Type} (E : Env σ) (startTime : Int) (fuel : Nat) :
    ∀ (k n : Nat) (w : World σ), (∀ i, i < k → hlfbRoundIdle E startTime w i) →
      whileGo (setup_hlfbCond E) (setup_hlfbBody E startTime 3600) fuel (n + k) w
        = whileGo (setup_hlfbCond E) (setup_hlfbBody E startTime 3600) fuel n
            (afterHlfbRounds E k w) := by
  intro k
  induction k with
  | zero => intro n w _; rfl
  | succ k ih =>
    intro n w hpre
    have h0 := hpre 0 (by omega)
    rw [show n + (k + 1) = (n + k) + 1 by omega,
      hlfbGo_step E startTime fuel (n + k) w h0.1 h0.2]
    exact ih n _ (fun i hi => hpre (i + 1) (by omega))

theorem setup_eq {σ : Type} (E : Env σ) :
    setup E = setup_untilHlfbLoop E >>= fun startTime =>
      setup_hlfbLoop E startTime 3600 >>= fun _ =>
        Serial_println E (Printed.text "Motor Ready") := by
  simp only [setup, setup_untilHlfbLoop, setup_afterFaultCheck, bind_assoc']

theorem sat_trivial {σ α : Type} (m : Sketch σ α) :
    sat m (fun _ => True) (fun _ _ => True) (fun _ => True) := by
  intro fuel w _
  cases m fuel w <;> trivial

/-- Whenever `setup` returns, the history contains a poll of HLFB answered asserted. -/
theorem setup_returns_after_asserted {σ : Type} (E : Env σ) :
    sat (setup E) (fun _ => True)
      (fun _ w' => ∃ newer older : List Event,
        w'.trace = newer ++ Event.call pollHlfb HLFB_ASSERTED :: older)
      (fun _ => True) := by
  rw [setup_eq]
  refine sat_bind (sat_trivial _) (fun startTime => ?_)
  refine sat_bind
    (R := fun _ w' => ∃ older : List Event, w'.trace = Event.call pollHlfb HLFB_ASSERTED :: older)
    ?_ (fun _ => ?_)
  · simp only [setup_hlfbLoop]
    refine sat_while (I := fun _ => True) (J := fun _ => True) ?_ (sat_conseq (sat_trivial _)
      (fun _ h => h) (fun _ _ h => h) (fun _ h => h)) (fun _ h => h)
    simp only [setup_hlfbCond, motorGet]
    refine sat_bind (R := fun r w' => ∃ older : List Event,
      w'.trace = Event.call pollHlfb r :: older) (sat_call (fun w _ => ⟨w.trace, rfl⟩))
      (fun r => sat_pure (fun w h => ?_))
    by_cases hr : r = HLFB_ASSERTED
    · simpa [hr] using h
    · simp [hr]
  · simp only [Serial_println]
    refine sat_bind (R := fun _ w' => ∃ newer older : List Event,
      w'.trace = newer ++ Event.call pollHlfb HLFB_ASSERTED :: older) (sat_call ?_)
      (fun _ => sat_pure (fun _ h => h))
    intro w h
    obtain ⟨older, ho⟩ := h
    exact ⟨[Event.call (Call.Serial_println (Printed.text "Motor Ready"))
      (E w.ext (Call.Serial_println (Printed.text "Motor Ready"))).1], older,
      by simp [afterCall, ho]⟩

/-- C9: `setup()` waits for HLFB to assert.  Whenever it returns, some poll of
`motor.HlfbState()` answered `HLFB_ASSERTED`.  Let it reach the wait in world `w1` with
start time `startTime`, and let the loop go on for `k` rounds (poll not asserted, elapsed
time at most 3600 ms).  If the next poll answers not-asserted while the elapsed time
`millis() - startTime`, in unsigned 32-bit arithmetic, is above 3600, then `setup` never
returns: on every fuel `setup` is spinning, so the runtime never reaches `loop`, and no
`Move` or `MoveVelocity` has been issued.  If the next poll answers `HLFB_ASSERTED`, then whatever the elapsed time
the wait ends and `setup` returns (on enough fuel) right after printing "Motor Ready". -/
theorem setup_hlfbWait_contract {σ : Type} (E : Env σ) (w : World σ) :
    (∀ (fuel : Nat) (w' : World σ), setup E fuel w = Outcome.returned () w' →
      ∃ newer older : List Event,
        w'.trace = newer ++ Event.call pollHlfb HLFB_ASSERTED :: older) ∧
    (∀ (fuel : Nat) (startTime : Int) (w1 : World σ),
      setup_untilHlfbLoop E fuel w = Outcome.returned startTime w1 →
      ∀ k : Nat, (∀ i, i < k → hlfbRoundIdle E startTime w1 i) →
        (answer E pollHlfb (afterHlfbRounds E k w1) ≠ HLFB_ASSERTED →
          3600 < hlfbElapsed E startTime (afterHlfbRounds E k w1) →
          ∀ passes fuel' : Nat, ∃ w' : World σ,
            setup E fuel' w = Outcome.spinning w' ∧
            arduinoMain E passes fuel' w = Outcome.spinning w' ∧
            OnlyAdded notMove w.trace w'.trace) ∧
        (answer E pollHlfb (afterHlfbRounds E k w1) = HLFB_ASSERTED →
          ∀ fuel' : Nat, fuel ≤ fuel' → k < fuel' →
            setup E fuel' w = Outcome.returned ()
              (afterCall E (Call.Serial_println (Printed.text "Motor Ready"))
                (afterCall E pollHlfb (afterHlfbRounds E k w1))))) := by
  refine ⟨?_, ?_⟩
  · intro fuel w' h
    have hs := setup_returns_after_asserted E fuel w trivial
    rw [h] at hs
    exact hs
  · intro fuel startTime w1 h k hidle
    refine ⟨?_, ?_⟩
    · intro hp he passes fuel'
      have hnot : (setup E fuel' w).isReturned = false := by
        rw [setup_eq]
        simp only [bind_def, Sketch.bind]
        cases hu : setup_untilHlfbLoop E fuel' w with
        | spinning w2 => rfl
        | returned st2 w2 =>
          obtain ⟨hst, hw⟩ := (mono_setup_untilHlfbLoop E).same h hu
          subst hst hw
          have hloop : (setup_hlfbLoop E st2 3600 fuel' w2).isReturned = false := by
            simp only [setup_hlfbLoop, whileLoop]
            rcases Nat.lt_or_ge k fuel' with hk | hk
            · obtain ⟨n, rfl⟩ : ∃ m, fuel' = (m + 1) + k := ⟨fuel' - k - 1, by omega⟩
              rw [hlfbGo_rounds E st2 _ k (n + 1) w2 hidle]
              exact hlfbGo_timeout E st2 _ n _ hp he
            · have h0 := hlfbGo_rounds E st2 fuel' fuel' 0 w2
                (fun i hi => hidle i (by omega))
              rw [Nat.zero_add] at h0
              rw [h0]
              rfl
          have hspin := spinning_of_not_returned _ hloop
          simp only []
          generalize setup_hlfbLoop E st2 3600 fuel' w2 = o at hspin ⊢
          rw [hspin]
          rfl
      exact ⟨_, spinning_of_not_returned _ hnot,
        arduinoMain_of_setup_spinning E passes fuel' w hnot, noMove_setup E fuel' w⟩
    · intro hp fuel' hfuel hk
      have hu := mono_setup_untilHlfbLoop E fuel fuel' w startTime w1 hfuel h
      obtain ⟨n, rfl⟩ : ∃ m, fuel' = (m + 1) + k := ⟨fuel' - k - 1, by omega⟩
      have hloop : setup_hlfbLoop E startTime 3600 (n + 1 + k) w1
          = Outcome.returned () (afterCall E pollHlfb (afterHlfbRounds E k w1)) := by
        simp only [setup_hlfbLoop, whileLoop]
        rw [hlfbGo_rounds E startTime _ k (n + 1) w1 hidle]
        exact hlfbGo_asserted E startTime _ n _ hp
      rw [setup_eq]
      simp only [bind_def, Sketch.bind, hu, hloop]
      rfl

/-- Witness for C9: on the healthy collaborator the first poll answers `HLFB_ASSERTED` and
`setup` returns on fuel 1; on the collaborator that never asserts HLFB and whose clock
advances 1000 ms per call, the wait starts at 16000 ms, its first round goes on (2000 ms
elapsed) and its second times out (4000 ms elapsed), so the sketch spins on every fuel. -/
theorem setup_hlfbWait_contract_witness :
    setup healthyEnv 1 (freshWorld ())
      = Outcome.returned ()
          (afterCall healthyEnv (Call.Serial_println (Printed.text "Motor Ready"))
            (afterCall healthyEnv pollHlfb
              (afterHlfbRounds healthyEnv 0
                (setup_untilHlfbLoop healthyEnv 1 (freshWorld ())).world))) ∧
    (∀ passes fuel' : Nat, ∃ w' : World Nat,
        setup noHlfbEnv fuel' (freshWorld 0) = Outcome.spinning w' ∧
        arduinoMain noHlfbEnv passes fuel' (freshWorld 0) = Outcome.spinning w' ∧
        OnlyAdded notMove (freshWorld 0).trace w'.trace) :=
  ⟨((setup_hlfbWait_contract healthyEnv (freshWorld ())).2 1 1
      (setup_untilHlfbLoop healthyEnv 1 (freshWorld ())).world rfl 0
      (fun i hi => absurd hi (Nat.not_lt_zero i))).2 (by decide) 1 (by decide) (by decide),
   ((setup_hlfbWait_contract noHlfbEnv (freshWorld 0)).2 1 16000
      (setup_untilHlfbLoop noHlfbEnv 1 (freshWorld 0)).world rfl 1
      (fun i hi => by
        obtain rfl : i = 0 := by omega
        exact ⟨by decide, by decide⟩)).1 (by decide) (by decide)⟩

/-! ## The position assertions against the ideal motor -/

theorem wrapInt32_add_assoc (a b c : Int) :
    wrapInt32 (a + wrapInt32 (b + c)) = wrapInt32 (wrapInt32 (a + b) + c) := by
  unfold wrapInt32
  omega

theorem PositionAssertsPass.cons_other {e : Event} {tr : List Event}
    (he : ∀ c r, e ≠ Event.call (Call.onMotor c MotorCall.PositionRefCommanded) r)
    (h : PositionAssertsPass tr) : PositionAssertsPass (e :: tr) := by
  intro newer older c r t heq
  cases newer with
  | nil =>
    simp only [List.nil_append, List.cons.injEq] at heq
    exact absurd heq.1 (he c r)
  | cons x newer =>
    simp only [List.cons_append, List.cons.injEq] at heq
    exact h newer older c r t heq.2

theorem PositionAssertsPass.cons_read_call {k : Connector} {r0 r1 : Int} {c1 : Call}
    {tr : List Event} (h : PositionAssertsPass (Event.call c1 r1 :: tr)) :
    PositionAssertsPass
      (Event.call (Call.onMotor k MotorCall.PositionRefCommanded) r0 ::
        Event.call c1 r1 :: tr) := by
  intro newer older c r t heq
  cases newer with
  | nil =>
    simp only [List.nil_append, List.cons.injEq] at heq
    exact Event.noConfusion heq.2.1
  | cons x newer =>
    simp only [List.cons_append, List.cons.injEq] at heq
    exact h newer older c r t heq.2

theorem PositionAssertsPass.cons_read_entry {k : Connector} {r t : Int} {tr : List Event}
    (hr : r = t) (h : PositionAssertsPass tr) :
    PositionAssertsPass
      (Event.call (Call.onMotor k MotorCall.PositionRefCommanded) r ::
        Event.enter (Helper.AssertPosition t) :: tr) := by
  intro newer older c r' t' heq
  cases newer with
  | nil =>
    simp only [List.nil_append, List.cons.injEq, Event.call.injEq, Event.enter.injEq,
      Helper.AssertPosition.injEq] at heq
    rw [← heq.1.2, ← heq.2.1]
    exact hr
  | cons x newer =>
    simp only [List.cons_append, List.cons.injEq] at heq
    cases newer with
    | nil =>
      simp only [List.nil_append, List.cons.injEq] at heq
      exact Event.noConfusion heq.2.1
    | cons y newer =>
      simp only [List.cons_append, List.cons.injEq] at heq
      exact h newer older c r' t' heq.2.2

theorem Ideal.weakenAny {σ : Type} {E : Env σ} {M : IdealMotor E} {m : Mode} {w : World σ}
    (h : Ideal M m w) : Ideal M Mode.any w :=
  ⟨h.1, trivial⟩

theorem PositionAssertsPass.call {c : Call} {r : Int} {tr : List Event}
    (hc : isPositionRead c = false) (h : PositionAssertsPass tr) :
    PositionAssertsPass (Event.call c r :: tr) := by
  refine PositionAssertsPass.cons_other ?_ h
  intro k r' heq
  simp only [Event.call.injEq] at heq
  rw [heq.1] at hc
  simp [isPositionRead] at hc

theorem PositionAssertsPass.enter {h : Helper} {tr : List Event}
    (hp : PositionAssertsPass tr) : PositionAssertsPass (Event.enter h :: tr) :=
  PositionAssertsPass.cons_other (fun _ _ he => Event.noConfusion he) hp

theorem Mode.holds_quiet {σ : Type} {E : Env σ} (M : IdealMotor E) (m : Mode)
    (hm : m.isCalm = true) (s : σ) (c : Call) (hq : isMotion c = false)
    (h : m.holds M s) : m.holds M (E s c).2 := by
  have hl := M.quiet s c hq
  cases m with
  | any => trivial
  | pos t => exact ⟨hl.1.trans h.1, (hl.2 h.1).trans h.2⟩
  | vel => exact hl.1.trans h
  | settled t => simp [Mode.isCalm] at hm
  | velAt q => simp [Mode.isCalm] at hm

theorem ideal_call {σ : Type} {E : Env σ} (M : IdealMotor E) (c : Call) (m : Mode)
    (hm : m.isCalm = true) (hq : isMotion c = false) (hr : isPositionRead c = false) :
    sat (call E c) (Ideal M m) (fun _ => Ideal M m) (Ideal M Mode.any) :=
  sat_call (fun w h => ⟨PositionAssertsPass.call hr h.1, Mode.holds_quiet M m hm w.ext c hq h.2⟩)

theorem ideal_call_settled {σ : Type} {E : Env σ} (M : IdealMotor E) (c : Call) (t : Int)
    (hq : isMotion c = false) (hr : isPositionRead c = false) :
    sat (call E c) (Ideal M (Mode.settled t)) (fun _ => Ideal M (Mode.pos t))
      (Ideal M Mode.any) :=
  sat_call (fun w h => ⟨PositionAssertsPass.call hr h.1,
    Mode.holds_quiet M (Mode.pos t) rfl w.ext c hq ⟨h.2.1, h.2.2.1⟩⟩)

theorem ideal_getTestNum {σ : Type} {E : Env σ} (M : IdealMotor E) (m : Mode) :
    sat (getTestNum : Sketch σ Int) (Ideal M m) (fun _ => Ideal M m) (Ideal M Mode.any) :=
  sat_getTestNum (fun _ h => h)

theorem ideal_pure {σ α : Type} {E : Env σ} (M : IdealMotor E) (a : α) (m : Mode) :
    sat (pure a : Sketch σ α) (Ideal M m) (fun _ => Ideal M m) (Ideal M Mode.any) :=
  sat_pure (fun _ h => h)

theorem ideal_pure_any {σ α : Type} {E : Env σ} (M : IdealMotor E) (a : α) (m : Mode) :
    sat (pure a : Sketch σ α) (Ideal M m) (fun _ => Ideal M Mode.any) (Ideal M Mode.any) :=
  sat_pure (fun _ h => h.weakenAny)

theorem ideal_moveAbsolute {σ : Type} {E : Env σ} (M : IdealMotor E) (t : Int) (m : Mode) :
    sat (call E (Call.onMotor motor (MotorCall.Move t MOVE_TARGET.MOVE_TARGET_ABSOLUTE)))
      (Ideal M m) (fun _ => Ideal M (Mode.pos t)) (Ideal M Mode.any) :=
  sat_call (fun w h => ⟨PositionAssertsPass.call rfl h.1, M.move_absolute w.ext t⟩)

theorem ideal_moveRelative_pos {σ : Type} {E : Env σ} (M : IdealMotor E) (d t : Int) :
    sat (call E (Call.onMotor motor (MotorCall.Move d MOVE_TARGET.MOVE_TARGET_REL_END_POSN)))
      (Ideal M (Mode.pos t)) (fun _ => Ideal M (Mode.pos (wrapInt32 (t + d))))
      (Ideal M Mode.any) := by
  refine sat_call (fun w h => ⟨PositionAssertsPass.call rfl h.1, ?_⟩)
  have hl := M.move_relative w.ext d
  refine ⟨hl.1, ?_⟩
  show M.e (E w.ext _).2 = _
  rw [hl.2, h.2.1, h.2.2]
  simp

theorem ideal_moveRelative_velAt {σ : Type} {E : Env σ} (M : IdealMotor E) (d q : Int) :
    sat (call E (Call.onMotor motor (MotorCall.Move d MOVE_TARGET.MOVE_TARGET_REL_END_POSN)))
      (Ideal M (Mode.velAt q)) (fun _ => Ideal M (Mode.pos (wrapInt32 (q + d))))
      (Ideal M Mode.any) := by
  refine sat_call (fun w h => ⟨PositionAssertsPass.call rfl h.1, ?_⟩)
  have hl := M.move_relative w.ext d
  refine ⟨hl.1, ?_⟩
  show M.e (E w.ext _).2 = _
  rw [hl.2, h.2.1, h.2.2]
  simp

theorem ideal_motion_any {σ : Type} {E : Env σ} (M : IdealMotor E) (c : Call) (m : Mode)
    (hr : isPositionRead c = false) :
    sat (call E c) (Ideal M m) (fun _ => Ideal M Mode.any) (Ideal M Mode.any) :=
  sat_call (fun _ h => ⟨PositionAssertsPass.call hr h.1, trivial⟩)

theorem ideal_moveVelocity {σ : Type} {E : Env σ} (M : IdealMotor E) (v : Int) (m : Mode) :
    sat (call E (Call.onMotor motor (MotorCall.MoveVelocity v)))
      (Ideal M m) (fun _ => Ideal M Mode.vel) (Ideal M Mode.any) :=
  sat_call (fun w h => ⟨PositionAssertsPass.call rfl h.1, M.move_velocity w.ext v⟩)

theorem ideal_delay_read_bind {σ β : Type} {E : Env σ} (M : IdealMotor E) (ms : Int)
    {f : Int → Sketch σ β} {Q : β → World σ → Prop}
    (h : ∀ r, sat (f r) (Ideal M (Mode.velAt r)) Q (Ideal M Mode.any)) :
    sat (call E (Call.delay ms) >>= fun _ =>
      call E (Call.onMotor motor MotorCall.PositionRefCommanded) >>= f)
      (Ideal M Mode.vel) Q (Ideal M Mode.any) := by
  refine sat_bind
    (R := fun _ w => Ideal M Mode.vel w ∧ ∃ c r tr, w.trace = Event.call c r :: tr)
    (sat_call (fun w hw => ?_)) (fun _ => ?_)
  · exact ⟨⟨PositionAssertsPass.call rfl hw.1,
      Mode.holds_quiet M Mode.vel rfl w.ext _ rfl hw.2⟩, _, _, _, rfl⟩
  · refine sat_bind (R := fun r w => Ideal M (Mode.velAt r) w) (sat_call (fun w hw => ?_)) h
    obtain ⟨⟨hp, hv⟩, c, r, tr, htr⟩ := hw
    have hl := M.position_ref w.ext
    refine ⟨?_, ?_, ?_⟩
    · show PositionAssertsPass (_ :: w.trace)
      rw [htr]
      rw [htr] at hp
      exact PositionAssertsPass.cons_read_call hp
    · exact (M.quiet w.ext readPosition rfl).1.trans hv
    · exact hl.2.trans hl.1.symm

theorem ideal_WaitForMotorStop_pos {σ : Type} {E : Env σ} (M : IdealMotor E) (t : Int) :
    sat (WaitForMotorStop E) (Ideal M (Mode.pos t)) (fun _ => Ideal M (Mode.settled t))
      (Ideal M Mode.any) := by
  simp only [WaitForMotorStop, motorGet]
  refine sat_bind (R := fun _ => Ideal M (Mode.pos t))
    (sat_enter (fun w h => ⟨PositionAssertsPass.enter h.1, h.2⟩)) (fun _ => ?_)
  refine sat_while (I := Ideal M (Mode.pos t)) (J := Ideal M (Mode.pos t)) ?_ ?_ ?_
  · refine sat_bind
      (R := fun r w => Ideal M (Mode.pos t) w ∧ (asBool r = true → M.p w.ext = M.e w.ext))
      (sat_call (fun w h => ?_)) (fun r => sat_pure (fun w h => ?_))
    · exact ⟨⟨PositionAssertsPass.call rfl h.1,
        Mode.holds_quiet M (Mode.pos t) rfl w.ext _ rfl h.2⟩, M.steps_complete w.ext⟩
    · cases hb : asBool r with
      | true =>
        simp only [Bool.not_true, Bool.false_eq_true, if_false]
        exact ⟨h.1.1, h.1.2.1, h.1.2.2, (h.2 hb).trans h.1.2.2⟩
      | false =>
        simp only [Bool.not_false, if_true]
        exact h.1
  · exact ideal_pure M _ _
  · intro w h
    exact h.weakenAny

theorem ideal_WaitForMotorStop {σ : Type} {E : Env σ} (M : IdealMotor E) (m : Mode)
    (hm : m.isCalm = true) :
    sat (WaitForMotorStop E) (Ideal M m) (fun _ => Ideal M m) (Ideal M Mode.any) := by
  simp only [WaitForMotorStop, motorGet]
  refine sat_bind (R := fun _ => Ideal M m)
    (sat_enter (fun w h => ⟨PositionAssertsPass.enter h.1, h.2⟩)) (fun _ => ?_)
  refine sat_while (I := Ideal M m) (J := Ideal M m) ?_ ?_ ?_
  · refine sat_bind (ideal_call M _ m hm rfl rfl) (fun r => sat_pure (fun w h => ?_))
    split <;> exact h
  · exact ideal_pure M _ _
  · intro w h
    exact h.weakenAny

theorem ideal_WaitForMotorCruise {σ : Type} {E : Env σ} (M : IdealMotor E) (m : Mode)
    (hm : m.isCalm = true) :
    sat (WaitForMotorCruise E) (Ideal M m) (fun _ => Ideal M m) (Ideal M Mode.any) := by
  simp only [WaitForMotorCruise, motorGet]
  refine sat_bind (R := fun _ => Ideal M m)
    (sat_enter (fun w h => ⟨PositionAssertsPass.enter h.1, h.2⟩)) (fun _ => ?_)
  refine sat_while (I := Ideal M m) (J := Ideal M m) ?_ ?_ ?_
  · refine sat_bind (ideal_call M _ m hm rfl rfl) (fun r => ?_)
    refine sat_ite (fun _ => ?_) (fun _ => ?_)
    · refine sat_bind (ideal_call M _ m hm rfl rfl) (fun r => sat_pure (fun w h => ?_))
      split <;> exact h
    · exact sat_pure (fun w h => by simpa using h)
  · exact ideal_pure M _ _
  · intro w h
    exact h.weakenAny

theorem ideal_delayLoop {σ : Type} {E : Env σ} (M : IdealMotor E) (ms : Int) (m : Mode)
    (hm : m.isCalm = true) (Q : Unit → World σ → Prop) :
    sat (whileLoop (pure true) (delay E ms)) (Ideal M m) Q (Ideal M Mode.any) := by
  refine sat_while (I := Ideal M m) (J := Ideal M m) ?_ ?_ ?_
  · exact sat_pure (fun w h => by simpa using h)
  · simp only [delay]
    exact sat_bind (ideal_call M _ m hm rfl rfl) (fun _ => ideal_pure M _ _)
  · intro w h
    exact h.weakenAny

theorem ideal_AssertVelocity {σ : Type} {E : Env σ} (M : IdealMotor E) (t : Int) (m : Mode)
    (hm : m.isCalm = true) :
    sat (AssertVelocity E t) (Ideal M m) (fun _ => Ideal M m) (Ideal M Mode.any) := by
  simp only [AssertVelocity, motorGet, Serial_print, Serial_println, bind_assoc', pure_bind']
  refine sat_bind (R := fun _ => Ideal M m)
    (sat_enter (fun w h => ⟨PositionAssertsPass.enter h.1, h.2⟩)) (fun _ => ?_)
  refine sat_bind (ideal_call M _ m hm rfl rfl) (fun r => ?_)
  refine sat_bind (R := fun _ => Ideal M m) (sat_ite (fun _ => ?_) (fun _ => ?_)) (fun _ => ?_)
  · repeat (first
      | refine sat_bind (ideal_call M _ m hm rfl rfl) (fun _ => ?_)
      | refine sat_bind (ideal_getTestNum M m) (fun _ => ?_))
    exact ideal_delayLoop M 100 m hm _
  · exact ideal_pure M _ _
  · repeat (first
      | refine sat_bind (ideal_call M _ m hm rfl rfl) (fun _ => ?_)
      | refine sat_bind (ideal_getTestNum M m) (fun _ => ?_))
    exact sat_incrTestNum (fun w h => h)

theorem ideal_AssertPosition {σ : Type} {E : Env σ} (M : IdealMotor E) (t t' : Int)
    (ht : t = t') :
    sat (AssertPosition E t) (Ideal M (Mode.settled t')) (fun _ => Ideal M (Mode.pos t))
      (Ideal M Mode.any) := by
  subst ht
  simp only [AssertPosition, motorGet, Serial_print, Serial_println, bind_assoc', pure_bind']
  refine sat_bind
    (R := fun _ w => Mode.holds M (Mode.settled t) w.ext ∧
      ∃ tr, w.trace = Event.enter (Helper.AssertPosition t) :: tr ∧ PositionAssertsPass tr)
    (sat_enter (fun w h => ⟨h.2, w.trace, rfl, h.1⟩)) (fun _ => ?_)
  refine sat_bind (R := fun r w => r = t ∧ Ideal M (Mode.pos t) w)
    (sat_call (fun w h => ?_)) (fun r => ?_)
  · obtain ⟨hm, tr, htr, hp⟩ := h
    have hl := M.position_ref w.ext
    have hr : answer E (Call.onMotor motor MotorCall.PositionRefCommanded) w = t :=
      hl.1.trans hm.2.2
    refine ⟨hr, ?_, Mode.holds_quiet M (Mode.pos t) rfl w.ext _ rfl ⟨hm.1, hm.2.1⟩⟩
    show PositionAssertsPass (_ :: w.trace)
    rw [htr]
    exact PositionAssertsPass.cons_read_entry hr hp
  · refine sat_bind (R := fun _ => Ideal M (Mode.pos t)) (sat_ite (fun hc => ?_) (fun _ => ?_))
      (fun _ => ?_)
    · intro fuel w h
      exact absurd h.1 hc
    · exact sat_pure (fun w h => h.2)
    · repeat (first
        | refine sat_bind (ideal_call M _ _ rfl rfl rfl) (fun _ => ?_)
        | refine sat_bind (ideal_getTestNum M _) (fun _ => ?_))
      exact sat_incrTestNum (fun w h => h)

theorem ideal_for_any {σ β : Type} {E : Env σ} (M : IdealMotor E) {body : β → Sketch σ β}
    (hb : ∀ v, sat (body v) (Ideal M Mode.any) (fun _ => Ideal M Mode.any)
      (Ideal M Mode.any)) (n : Nat) (v : β) (m : Mode) :
    sat (forLoop body n v) (Ideal M m) (fun _ => Ideal M Mode.any) (Ideal M Mode.any) :=
  sat_conseq (sat_for hb n v) (fun _ h => h.weakenAny) (fun _ _ h => h) (fun _ h => h)

theorem ideal_relativeMove_bind {σ β : Type} {E : Env σ} (M : IdealMotor E) (a b : Int)
    {f : Int → Sketch σ β} {Q : β → World σ → Prop}
    (h : sat (f (wrapInt32 (a + b))) (Ideal M (Mode.pos (wrapInt32 (a + b)))) Q
      (Ideal M Mode.any)) :
    sat (loop_relativeMove E MOVE_TARGET.MOVE_TARGET_REL_END_POSN a b >>= f)
      (Ideal M (Mode.pos a)) Q (Ideal M Mode.any) := by
  refine sat_bind
    (R := fun r w => r = wrapInt32 (a + b) ∧ Ideal M (Mode.pos (wrapInt32 (a + b))) w) ?_ ?_
  · simp only [loop_relativeMove, Move, motorDo, delay, bind_assoc', pure_bind']
    refine sat_bind (ideal_moveRelative_pos M _ _) (fun _ => ?_)
    refine sat_bind (ideal_WaitForMotorStop_pos M _) (fun _ => ?_)
    refine sat_bind (ideal_AssertPosition M _ _ rfl) (fun _ => ?_)
    refine sat_bind (ideal_call M _ _ rfl rfl rfl) (fun _ => ?_)
    exact sat_pure (fun w h => ⟨rfl, h⟩)
  · intro r fuel w hw
    obtain ⟨hr, hw⟩ := hw
    rw [hr]
    exact h fuel w hw

theorem ideal_loop_absoluteMove {σ : Type} {E : Env σ} (M : IdealMotor E) (t : Int) (m : Mode) :
    sat (loop_absoluteMove E MOVE_TARGET.MOVE_TARGET_ABSOLUTE t) (Ideal M m) (fun _ => Ideal M Mode.any)
      (Ideal M Mode.any) := by
  simp only [loop_absoluteMove, Serial_print, Serial_println, delay, random, randomRange, motorGet,
    motorDo, Move, MoveVelocity, bind_assoc', pure_bind']
  repeat (first
    | refine ideal_delay_read_bind M _ (fun _ => ?_)
    | refine sat_bind (ideal_moveAbsolute M _ _) (fun _ => ?_)
    | refine sat_bind (ideal_moveRelative_pos M _ _) (fun _ => ?_)
    | refine sat_bind (ideal_moveRelative_velAt M _ _) (fun _ => ?_)
    | refine sat_bind (ideal_moveVelocity M _ _) (fun _ => ?_)
    | refine sat_bind (ideal_call M _ _ rfl rfl rfl) (fun _ => ?_)
    | refine sat_bind (ideal_call_settled M _ _ rfl rfl) (fun _ => ?_)
    | refine sat_bind (ideal_motion_any M _ _ rfl) (fun _ => ?_)
    | refine sat_bind (ideal_getTestNum M _) (fun _ => ?_)
    | refine sat_bind (ideal_WaitForMotorStop_pos M _) (fun _ => ?_)
    | refine sat_bind (ideal_WaitForMotorStop M _ rfl) (fun _ => ?_)
    | refine sat_bind (ideal_WaitForMotorCruise M _ rfl) (fun _ => ?_)
    | refine sat_bind (ideal_AssertPosition M _ _ rfl) (fun _ => ?_)
    | refine sat_bind (ideal_AssertPosition M _ _ (wrapInt32_add_assoc _ _ _)) (fun _ => ?_)
    | refine sat_bind (ideal_AssertVelocity M _ _ rfl) (fun _ => ?_))
  exact ideal_pure_any M _ _

theorem ideal_loop_absoluteBody {σ : Type} {E : Env σ} (M : IdealMotor E) (v : Vars) :
    sat (loop_absoluteBody E MOVE_TARGET.MOVE_TARGET_ABSOLUTE v) (Ideal M Mode.any) (fun _ => Ideal M Mode.any)
      (Ideal M Mode.any) := by
  simp only [loop_absoluteBody, Serial_print, Serial_println, delay, random, randomRange, motorGet,
    motorDo, Move, MoveVelocity, bind_assoc', pure_bind']
  repeat (first
    | refine ideal_delay_read_bind M _ (fun _ => ?_)
    | refine sat_bind (ideal_moveAbsolute M _ _) (fun _ => ?_)
    | refine sat_bind (ideal_moveRelative_pos M _ _) (fun _ => ?_)
    | refine sat_bind (ideal_moveRelative_velAt M _ _) (fun _ => ?_)
    | refine sat_bind (ideal_moveVelocity M _ _) (fun _ => ?_)
    | refine sat_bind (ideal_call M _ _ rfl rfl rfl) (fun _ => ?_)
    | refine sat_bind (ideal_call_settled M _ _ rfl rfl) (fun _ => ?_)
    | refine sat_bind (ideal_motion_any M _ _ rfl) (fun _ => ?_)
    | refine sat_bind (ideal_getTestNum M _) (fun _ => ?_)
    | refine sat_bind (ideal_WaitForMotorStop_pos M _) (fun _ => ?_)
    | refine sat_bind (ideal_WaitForMotorStop M _ rfl) (fun _ => ?_)
    | refine sat_bind (ideal_WaitForMotorCruise M _ rfl) (fun _ => ?_)
    | refine sat_bind (ideal_AssertPosition M _ _ rfl) (fun _ => ?_)
    | refine sat_bind (ideal_AssertPosition M _ _ (wrapInt32_add_assoc _ _ _)) (fun _ => ?_)
    | refine sat_bind (ideal_AssertVelocity M _ _ rfl) (fun _ => ?_))
  exact ideal_pure_any M _ _

theorem ideal_loop_absolute {σ : Type} {E : Env σ} (M : IdealMotor E) (n : Int) (v : Vars) :
    sat (loop_absolute E n v) (Ideal M Mode.any) (fun _ => Ideal M Mode.any)
      (Ideal M Mode.any) := by
  simp only [loop_absolute, Serial_print, Serial_println, delay, random, randomRange, motorGet,
    motorDo, Move, MoveVelocity, bind_assoc', pure_bind']
  repeat (first
    | refine ideal_delay_read_bind M _ (fun _ => ?_)
    | refine sat_bind (ideal_moveAbsolute M _ _) (fun _ => ?_)
    | refine sat_bind (ideal_moveRelative_pos M _ _) (fun _ => ?_)
    | refine sat_bind (ideal_moveRelative_velAt M _ _) (fun _ => ?_)
    | refine sat_bind (ideal_moveVelocity M _ _) (fun _ => ?_)
    | refine sat_bind (ideal_call M _ _ rfl rfl rfl) (fun _ => ?_)
    | refine sat_bind (ideal_call_settled M _ _ rfl rfl) (fun _ => ?_)
    | refine sat_bind (ideal_motion_any M _ _ rfl) (fun _ => ?_)
    | refine sat_bind (ideal_getTestNum M _) (fun _ => ?_)
    | refine sat_bind (ideal_WaitForMotorStop_pos M _) (fun _ => ?_)
    | refine sat_bind (ideal_WaitForMotorStop M _ rfl) (fun _ => ?_)
    | refine sat_bind (ideal_WaitForMotorCruise M _ rfl) (fun _ => ?_)
    | refine sat_bind (ideal_AssertPosition M _ _ rfl) (fun _ => ?_)
    | refine sat_bind (ideal_AssertPosition M _ _ (wrapInt32_add_assoc _ _ _)) (fun _ => ?_)
    | refine sat_bind (ideal_AssertVelocity M _ _ rfl) (fun _ => ?_)
    | refine sat_bind (ideal_loop_absoluteMove M _ _) (fun _ => ?_)
    | refine sat_bind (ideal_for_any M (fun v => ideal_loop_absoluteBody M v) _ _ _) (fun _ => ?_))
  exact ideal_pure_any M _ _

theorem ideal_loop_relativeFixed {σ : Type} {E : Env σ} (M : IdealMotor E) (m : Mode) :
    sat (loop_relativeFixed E ) (Ideal M m) (fun v => Ideal M (Mode.pos v.targetPos))
      (Ideal M Mode.any) := by
  simp only [loop_relativeFixed, Serial_print, Serial_println, delay, random, randomRange, motorGet,
    motorDo, Move, MoveVelocity, bind_assoc', pure_bind']
  repeat (first
    | refine ideal_delay_read_bind M _ (fun _ => ?_)
    | refine sat_bind (ideal_moveAbsolute M _ _) (fun _ => ?_)
    | refine sat_bind (ideal_moveRelative_pos M _ _) (fun _ => ?_)
    | refine sat_bind (ideal_moveRelative_velAt M _ _) (fun _ => ?_)
    | refine sat_bind (ideal_moveVelocity M _ _) (fun _ => ?_)
    | refine sat_bind (ideal_call M _ _ rfl rfl rfl) (fun _ => ?_)
    | refine sat_bind (ideal_call_settled M _ _ rfl rfl) (fun _ => ?_)
    | refine sat_bind (ideal_motion_any M _ _ rfl) (fun _ => ?_)
    | refine sat_bind (ideal_getTestNum M _) (fun _ => ?_)
    | refine sat_bind (ideal_WaitForMotorStop_pos M _) (fun _ => ?_)
    | refine sat_bind (ideal_WaitForMotorStop M _ rfl) (fun _ => ?_)
    | refine sat_bind (ideal_WaitForMotorCruise M _ rfl) (fun _ => ?_)
    | refine sat_bind (ideal_AssertPosition M _ _ rfl) (fun _ => ?_)
    | refine sat_bind (ideal_AssertPosition M _ _ (wrapInt32_add_assoc _ _ _)) (fun _ => ?_)
    | refine sat_bind (ideal_AssertVelocity M _ _ rfl) (fun _ => ?_)
    | refine ideal_relativeMove_bind M _ _ ?_)
  exact sat_pure (fun _ h => h)

theorem ideal_loop_relativeBody {σ : Type} {E : Env σ} (M : IdealMotor E) (v : Vars) :
    sat (loop_relativeBody E MOVE_TARGET.MOVE_TARGET_REL_END_POSN v) (Ideal M (Mode.pos v.targetPos)) (fun v' => Ideal M (Mode.pos v'.targetPos))
      (Ideal M Mode.any) := by
  simp only [loop_relativeBody, Serial_print, Serial_println, delay, random, randomRange, motorGet,
    motorDo, Move, MoveVelocity, bind_assoc', pure_bind']
  repeat (first
    | refine ideal_delay_read_bind M _ (fun _ => ?_)
    | refine sat_bind (ideal_moveAbsolute M _ _) (fun _ => ?_)
    | refine sat_bind (ideal_moveRelative_pos M _ _) (fun _ => ?_)
    | refine sat_bind (ideal_moveRelative_velAt M _ _) (fun _ => ?_)
    | refine sat_bind (ideal_moveVelocity M _ _) (fun _ => ?_)
    | refine sat_bind (ideal_call M _ _ rfl rfl rfl) (fun _ => ?_)
    | refine sat_bind (ideal_call_settled M _ _ rfl rfl) (fun _ => ?_)
    | refine sat_bind (ideal_motion_any M _ _ rfl) (fun _ => ?_)
    | refine sat_bind (ideal_getTestNum M _) (fun _ => ?_)
    | refine sat_bind (ideal_WaitForMotorStop_pos M _) (fun _ => ?_)
    | refine sat_bind (ideal_WaitForMotorStop M _ rfl) (fun _ => ?_)
    | refine sat_bind (ideal_WaitForMotorCruise M _ rfl) (fun _ => ?_)
    | refine sat_bind (ideal_AssertPosition M _ _ rfl) (fun _ => ?_)
    | refine sat_bind (ideal_AssertPosition M _ _ (wrapInt32_add_assoc _ _ _)) (fun _ => ?_)
    | refine sat_bind (ideal_AssertVelocity M _ _ rfl) (fun _ => ?_))
  exact sat_pure (fun _ h => h)

theorem ideal_loop_relative {σ : Type} {E : Env σ} (M : IdealMotor E) (n : Int) (m : Mode) :
    sat (loop_relative E n) (Ideal M m) (fun _ => Ideal M Mode.any) (Ideal M Mode.any) := by
  simp only [loop_relative, Serial_println, bind_assoc', pure_bind']
  refine sat_bind (ideal_loop_relativeFixed M m) (fun v => ?_)
  refine sat_bind (sat_for (I := fun v => Ideal M (Mode.pos v.targetPos))
    (fun v => ideal_loop_relativeBody M v) _ v) (fun v' => ?_)
  refine sat_bind (ideal_call M _ _ rfl rfl rfl) (fun _ => ?_)
  exact ideal_pure_any M _ _

theorem ideal_loop_velocitySimpleBody {σ : Type} {E : Env σ} (M : IdealMotor E) (a : Int) (u : Unit) :
    sat (loop_velocitySimpleBody E a u) (Ideal M Mode.any) (fun _ => Ideal M Mode.any)
      (Ideal M Mode.any) := by
  simp only [loop_velocitySimpleBody, Serial_print, Serial_println, delay, random, randomRange, motorGet,
    motorDo, Move, MoveVelocity, bind_assoc', pure_bind']
  repeat (first
    | refine ideal_delay_read_bind M _ (fun _ => ?_)
    | refine sat_bind (ideal_moveAbsolute M _ _) (fun _ => ?_)
    | refine sat_bind (ideal_moveRelative_pos M _ _) (fun _ => ?_)
    | refine sat_bind (ideal_moveRelative_velAt M _ _) (fun _ => ?_)
    | refine sat_bind (ideal_moveVelocity M _ _) (fun _ => ?_)
    | refine sat_bind (ideal_call M _ _ rfl rfl rfl) (fun _ => ?_)
    | refine sat_bind (ideal_call_settled M _ _ rfl rfl) (fun _ => ?_)
    | refine sat_bind (ideal_motion_any M _ _ rfl) (fun _ => ?_)
    | refine sat_bind (ideal_getTestNum M _) (fun _ => ?_)
    | refine sat_bind (ideal_WaitForMotorStop_pos M _) (fun _ => ?_)
    | refine sat_bind (ideal_WaitForMotorStop M _ rfl) (fun _ => ?_)
    | refine sat_bind (ideal_WaitForMotorCruise M _ rfl) (fun _ => ?_)
    | refine sat_bind (ideal_AssertPosition M _ _ rfl) (fun _ => ?_)
    | refine sat_bind (ideal_AssertPosition M _ _ (wrapInt32_add_assoc _ _ _)) (fun _ => ?_)
    | refine sat_bind (ideal_AssertVelocity M _ _ rfl) (fun _ => ?_))
  exact ideal_pure_any M _ _

theorem ideal_loop_velocityInterruptBody {σ : Type} {E : Env σ} (M : IdealMotor E) (a : Int) (u : Unit) :
    sat (loop_velocityInterruptBody E a u) (Ideal M Mode.any) (fun _ => Ideal M Mode.any)
      (Ideal M Mode.any) := by
  simp only [loop_velocityInterruptBody, Serial_print, Serial_println, delay, random, randomRange, motorGet,
    motorDo, Move, MoveVelocity, bind_assoc', pure_bind']
  repeat (first
    | refine ideal_delay_read_bind M _ (fun _ => ?_)
    | refine sat_bind (ideal_moveAbsolute M _ _) (fun _ => ?_)
    | refine sat_bind (ideal_moveRelative_pos M _ _) (fun _ => ?_)
    | refine sat_bind (ideal_moveRelative_velAt M _ _) (fun _ => ?_)
    | refine sat_bind (ideal_moveVelocity M _ _) (fun _ => ?_)
    | refine sat_bind (ideal_call M _ _ rfl rfl rfl) (fun _ => ?_)
    | refine sat_bind (ideal_call_settled M _ _ rfl rfl) (fun _ => ?_)
    | refine sat_bind (ideal_motion_any M _ _ rfl) (fun _ => ?_)
    | refine sat_bind (ideal_getTestNum M _) (fun _ => ?_)
    | refine sat_bind (ideal_WaitForMotorStop_pos M _) (fun _ => ?_)
    | refine sat_bind (ideal_WaitForMotorStop M _ rfl) (fun _ => ?_)
    | refine sat_bind (ideal_WaitForMotorCruise M _ rfl) (fun _ => ?_)
    | refine sat_bind (ideal_AssertPosition M _ _ rfl) (fun _ => ?_)
    | refine sat_bind (ideal_AssertPosition M _ _ (wrapInt32_add_assoc _ _ _)) (fun _ => ?_)
    | refine sat_bind (ideal_AssertVelocity M _ _ rfl) (fun _ => ?_))
  exact ideal_pure_any M _ _

theorem ideal_loop_velocity {σ : Type} {E : Env σ} (M : IdealMotor E) (a b : Int) :
    sat (loop_velocity E a b) (Ideal M Mode.any) (fun _ => Ideal M Mode.any)
      (Ideal M Mode.any) := by
  simp only [loop_velocity, Serial_print, Serial_println, delay, random, randomRange, motorGet,
    motorDo, Move, MoveVelocity, bind_assoc', pure_bind']
  repeat (first
    | refine ideal_delay_read_bind M _ (fun _ => ?_)
    | refine sat_bind (ideal_moveAbsolute M _ _) (fun _ => ?_)
    | refine sat_bind (ideal_moveRelative_pos M _ _) (fun _ => ?_)
    | refine sat_bind (ideal_moveRelative_velAt M _ _) (fun _ => ?_)
    | refine sat_bind (ideal_moveVelocity M _ _) (fun _ => ?_)
    | refine sat_bind (ideal_call M _ _ rfl rfl rfl) (fun _ => ?_)
    | refine sat_bind (ideal_call_settled M _ _ rfl rfl) (fun _ => ?_)
    | refine sat_bind (ideal_motion_any M _ _ rfl) (fun _ => ?_)
    | refine sat_bind (ideal_getTestNum M _) (fun _ => ?_)
    | refine sat_bind (ideal_WaitForMotorStop_pos M _) (fun _ => ?_)
    | refine sat_bind (ideal_WaitForMotorStop M _ rfl) (fun _ => ?_)
    | refine sat_bind (ideal_WaitForMotorCruise M _ rfl) (fun _ => ?_)
    | refine sat_bind (ideal_AssertPosition M _ _ rfl) (fun _ => ?_)
    | refine sat_bind (ideal_AssertPosition M _ _ (wrapInt32_add_assoc _ _ _)) (fun _ => ?_)
    | refine sat_bind (ideal_AssertVelocity M _ _ rfl) (fun _ => ?_)
    | refine sat_bind (ideal_for_any M (fun v => ideal_loop_velocitySimpleBody M _ v) _ _ _) (fun _ => ?_)
    | refine sat_bind (ideal_for_any M (fun v => ideal_loop_velocityInterruptBody M _ v) _ _ _) (fun _ => ?_))
  exact ideal_pure_any M _ _

theorem ideal_loop_abThenRelBody {σ : Type} {E : Env σ} (M : IdealMotor E) (v : Vars) :
    sat (loop_abThenRelBody E v) (Ideal M Mode.any) (fun _ => Ideal M Mode.any)
      (Ideal M Mode.any) := by
  simp only [loop_abThenRelBody, Serial_print, Serial_println, delay, random, randomRange, motorGet,
    motorDo, Move, MoveVelocity, bind_assoc', pure_bind']
  repeat (first
    | refine ideal_delay_read_bind M _ (fun _ => ?_)
    | refine sat_bind (ideal_moveAbsolute M _ _) (fun _ => ?_)
    | refine sat_bind (ideal_moveRelative_pos M _ _) (fun _ => ?_)
    | refine sat_bind (ideal_moveRelative_velAt M _ _) (fun _ => ?_)
    | refine sat_bind (ideal_moveVelocity M _ _) (fun _ => ?_)
    | refine sat_bind (ideal_call M _ _ rfl rfl rfl) (fun _ => ?_)
    | refine sat_bind (ideal_call_settled M _ _ rfl rfl) (fun _ => ?_)
    | refine sat_bind (ideal_motion_any M _ _ rfl) (fun _ => ?_)
    | refine sat_bind (ideal_getTestNum M _) (fun _ => ?_)
    | refine sat_bind (ideal_WaitForMotorStop_pos M _) (fun _ => ?_)
    | refine sat_bind (ideal_WaitForMotorStop M _ rfl) (fun _ => ?_)
    | refine sat_bind (ideal_WaitForMotorCruise M _ rfl) (fun _ => ?_)
    | refine sat_bind (ideal_AssertPosition M _ _ rfl) (fun _ => ?_)
    | refine sat_bind (ideal_AssertPosition M _ _ (wrapInt32_add_assoc _ _ _)) (fun _ => ?_)
    | refine sat_bind (ideal_AssertVelocity M _ _ rfl) (fun _ => ?_))
  exact ideal_pure_any M _ _

theorem ideal_loop_abThenRel {σ : Type} {E : Env σ} (M : IdealMotor E) (n : Int) (v : Vars) :
    sat (loop_abThenRel E n v) (Ideal M Mode.any) (fun _ => Ideal M Mode.any)
      (Ideal M Mode.any) := by
  simp only [loop_abThenRel, Serial_print, Serial_println, delay, random, randomRange, motorGet,
    motorDo, Move, MoveVelocity, bind_assoc', pure_bind']
  repeat (first
    | refine ideal_delay_read_bind M _ (fun _ => ?_)
    | refine sat_bind (ideal_moveAbsolute M _ _) (fun _ => ?_)
    | refine sat_bind (ideal_moveRelative_pos M _ _) (fun _ => ?_)
    | refine sat_bind (ideal_moveRelative_velAt M _ _) (fun _ => ?_)
    | refine sat_bind (ideal_moveVelocity M _ _) (fun _ => ?_)
    | refine sat_bind (ideal_call M _ _ rfl rfl rfl) (fun _ => ?_)
    | refine sat_bind (ideal_call_settled M _ _ rfl rfl) (fun _ => ?_)
    | refine sat_bind (ideal_motion_any M _ _ rfl) (fun _ => ?_)
    | refine sat_bind (ideal_getTestNum M _) (fun _ => ?_)
    | refine sat_bind (ideal_WaitForMotorStop_pos M _) (fun _ => ?_)
    | refine sat_bind (ideal_WaitForMotorStop M _ rfl) (fun _ => ?_)
    | refine sat_bind (ideal_WaitForMotorCruise M _ rfl) (fun _ => ?_)
    | refine sat_bind (ideal_AssertPosition M _ _ rfl) (fun _ => ?_)
    | refine sat_bind (ideal_AssertPosition M _ _ (wrapInt32_add_assoc _ _ _)) (fun _ => ?_)
    | refine sat_bind (ideal_AssertVelocity M _ _ rfl) (fun _ => ?_)
    | refine sat_bind (ideal_for_any M (fun v => ideal_loop_abThenRelBody M v) _ _ _) (fun _ => ?_))
  exact ideal_pure_any M _ _

theorem ideal_loop_relThenAbBody {σ : Type} {E : Env σ} (M : IdealMotor E) (v : Vars) :
    sat (loop_relThenAbBody E v) (Ideal M Mode.any) (fun _ => Ideal M Mode.any)
      (Ideal M Mode.any) := by
  simp only [loop_relThenAbBody, Serial_print, Serial_println, delay, random, randomRange, motorGet,
    motorDo, Move, MoveVelocity, bind_assoc', pure_bind']
  repeat (first
    | refine ideal_delay_read_bind M _ (fun _ => ?_)
    | refine sat_bind (ideal_moveAbsolute M _ _) (fun _ => ?_)
    | refine sat_bind (ideal_moveRelative_pos M _ _) (fun _ => ?_)
    | refine sat_bind (ideal_moveRelative_velAt M _ _) (fun _ => ?_)
    | refine sat_bind (ideal_moveVelocity M _ _) (fun _ => ?_)
    | refine sat_bind (ideal_call M _ _ rfl rfl rfl) (fun _ => ?_)
    | refine sat_bind (ideal_call_settled M _ _ rfl rfl) (fun _ => ?_)
    | refine sat_bind (ideal_motion_any M _ _ rfl) (fun _ => ?_)
    | refine sat_bind (ideal_getTestNum M _) (fun _ => ?_)
    | refine sat_bind (ideal_WaitForMotorStop_pos M _) (fun _ => ?_)
    | refine sat_bind (ideal_WaitForMotorStop M _ rfl) (fun _ => ?_)
    | refine sat_bind (ideal_WaitForMotorCruise M _ rfl) (fun _ => ?_)
    | refine sat_bind (ideal_AssertPosition M _ _ rfl) (fun _ => ?_)
    | refine sat_bind (ideal_AssertPosition M _ _ (wrapInt32_add_assoc _ _ _)) (fun _ => ?_)
    | refine sat_bind (ideal_AssertVelocity M _ _ rfl) (fun _ => ?_))
  exact ideal_pure_any M _ _

theorem ideal_loop_relThenAb {σ : Type} {E : Env σ} (M : IdealMotor E) (n : Int) (v : Vars) :
    sat (loop_relThenAb E n v) (Ideal M Mode.any) (fun _ => Ideal M Mode.any)
      (Ideal M Mode.any) := by
  simp only [loop_relThenAb, Serial_print, Serial_println, delay, random, randomRange, motorGet,
    motorDo, Move, MoveVelocity, bind_assoc', pure_bind']
  repeat (first
    | refine ideal_delay_read_bind M _ (fun _ => ?_)
    | refine sat_bind (ideal_moveAbsolute M _ _) (fun _ => ?_)
    | refine sat_bind (ideal_moveRelative_pos M _ _) (fun _ => ?_)
    | refine sat_bind (ideal_moveRelative_velAt M _ _) (fun _ => ?_)
    | refine sat_bind (ideal_moveVelocity M _ _) (fun _ => ?_)
    | refine sat_bind (ideal_call M _ _ rfl rfl rfl) (fun _ => ?_)
    | refine sat_bind (ideal_call_settled M _ _ rfl rfl) (fun _ => ?_)
    | refine sat_bind (ideal_motion_any M _ _ rfl) (fun _ => ?_)
    | refine sat_bind (ideal_getTestNum M _) (fun _ => ?_)
    | refine sat_bind (ideal_WaitForMotorStop_pos M _) (fun _ => ?_)
    | refine sat_bind (ideal_WaitForMotorStop M _ rfl) (fun _ => ?_)
    | refine sat_bind (ideal_WaitForMotorCruise M _ rfl) (fun _ => ?_)
    | refine sat_bind (ideal_AssertPosition M _ _ rfl) (fun _ => ?_)
    | refine sat_bind (ideal_AssertPosition M _ _ (wrapInt32_add_assoc _ _ _)) (fun _ => ?_)
    | refine sat_bind (ideal_AssertVelocity M _ _ rfl) (fun _ => ?_)
    | refine sat_bind (ideal_for_any M (fun v => ideal_loop_relThenAbBody M v) _ _ _) (fun _ => ?_))
  exact ideal_pure_any M _ _

theorem ideal_loop_relThenVelBody {σ : Type} {E : Env σ} (M : IdealMotor E) (v : Vars) :
    sat (loop_relThenVelBody E v) (Ideal M Mode.any) (fun _ => Ideal M Mode.any)
      (Ideal M Mode.any) := by
  simp only [loop_relThenVelBody, Serial_print, Serial_println, delay, random, randomRange, motorGet,
    motorDo, Move, MoveVelocity, bind_assoc', pure_bind']
  repeat (first
    | refine ideal_delay_read_bind M _ (fun _ => ?_)
    | refine sat_bind (ideal_moveAbsolute M _ _) (fun _ => ?_)
    | refine sat_bind (ideal_moveRelative_pos M _ _) (fun _ => ?_)
    | refine sat_bind (ideal_moveRelative_velAt M _ _) (fun _ => ?_)
    | refine sat_bind (ideal_moveVelocity M _ _) (fun _ => ?_)
    | refine sat_bind (ideal_call M _ _ rfl rfl rfl) (fun _ => ?_)
    | refine sat_bind (ideal_call_settled M _ _ rfl rfl) (fun _ => ?_)
    | refine sat_bind (ideal_motion_any M _ _ rfl) (fun _ => ?_)
    | refine sat_bind (ideal_getTestNum M _) (fun _ => ?_)
    | refine sat_bind (ideal_WaitForMotorStop_pos M _) (fun _ => ?_)
    | refine sat_bind (ideal_WaitForMotorStop M _ rfl) (fun _ => ?_)
    | refine sat_bind (ideal_WaitForMotorCruise M _ rfl) (fun _ => ?_)
    | refine sat_bind (ideal_AssertPosition M _ _ rfl) (fun _ => ?_)
    | refine sat_bind (ideal_AssertPosition M _ _ (wrapInt32_add_assoc _ _ _)) (fun _ => ?_)
    | refine sat_bind (ideal_AssertVelocity M _ _ rfl) (fun _ => ?_))
  exact ideal_pure_any M _ _

theorem ideal_loop_relThenVel {σ : Type} {E : Env σ} (M : IdealMotor E) (n : Int) (v : Vars) :
    sat (loop_relThenVel E n v) (Ideal M Mode.any) (fun _ => Ideal M Mode.any)
      (Ideal M Mode.any) := by
  simp only [loop_relThenVel, Serial_print, Serial_println, delay, random, randomRange, motorGet,
    motorDo, Move, MoveVelocity, bind_assoc', pure_bind']
  repeat (first
    | refine ideal_delay_read_bind M _ (fun _ => ?_)
    | refine sat_bind (ideal_moveAbsolute M _ _) (fun _ => ?_)
    | refine sat_bind (ideal_moveRelative_pos M _ _) (fun _ => ?_)
    | refine sat_bind (ideal_moveRelative_velAt M _ _) (fun _ => ?_)
    | refine sat_bind (ideal_moveVelocity M _ _) (fun _ => ?_)
    | refine sat_bind (ideal_call M _ _ rfl rfl rfl) (fun _ => ?_)
    | refine sat_bind (ideal_call_settled M _ _ rfl rfl) (fun _ => ?_)
    | refine sat_bind (ideal_motion_any M _ _ rfl) (fun _ => ?_)
    | refine sat_bind (ideal_getTestNum M _) (fun _ => ?_)
    | refine sat_bind (ideal_WaitForMotorStop_pos M _) (fun _ => ?_)
    | refine sat_bind (ideal_WaitForMotorStop M _ rfl) (fun _ => ?_)
    | refine sat_bind (ideal_WaitForMotorCruise M _ rfl) (fun _ => ?_)
    | refine sat_bind (ideal_AssertPosition M _ _ rfl) (fun _ => ?_)
    | refine sat_bind (ideal_AssertPosition M _ _ (wrapInt32_add_assoc _ _ _)) (fun _ => ?_)
    | refine sat_bind (ideal_AssertVelocity M _ _ rfl) (fun _ => ?_)
    | refine sat_bind (ideal_for_any M (fun v => ideal_loop_relThenVelBody M v) _ _ _) (fun _ => ?_))
  exact ideal_pure_any M _ _

theorem ideal_loop_velThenRelBody {σ : Type} {E : Env σ} (M : IdealMotor E) (v : Vars) :
    sat (loop_velThenRelBody E MOVE_TARGET.MOVE_TARGET_REL_END_POSN v) (Ideal M Mode.any) (fun _ => Ideal M Mode.any)
      (Ideal M Mode.any) := by
  simp only [loop_velThenRelBody, Serial_print, Serial_println, delay, random, randomRange, motorGet,
    motorDo, Move, MoveVelocity, bind_assoc', pure_bind']
  repeat (first
    | refine ideal_delay_read_bind M _ (fun _ => ?_)
    | refine sat_bind (ideal_moveAbsolute M _ _) (fun _ => ?_)
    | refine sat_bind (ideal_moveRelative_pos M _ _) (fun _ => ?_)
    | refine sat_bind (ideal_moveRelative_velAt M _ _) (fun _ => ?_)
    | refine sat_bind (ideal_moveVelocity M _ _) (fun _ => ?_)
    | refine sat_bind (ideal_call M _ _ rfl rfl rfl) (fun _ => ?_)
    | refine sat_bind (ideal_call_settled M _ _ rfl rfl) (fun _ => ?_)
    | refine sat_bind (ideal_motion_any M _ _ rfl) (fun _ => ?_)
    | refine sat_bind (ideal_getTestNum M _) (fun _ => ?_)
    | refine sat_bind (ideal_WaitForMotorStop_pos M _) (fun _ => ?_)
    | refine sat_bind (ideal_WaitForMotorStop M _ rfl) (fun _ => ?_)
    | refine sat_bind (ideal_WaitForMotorCruise M _ rfl) (fun _ => ?_)
    | refine sat_bind (ideal_AssertPosition M _ _ rfl) (fun _ => ?_)
    | refine sat_bind (ideal_AssertPosition M _ _ (wrapInt32_add_assoc _ _ _)) (fun _ => ?_)
    | refine sat_bind (ideal_AssertVelocity M _ _ rfl) (fun _ => ?_))
  exact ideal_pure_any M _ _

theorem ideal_loop_velThenRel {σ : Type} {E : Env σ} (M : IdealMotor E) (n : Int) (v : Vars) :
    sat (loop_velThenRel E n v) (Ideal M Mode.any) (fun _ => Ideal M Mode.any)
      (Ideal M Mode.any) := by
  simp only [loop_velThenRel, Serial_print, Serial_println, delay, random, randomRange, motorGet,
    motorDo, Move, MoveVelocity, bind_assoc', pure_bind']
  repeat (first
    | refine ideal_delay_read_bind M _ (fun _ => ?_)
    | refine sat_bind (ideal_moveAbsolute M _ _) (fun _ => ?_)
    | refine sat_bind (ideal_moveRelative_pos M _ _) (fun _ => ?_)
    | refine sat_bind (ideal_moveRelative_velAt M _ _) (fun _ => ?_)
    | refine sat_bind (ideal_moveVelocity M _ _) (fun _ => ?_)
    | refine sat_bind (ideal_call M _ _ rfl rfl rfl) (fun _ => ?_)
    | refine sat_bind (ideal_call_settled M _ _ rfl rfl) (fun _ => ?_)
    | refine sat_bind (ideal_motion_any M _ _ rfl) (fun _ => ?_)
    | refine sat_bind (ideal_getTestNum M _) (fun _ => ?_)
    | refine sat_bind (ideal_WaitForMotorStop_pos M _) (fun _ => ?_)
    | refine sat_bind (ideal_WaitForMotorStop M _ rfl) (fun _ => ?_)
    | refine sat_bind (ideal_WaitForMotorCruise M _ rfl) (fun _ => ?_)
    | refine sat_bind (ideal_AssertPosition M _ _ rfl) (fun _ => ?_)
    | refine sat_bind (ideal_AssertPosition M _ _ (wrapInt32_add_assoc _ _ _)) (fun _ => ?_)
    | refine sat_bind (ideal_AssertVelocity M _ _ rfl) (fun _ => ?_)
    | refine sat_bind (ideal_for_any M (fun v => ideal_loop_velThenRelBody M v) _ _ _) (fun _ => ?_))
  exact ideal_pure_any M _ _

theorem ideal_loop_velThenAbBody {σ : Type} {E : Env σ} (M : IdealMotor E) (v : Vars) :
    sat (loop_velThenAbBody E MOVE_TARGET.MOVE_TARGET_ABSOLUTE v) (Ideal M Mode.any) (fun _ => Ideal M Mode.any)
      (Ideal M Mode.any) := by
  simp only [loop_velThenAbBody, Serial_print, Serial_println, delay, random, randomRange, motorGet,
    motorDo, Move, MoveVelocity, bind_assoc', pure_bind']
  repeat (first
    | refine ideal_delay_read_bind M _ (fun _ => ?_)
    | refine sat_bind (ideal_moveAbsolute M _ _) (fun _ => ?_)
    | refine sat_bind (ideal_moveRelative_pos M _ _) (fun _ => ?_)
    | refine sat_bind (ideal_moveRelative_velAt M _ _) (fun _ => ?_)
    | refine sat_bind (ideal_moveVelocity M _ _) (fun _ => ?_)
    | refine sat_bind (ideal_call M _ _ rfl rfl rfl) (fun _ => ?_)
    | refine sat_bind (ideal_call_settled M _ _ rfl rfl) (fun _ => ?_)
    | refine sat_bind (ideal_motion_any M _ _ rfl) (fun _ => ?_)
    | refine sat_bind (ideal_getTestNum M _) (fun _ => ?_)
    | refine sat_bind (ideal_WaitForMotorStop_pos M _) (fun _ => ?_)
    | refine sat_bind (ideal_WaitForMotorStop M _ rfl) (fun _ => ?_)
    | refine sat_bind (ideal_WaitForMotorCruise M _ rfl) (fun _ => ?_)
    | refine sat_bind (ideal_AssertPosition M _ _ rfl) (fun _ => ?_)
    | refine sat_bind (ideal_AssertPosition M _ _ (wrapInt32_add_assoc _ _ _)) (fun _ => ?_)
    | refine sat_bind (ideal_AssertVelocity M _ _ rfl) (fun _ => ?_))
  exact ideal_pure_any M _ _

theorem ideal_loop_velThenAb {σ : Type} {E : Env σ} (M : IdealMotor E) (n : Int) (v : Vars) :
    sat (loop_velThenAb E n v) (Ideal M Mode.any) (fun _ => Ideal M Mode.any)
      (Ideal M Mode.any) := by
  simp only [loop_velThenAb, Serial_print, Serial_println, delay, random, randomRange, motorGet,
    motorDo, Move, MoveVelocity, bind_assoc', pure_bind']
  repeat (first
    | refine ideal_delay_read_bind M _ (fun _ => ?_)
    | refine sat_bind (ideal_moveAbsolute M _ _) (fun _ => ?_)
    | refine sat_bind (ideal_moveRelative_pos M _ _) (fun _ => ?_)
    | refine sat_bind (ideal_moveRelative_velAt M _ _) (fun _ => ?_)
    | refine sat_bind (ideal_moveVelocity M _ _) (fun _ => ?_)
    | refine sat_bind (ideal_call M _ _ rfl rfl rfl) (fun _ => ?_)
    | refine sat_bind (ideal_call_settled M _ _ rfl rfl) (fun _ => ?_)
    | refine sat_bind (ideal_motion_any M _ _ rfl) (fun _ => ?_)
    | refine sat_bind (ideal_getTestNum M _) (fun _ => ?_)
    | refine sat_bind (ideal_WaitForMotorStop_pos M _) (fun _ => ?_)
    | refine sat_bind (ideal_WaitForMotorStop M _ rfl) (fun _ => ?_)
    | refine sat_bind (ideal_WaitForMotorCruise M _ rfl) (fun _ => ?_)
    | refine sat_bind (ideal_AssertPosition M _ _ rfl) (fun _ => ?_)
    | refine sat_bind (ideal_AssertPosition M _ _ (wrapInt32_add_assoc _ _ _)) (fun _ => ?_)
    | refine sat_bind (ideal_AssertVelocity M _ _ rfl) (fun _ => ?_)
    | refine sat_bind (ideal_for_any M (fun v => ideal_loop_velThenAbBody M v) _ _ _) (fun _ => ?_))
  exact ideal_pure_any M _ _

theorem ideal_loop {σ : Type} {E : Env σ} (M : IdealMotor E) :
    sat (loop E) (Ideal M Mode.any) (fun _ => Ideal M Mode.any) (Ideal M Mode.any) := by
  simp only [loop, if_true, Serial_println, Move, motorDo, bind_assoc', pure_bind']
  refine sat_bind (ideal_loop_absolute M _ _) (fun _ => ?_)
  refine sat_bind (ideal_loop_relative M _ _) (fun _ => ?_)
  refine sat_bind (ideal_loop_velocity M _ _) (fun _ => ?_)
  refine sat_bind (ideal_loop_abThenRel M _ _) (fun _ => ?_)
  refine sat_bind (ideal_loop_relThenAb M _ _) (fun _ => ?_)
  refine sat_bind (ideal_loop_relThenVel M _ _) (fun _ => ?_)
  refine sat_bind (ideal_loop_velThenRel M _ _) (fun _ => ?_)
  refine sat_bind (ideal_loop_velThenAb M _ _) (fun _ => ?_)
  refine sat_bind (ideal_call M _ _ rfl rfl rfl) (fun _ => ?_)
  refine sat_bind (ideal_moveAbsolute M _ _) (fun _ => ?_)
  refine sat_bind (ideal_WaitForMotorStop_pos M _) (fun _ => ?_)
  refine sat_while (I := Ideal M (Mode.settled 0)) (J := fun _ => False) ?_ ?_ ?_
  · exact sat_pure (fun w h => by simpa using h.weakenAny)
  · intro fuel w h
    exact h.elim
  · intro w h
    exact h.weakenAny

theorem PositionAssertsPass.nil : PositionAssertsPass [] := by
  intro newer older c r t heq
  simp at heq

/-- C7: against the ideal motor of the specification (`IdealMotor`: `Move` absolute sets
the end target, `Move` relative adds to the end target after a position move and to the
position during a velocity move, a true `StepsComplete()` leaves the position at the end
target, `PositionRefCommanded()` returns the position), every position assertion of a pass
of `loop()` passes, whatever the random draws, the delays and every other answer are: in
the history of the pass, on any fuel, each read of `PositionRefCommanded()` that follows an
entry into `AssertPosition(t)` answered `t`, provided that held of the history before. -/
theorem loop_position_asserts_pass {σ : Type} {E : Env σ} (M : IdealMotor E) (fuel : Nat)
    (w : World σ) (h : PositionAssertsPass w.trace) :
    PositionAssertsPass (loop E fuel w).world.trace := by
  have hs := ideal_loop M fuel w ⟨h, trivial⟩
  cases hl : loop E fuel w with
  | returned a w1 =>
    rw [hl] at hs
    exact hs.1
  | spinning w1 =>
    rw [hl] at hs
    exact hs.1

/-- Witness for C7 on the ideal motor that completes every move at once, from the empty
history. -/
theorem loop_position_asserts_pass_witness :
    PositionAssertsPass
      (loop instantEnv 1 (freshWorld { e := 0, p := 0, inVelocityMove := false })).world.trace :=
  loop_position_asserts_pass instantIdeal 1
    (freshWorld { e := 0, p := 0, inVelocityMove := false }) PositionAssertsPass.nil

/-! ## The wait for the serial port -/

theorem serialGo_step {σ : Type} (E : Env σ) (startTime : Int) (fuel n : Nat) (w : World σ)
    (h : serialRoundIdle E startTime w 0) :
    whileGo (setup_serialCond E startTime 5000) (pure ()) fuel (n + 1) w
      = whileGo (setup_serialCond E startTime 5000) (pure ()) fuel n
          (afterCall E Call.millis (afterCall E pollSerial w)) := by
  obtain ⟨ho, he⟩ := h
  simp only [serialOpenAt, afterSerialRounds, answer, pollSerial] at ho
  simp only [serialElapsedAt, serialMillisAt, afterSerialRounds, answer, afterCall,
    pollSerial] at he
  simp only [whileGo, setup_serialCond, millis, bind_def, pure_def, Sketch.bind, Sketch.pure,
    call, ho, Bool.not_false, if_true, he, decide_True, afterCall, pollSerial]

theorem serialGo_exit_open {σ : Type} (E : Env σ) (startTime : Int) (fuel n : Nat)
    (w : World σ) (h : serialOpenAt E w 0 = true) :
    whileGo (setup_serialCond E startTime 5000) (pure ()) fuel (n + 1) w
      = Outcome.returned () (afterCall E pollSerial w) := by
  simp only [serialOpenAt, afterSerialRounds, answer, pollSerial] at h
  simp only [whileGo, setup_serialCond, bind_def, pure_def, Sketch.bind, Sketch.pure, call, h,
    Bool.not_true, afterCall, pollSerial]
  rfl

theorem serialGo_exit_timeout {σ : Type} (E : Env σ) (startTime : Int) (fuel n : Nat)
    (w : World σ) (ho : serialOpenAt E w 0 = false)
    (he : 5000 ≤ serialElapsedAt E startTime w 0) :
    whileGo (setup_serialCond E startTime 5000) (pure ()) fuel (n + 1) w
      = Outcome.returned () (afterCall E Call.millis (afterCall E pollSerial w)) := by
  simp only [serialOpenAt, afterSerialRounds, answer, pollSerial] at ho
  simp only [serialElapsedAt, serialMillisAt, afterSerialRounds, answer, afterCall,
    pollSerial] at he
  have he' : ¬ (wrapUInt32 (wrapUInt32 (E (E w.ext Call.Serial_isOpen).2 Call.millis).1
      - startTime) < 5000) := by omega
  simp only [whileGo, setup_serialCond, millis, bind_def, pure_def, Sketch.bind, Sketch.pure,
    call, ho, Bool.not_false, if_true, he', decide_False, afterCall, pollSerial]

theorem serialGo_rounds {σ : Type} (E : Env σ) (startTime : Int) (fuel : Nat) :
    ∀ (k n : Nat) (w : World σ), (∀ i, i < k → serialRoundIdle E startTime w i) →
      whileGo (setup_serialCond E startTime 5000) (pure ()) fuel (n + k) w
        = whileGo (setup_serialCond E startTime 5000) (pure ()) fuel n
            (afterSerialRounds E k w) := by
  intro k
  induction k with
  | zero => intro n w _; rfl
  | succ k ih =>
    intro n w hpre
    rw [show n + (k + 1) = (n + k) + 1 by omega,
      serialGo_step E startTime fuel (n + k) w (hpre 0 (by omega))]
    exact ih n _ (fun i hi => hpre (i + 1) (by omega))

/-- A return of the serial wait happens in some round that the loop reached, at a check
that found `Serial` open or at a reading with elapsed time at least 5000. -/
theorem serialGo_returned {σ : Type} (E : Env σ) (startTime : Int) (fuel : Nat) :
    ∀ (n : Nat) (w w' : World σ),
      whileGo (setup_serialCond E startTime 5000) (pure ()) fuel n w = Outcome.returned () w' →
      ∃ j, j < n ∧ (∀ i, i < j → serialRoundIdle E startTime w i) ∧
        ((serialOpenAt E w j = true ∧ w' = afterCall E pollSerial (afterSerialRounds E j w)) ∨
         (serialOpenAt E w j = false ∧ 5000 ≤ serialElapsedAt E startTime w j ∧
          w' = afterCall E Call.millis (afterCall E pollSerial (afterSerialRounds E j w)))) := by
  intro n
  induction n with
  | zero =>
    intro w w' h
    exact Outcome.noConfusion h
  | succ n ih =>
    intro w w' h
    cases ho : serialOpenAt E w 0 with
    | true =>
      rw [serialGo_exit_open E startTime fuel n w ho] at h
      simp only [Outcome.returned.injEq, true_and] at h
      exact ⟨0, by omega, fun i hi => absurd hi (Nat.not_lt_zero i), Or.inl ⟨ho, h.symm⟩⟩
    | false =>
      by_cases he : serialElapsedAt E startTime w 0 < 5000
      · rw [serialGo_step E startTime fuel n w ⟨ho, he⟩] at h
        obtain ⟨j, hj, hidle, hexit⟩ := ih _ w' h
        refine ⟨j + 1, by omega, ?_, hexit⟩
        intro i hi
        cases i with
        | zero => exact ⟨ho, he⟩
        | succ i => exact hidle i (by omega)
      · rw [serialGo_exit_timeout E startTime fuel n w ho (by omega)] at h
        simp only [Outcome.returned.injEq, true_and] at h
        exact ⟨0, by omega, fun i hi => absurd hi (Nat.not_lt_zero i),
          Or.inr ⟨ho, by omega, h.symm⟩⟩

theorem clock_mono (t : Nat → Int) (h : ∀ i, t i ≤ t (i + 1)) :
    ∀ (j i : Nat), i ≤ j → t i ≤ t j := by
  intro j
  induction j with
  | zero =>
    intro i hi
    obtain rfl : i = 0 := by omega
    exact le_refl _
  | succ j ih =>
    intro i hi
    rcases Nat.lt_or_ge i (j + 1) with hlt | hge
    · exact le_trans (ih i (by omega)) (h j)
    · obtain rfl : i = j + 1 := by omega
      exact le_refl _

/-- With readings from a clock, the elapsed time the loop computes is the true elapsed
time modulo 2^32. -/
theorem serialElapsedAt_clock {σ : Type} (E : Env σ) (startTime : Int) (w : World σ)
    (t0 : Int) (t : Nat → Int) (hc : SerialClock E startTime w t0 t) (i : Nat) :
    serialElapsedAt E startTime w i = wrapUInt32 (t i - t0) := by
  obtain ⟨h0, hr, _, _⟩ := hc
  have hi := hr i
  simp only [serialElapsedAt]
  generalize serialMillisAt E w i = a at hi
  unfold wrapUInt32 at *
  omega

theorem serialClock_nonneg {σ : Type} (E : Env σ) (startTime : Int) (w : World σ)
    (t0 : Int) (t : Nat → Int) (hc : SerialClock E startTime w t0 t) (i : Nat) :
    0 ≤ t i - t0 := by
  have h := clock_mono t hc.2.2.2 i 0 (Nat.zero_le i)
  have h0 := hc.2.2.1
  omega

theorem wrapUInt32_of_range (x : Int) (hlo : 0 ≤ x) (hhi : x < 4294967296) :
    wrapUInt32 x = x := by
  unfold wrapUInt32
  omega

theorem wrapUInt32_lt (x : Int) : wrapUInt32 x < 4294967296 := by
  unfold wrapUInt32
  omega

/-- The first reading of a non-decreasing clock at which 5000 ms have elapsed. -/
theorem clock_first_timeout (t0 : Int) (t : Nat → Int) (hm : ∀ i, t i ≤ t (i + 1)) :
    ∀ k : Nat, 5000 ≤ t k - t0 →
      ∃ j, j ≤ k ∧ 5000 ≤ t j - t0 ∧ ∀ i, i < j → t i - t0 < 5000 := by
  intro k
  induction k with
  | zero =>
    intro h
    exact ⟨0, le_refl 0, h, fun i hi => absurd hi (Nat.not_lt_zero i)⟩
  | succ k ih =>
    intro h
    by_cases hk : 5000 ≤ t k - t0
    · obtain ⟨j, hj, h1, h2⟩ := ih hk
      exact ⟨j, by omega, h1, h2⟩
    · refine ⟨k + 1, le_refl _, h, ?_⟩
      intro i hi
      have := clock_mono t hm k i (by omega)
      omega

theorem rollover_ext : ∀ (i : Nat) (w : World Nat),
    (afterSerialRounds rolloverEnv i w).ext = w.ext + 2 * i := by
  intro i
  induction i with
  | zero => intro w; rfl
  | succ i ih =>
    intro w
    simp only [afterSerialRounds]
    rw [ih]
    simp only [afterCall, rolloverEnv]
    omega

theorem rollover_closed (i : Nat) : serialOpenAt rolloverEnv (freshWorld 0) i = false := by
  simp [serialOpenAt, answer, rolloverEnv, pollSerial, asBool]

theorem rollover_clock :
    SerialClock rolloverEnv 4294967000 (freshWorld 0) 4294967000
      (fun i => 4294967000 + 1000 * (2 * (i : Int) + 1)) := by
  refine ⟨rfl, ?_, by simp, ?_⟩
  · intro i
    simp only [serialMillisAt, answer, afterCall, rolloverEnv, rollover_ext, freshWorld,
      if_true, pollSerial]
    unfold wrapUInt32
    push_cast
    omega
  · intro i
    push_cast
    omega

/-- C11: `setup()` waits up to 5 seconds for the serial port, and serial is not required.
The wait of `setup` is the loop `while (!Serial && millis() - startTime < 5000)` with
`startTime` the reading of `millis()` taken just before it.  For every `startTime`
and every collaborator, the loop exits at the first check at which `Serial` is open or the
elapsed time `(millis() - startTime) mod 2^32` is at least 5000, and goes on while neither
holds; so it exits although `Serial` is never open, at the first reading with elapsed time
at least 5000.  With a non-decreasing clock behind `millis()` (true times `t0` at the start
and `t i` at the readings, `startTime` and the readings being these times modulo 2^32, also
across the rollover) and `Serial` never open: every exit happens at a reading at which at
least 5000 ms have truly elapsed, never earlier, and if at some reading at least 5000 ms
and less than 2^32 ms have elapsed, the loop exits at the first reading with 5000 ms
elapsed. -/
theorem setup_serialWait_contract {σ : Type} (E : Env σ) (startTime : Int) (w : World σ) :
    (∀ (fuel : Nat) (w0 : World σ),
      setup_serialWait E fuel w0
        = setup_serialLoop E
            (wrapUInt32 (answer E Call.millis
              (afterCall E (Call.Serial_begin baudRate) (afterCall E (Call.Serial_ttl false) w0))))
            5000 fuel
            (afterCall E Call.millis
              (afterCall E (Call.Serial_begin baudRate)
                (afterCall E (Call.Serial_ttl false) w0)))) ∧
    (∀ k : Nat, (∀ i, i < k → serialRoundIdle E startTime w i) →
      serialOpenAt E w k = true →
      ∀ fuel : Nat, k < fuel →
        setup_serialLoop E startTime 5000 fuel w
          = Outcome.returned () (afterCall E pollSerial (afterSerialRounds E k w))) ∧
    (∀ k : Nat, (∀ i, i < k → serialRoundIdle E startTime w i) →
      serialOpenAt E w k = false → 5000 ≤ serialElapsedAt E startTime w k →
      ∀ fuel : Nat, k < fuel →
        setup_serialLoop E startTime 5000 fuel w
          = Outcome.returned ()
              (afterCall E Call.millis (afterCall E pollSerial (afterSerialRounds E k w)))) ∧
    (∀ fuel : Nat, (∀ i, i < fuel → serialRoundIdle E startTime w i) →
      setup_serialLoop E startTime 5000 fuel w
        = Outcome.spinning (afterSerialRounds E fuel w)) ∧
    (∀ (t0 : Int) (t : Nat → Int), SerialClock E startTime w t0 t →
      (∀ i, serialOpenAt E w i = false) →
      (∀ (fuel : Nat) (w' : World σ),
        setup_serialLoop E startTime 5000 fuel w = Outcome.returned () w' →
        ∃ j, j < fuel ∧ 5000 ≤ t j - t0 ∧
          w' = afterCall E Call.millis (afterCall E pollSerial (afterSerialRounds E j w))) ∧
      (∀ k : Nat, 5000 ≤ t k - t0 → t k - t0 < 4294967296 →
        ∃ j, j ≤ k ∧ 5000 ≤ t j - t0 ∧ (∀ i, i < j → t i - t0 < 5000) ∧
          ∀ fuel : Nat, j < fuel →
            setup_serialLoop E startTime 5000 fuel w
              = Outcome.returned ()
                  (afterCall E Call.millis
                    (afterCall E pollSerial (afterSerialRounds E j w))))) := by
  have hopen : ∀ k : Nat, (∀ i, i < k → serialRoundIdle E startTime w i) →
      serialOpenAt E w k = true → ∀ fuel : Nat, k < fuel →
        setup_serialLoop E startTime 5000 fuel w
          = Outcome.returned () (afterCall E pollSerial (afterSerialRounds E k w)) := by
    intro k hidle ho fuel hfuel
    obtain ⟨n, rfl⟩ : ∃ m, fuel = (m + 1) + k := ⟨fuel - k - 1, by omega⟩
    simp only [setup_serialLoop, whileLoop]
    rw [serialGo_rounds E startTime _ k (n + 1) w hidle]
    exact serialGo_exit_open E startTime _ n _ ho
  have htime : ∀ k : Nat, (∀ i, i < k → serialRoundIdle E startTime w i) →
      serialOpenAt E w k = false → 5000 ≤ serialElapsedAt E startTime w k →
      ∀ fuel : Nat, k < fuel →
        setup_serialLoop E startTime 5000 fuel w
          = Outcome.returned ()
              (afterCall E Call.millis (afterCall E pollSerial (afterSerialRounds E k w))) := by
    intro k hidle ho he fuel hfuel
    obtain ⟨n, rfl⟩ : ∃ m, fuel = (m + 1) + k := ⟨fuel - k - 1, by omega⟩
    simp only [setup_serialLoop, whileLoop]
    rw [serialGo_rounds E startTime _ k (n + 1) w hidle]
    exact serialGo_exit_timeout E startTime _ n _ ho he
  refine ⟨?_, hopen, htime, ?_, ?_⟩
  · intro fuel w0
    simp only [setup_serialWait, millis, bind_def, pure_def, Sketch.bind, Sketch.pure, call,
      answer, afterCall]
  · intro fuel hidle
    simp only [setup_serialLoop, whileLoop]
    have h := serialGo_rounds E startTime fuel fuel 0 w hidle
    rw [Nat.zero_add] at h
    exact h
  · intro t0 t hc hclosed
    have hel : ∀ i, serialElapsedAt E startTime w i = wrapUInt32 (t i - t0) :=
      serialElapsedAt_clock E startTime w t0 t hc
    have hnn : ∀ i, 0 ≤ t i - t0 := serialClock_nonneg E startTime w t0 t hc
    have hsmall : ∀ i, t i - t0 < 5000 → serialRoundIdle E startTime w i := by
      intro i hi
      refine ⟨hclosed i, ?_⟩
      rw [hel i, wrapUInt32_of_range _ (hnn i) (by omega)]
      exact hi
    refine ⟨?_, ?_⟩
    · intro fuel w' hret
      simp only [setup_serialLoop, whileLoop] at hret
      obtain ⟨j, hj, hidle, hexit⟩ := serialGo_returned E startTime fuel fuel w w' hret
      rcases hexit with ⟨ho, _⟩ | ⟨_, he, hw'⟩
      · rw [hclosed j] at ho
        exact Bool.noConfusion ho
      · refine ⟨j, hj, ?_, hw'⟩
        by_contra hlt
        rw [hel j, wrapUInt32_of_range _ (hnn j) (by omega)] at he
        omega
    · intro k hk hbig
      obtain ⟨j, hjk, hj, hbefore⟩ := clock_first_timeout t0 t hc.2.2.2 k hk
      refine ⟨j, hjk, hj, hbefore, ?_⟩
      have hmono := clock_mono t hc.2.2.2 k j hjk
      refine htime j (fun i hi => hsmall i (hbefore i hi)) (hclosed j) ?_
      rw [hel j, wrapUInt32_of_range _ (hnn j) (by omega)]
      exact hj

/-- Witness for C11 on a collaborator whose serial port never opens and whose clock starts
296 ms before the rollover of `millis()` (start time 4294967000, readings 1000, 3000 and
5000 ms later, the last one being 4704 after the rollover): the first two rounds go on
and the wait returns at the third reading, on fuel 3. -/
theorem setup_serialWait_contract_witness :
    setup_serialLoop rolloverEnv 4294967000 5000 3 (freshWorld 0)
      = Outcome.returned ()
          (afterCall rolloverEnv Call.millis
            (afterCall rolloverEnv pollSerial (afterSerialRounds rolloverEnv 2 (freshWorld 0)))) ∧
    serialMillisAt rolloverEnv (freshWorld 0) 2 = 4704 ∧
    (∃ j : Nat, j ≤ 2 ∧
      5000 ≤ (4294967000 + 1000 * (2 * (j : Int) + 1)) - 4294967000 ∧
      (∀ i : Nat, i < j → (4294967000 + 1000 * (2 * (i : Int) + 1)) - 4294967000 < 5000) ∧
      ∀ fuel : Nat, j < fuel →
        setup_serialLoop rolloverEnv 4294967000 5000 fuel (freshWorld 0)
          = Outcome.returned ()
              (afterCall rolloverEnv Call.millis
                (afterCall rolloverEnv pollSerial
                  (afterSerialRounds rolloverEnv j (freshWorld 0))))) :=
  ⟨(setup_serialWait_contract rolloverEnv 4294967000 (freshWorld 0)).2.2.1 2
      (fun i hi =>
        match i, hi with
        | 0, _ => ⟨by decide, by decide⟩
        | 1, _ => ⟨by decide, by decide⟩
        | n + 2, h => absurd h (by omega))
      (by decide) (by decide) 3 (by decide),
   by decide,
   ((setup_serialWait_contract rolloverEnv 4294967000 (freshWorld 0)).2.2.2.2 4294967000
      (fun i => 4294967000 + 1000 * (2 * (i : Int) + 1)) rollover_clock rollover_closed).2 2
      (by decide) (by decide)⟩

/-! ## The hardcoded relative moves run to their end on an ideal motor -/

theorem returns_pure {σ α : Type} {N : Nat} {a : α} {P : World σ → Prop}
    {Q : α → World σ → Prop} (h : ∀ w, P w → Q a w) : Returns N (pure a : Sketch σ α) P Q :=
  fun _ w _ hw => ⟨a, w, rfl, h w hw⟩

theorem returns_bind {σ α β : Type} {N : Nat} {m : Sketch σ α} {f : α → Sketch σ β}
    {P : World σ → Prop} {R : α → World σ → Prop} {Q : β → World σ → Prop}
    (h1 : Returns N m P R) (h2 : ∀ a, Returns N (f a) (R a) Q) : Returns N (m >>= f) P Q := by
  intro fuel w hfuel hw
  obtain ⟨a, w1, hm, hr⟩ := h1 fuel w hfuel hw
  obtain ⟨b, w2, hf, hq⟩ := h2 a fuel w1 hfuel hr
  refine ⟨b, w2, ?_, hq⟩
  simp only [bind_def, Sketch.bind, hm, hf]

theorem returns_call {σ : Type} {N : Nat} {E : Env σ} {c : Call} {P : World σ → Prop}
    {Q : Int → World σ → Prop} (h : ∀ w, P w → Q (answer E c w) (afterCall E c w)) :
    Returns N (call E c) P Q :=
  fun _ w _ hw => ⟨_, _, rfl, h w hw⟩

theorem returns_enter {σ : Type} {N : Nat} {h : Helper} {P : World σ → Prop}
    {Q : Unit → World σ → Prop} (hq : ∀ w, P w → Q () (entered h w)) :
    Returns N (enter h) P Q :=
  fun _ w _ hw => ⟨_, _, rfl, hq w hw⟩

theorem returns_getTestNum {σ : Type} {N : Nat} {P : World σ → Prop}
    {Q : Int → World σ → Prop} (hq : ∀ w, P w → Q w.testNum w) :
    Returns N (getTestNum : Sketch σ Int) P Q :=
  fun _ w _ hw => ⟨_, _, rfl, hq w hw⟩

theorem returns_incrTestNum {σ : Type} {N : Nat} {P : World σ → Prop}
    {Q : Unit → World σ → Prop}
    (hq : ∀ w, P w → Q () { w with testNum := wrapInt32 (w.testNum + 1) }) :
    Returns N (incrTestNum : Sketch σ Unit) P Q :=
  fun _ w _ hw => ⟨_, _, rfl, hq w hw⟩

theorem inMode_call {σ : Type} {E : Env σ} (M : IdealMotor E) (N : Nat) (c : Call) (m : Mode)
    (hm : m.isCalm = true) (hq : isMotion c = false) :
    Returns N (call E c) (InMode M m) (fun _ => InMode M m) :=
  returns_call (fun w h => Mode.holds_quiet M m hm w.ext c hq h)

theorem inMode_call_settled {σ : Type} {E : Env σ} (M : IdealMotor E) (N : Nat) (c : Call)
    (t : Int) (hq : isMotion c = false) :
    Returns N (call E c) (InMode M (Mode.settled t)) (fun _ => InMode M (Mode.pos t)) :=
  returns_call (fun w h => Mode.holds_quiet M (Mode.pos t) rfl w.ext c hq ⟨h.1, h.2.1⟩)

theorem inMode_getTestNum {σ : Type} {E : Env σ} (M : IdealMotor E) (N : Nat) (m : Mode) :
    Returns N (getTestNum : Sketch σ Int) (InMode M m) (fun _ => InMode M m) :=
  returns_getTestNum (fun _ h => h)

theorem inMode_moveAbsolute {σ : Type} {E : Env σ} (M : IdealMotor E) (N : Nat) (t : Int)
    (m : Mode) :
    Returns N (call E (Call.onMotor motor (MotorCall.Move t MOVE_TARGET.MOVE_TARGET_ABSOLUTE)))
      (InMode M m) (fun _ => InMode M (Mode.pos t)) :=
  returns_call (fun w _ => M.move_absolute w.ext t)

theorem inMode_moveRelative {σ : Type} {E : Env σ} (M : IdealMotor E) (N : Nat) (d t : Int) :
    Returns N (call E (Call.onMotor motor (MotorCall.Move d MOVE_TARGET.MOVE_TARGET_REL_END_POSN)))
      (InMode M (Mode.pos t)) (fun _ => InMode M (Mode.pos (wrapInt32 (t + d)))) := by
  refine returns_call (fun w h => ?_)
  have hl := M.move_relative w.ext d
  refine ⟨hl.1, ?_⟩
  show M.e (E w.ext _).2 = _
  rw [hl.2, h.1, h.2]
  simp

theorem stopLoop_settles_now {σ : Type} {E : Env σ} (M : IdealMotor E) (t : Int)
    (fuel k : Nat) (w : World σ) (h0 : asBool (answer E pollSteps w) = true)
    (hm : InMode M (Mode.pos t) w) :
    ∃ w', whileGo (do let done ← motorGet E MotorCall.StepsComplete
                      pure (!(asBool done))) (pure ()) fuel (k + 1) w
        = Outcome.returned () w' ∧ InMode M (Mode.settled t) w' := by
  have hq := Mode.holds_quiet M (Mode.pos t) rfl w.ext pollSteps rfl hm
  refine ⟨afterCall E pollSteps w, ?_, hq.1, hq.2, (M.steps_complete w.ext h0).trans hq.2⟩
  simp only [answer, pollSteps] at h0
  simp only [whileGo, bind_def, pure_def, Sketch.bind, Sketch.pure, motorGet, call, h0,
    Bool.not_true, afterCall, pollSteps]

theorem stopLoop_settles {σ : Type} {E : Env σ} (M : IdealMotor E) (t : Int) (fuel : Nat) :
    ∀ (n k : Nat) (w : World σ), n < k → asBool (answerAt E pollSteps n w) = true →
      InMode M (Mode.pos t) w →
      ∃ w', whileGo (do let done ← motorGet E MotorCall.StepsComplete
                        pure (!(asBool done))) (pure ()) fuel k w
          = Outcome.returned () w' ∧ InMode M (Mode.settled t) w' := by
  intro n
  induction n with
  | zero =>
    intro k w hk h0 hm
    obtain ⟨k, rfl⟩ : ∃ m, k = m + 1 := ⟨k - 1, by omega⟩
    exact stopLoop_settles_now M t fuel k w h0 hm
  | succ n ih =>
    intro k w hk hn hm
    obtain ⟨k, rfl⟩ : ∃ m, k = m + 1 := ⟨k - 1, by omega⟩
    cases hb : asBool (answer E pollSteps w) with
    | true => exact stopLoop_settles_now M t fuel k w hb hm
    | false =>
      obtain ⟨w', h1, h2⟩ := ih k (afterCall E pollSteps w) (by omega) hn
        (Mode.holds_quiet M (Mode.pos t) rfl w.ext pollSteps rfl hm)
      refine ⟨w', ?_, h2⟩
      rw [← h1]
      simp only [answer, pollSteps] at hb
      simp only [whileGo, bind_def, pure_def, Sketch.bind, Sketch.pure, motorGet, call, hb,
        Bool.not_false, afterCall, pollSteps]

theorem inMode_WaitForMotorStop {σ : Type} {E : Env σ} (M : IdealMotor E) (N : Nat)
    (hlive : CompletesWithin M N) (t : Int) :
    Returns N (WaitForMotorStop E) (InMode M (Mode.pos t))
      (fun _ => InMode M (Mode.settled t)) := by
  intro fuel w hfuel hw
  obtain ⟨n, hn, ht⟩ := hlive (entered Helper.WaitForMotorStop w) hw.1
  obtain ⟨w', h1, h2⟩ := stopLoop_settles M t fuel n fuel (entered Helper.WaitForMotorStop w)
    (by omega) ht hw
  refine ⟨(), w', ?_, h2⟩
  simp only [WaitForMotorStop, bind_def, Sketch.bind, enter, whileLoop]
  exact h1

theorem inMode_AssertPosition {σ : Type} {E : Env σ} (M : IdealMotor E) (N : Nat)
    (t t' : Int) (ht : t = t') :
    Returns N (AssertPosition E t) (InMode M (Mode.settled t'))
      (fun _ => InMode M (Mode.pos t)) := by
  subst ht
  simp only [AssertPosition, motorGet, Serial_print, Serial_println, bind_assoc', pure_bind']
  refine returns_bind (R := fun _ => InMode M (Mode.settled t))
    (returns_enter (fun w h => h)) (fun _ => ?_)
  refine returns_bind (R := fun r w => r = t ∧ InMode M (Mode.pos t) w)
    (returns_call (fun w h => ?_)) (fun r => ?_)
  · exact ⟨(M.position_ref w.ext).1.trans h.2.2,
      Mode.holds_quiet M (Mode.pos t) rfl w.ext _ rfl ⟨h.1, h.2.1⟩⟩
  · refine returns_bind (R := fun _ => InMode M (Mode.pos t)) ?_ (fun _ => ?_)
    · intro fuel w _ hw
      rw [if_neg (fun hne => hne hw.1)]
      exact ⟨(), w, rfl, hw.2⟩
    · repeat (first
        | refine returns_bind (inMode_call M N _ _ rfl rfl) (fun _ => ?_)
        | refine returns_bind (inMode_getTestNum M N _) (fun _ => ?_))
      exact returns_incrTestNum (fun w h => h)

theorem inMode_relativeMove_bind {σ β : Type} {E : Env σ} (M : IdealMotor E) (N : Nat)
    (hlive : CompletesWithin M N) (a b : Int) {f : Int → Sketch σ β}
    {Q : β → World σ → Prop}
    (h : Returns N (f (wrapInt32 (a + b))) (InMode M (Mode.pos (wrapInt32 (a + b)))) Q) :
    Returns N (loop_relativeMove E MOVE_TARGET.MOVE_TARGET_REL_END_POSN a b >>= f)
      (InMode M (Mode.pos a)) Q := by
  refine returns_bind
    (R := fun r w => r = wrapInt32 (a + b) ∧ InMode M (Mode.pos (wrapInt32 (a + b))) w) ?_ ?_
  · simp only [loop_relativeMove, Move, motorDo, delay, bind_assoc', pure_bind']
    refine returns_bind (inMode_moveRelative M N _ _) (fun _ => ?_)
    refine returns_bind (inMode_WaitForMotorStop M N hlive _) (fun _ => ?_)
    refine returns_bind (inMode_AssertPosition M N _ _ rfl) (fun _ => ?_)
    refine returns_bind (inMode_call M N _ _ rfl rfl) (fun _ => ?_)
    exact returns_pure (fun w h => ⟨rfl, h⟩)
  · intro r fuel w hfuel hw
    obtain ⟨hr, hw⟩ := hw
    rw [hr]
    exact h fuel w hfuel hw

theorem returns_loop_relativeFixed {σ : Type} {E : Env σ} (M : IdealMotor E) (N : Nat)
    (hlive : CompletesWithin M N) :
    Returns N (loop_relativeFixed E) (InMode M Mode.any)
      (fun v => InMode M (Mode.pos v.targetPos)) := by
  simp only [loop_relativeFixed, Serial_print, Serial_println, delay, motorDo, Move,
    bind_assoc', pure_bind']
  repeat (first
    | refine inMode_relativeMove_bind M N hlive _ _ ?_
    | refine returns_bind (inMode_moveAbsolute M N _ _) (fun _ => ?_)
    | refine returns_bind (inMode_moveRelative M N _ _) (fun _ => ?_)
    | refine returns_bind (inMode_call M N _ _ rfl rfl) (fun _ => ?_)
    | refine returns_bind (inMode_call_settled M N _ _ rfl) (fun _ => ?_)
    | refine returns_bind (inMode_getTestNum M N _) (fun _ => ?_)
    | refine returns_bind (inMode_WaitForMotorStop M N hlive _) (fun _ => ?_)
    | refine returns_bind (inMode_AssertPosition M N _ _ rfl) (fun _ => ?_)
    | refine returns_bind (inMode_AssertPosition M N _ _ (wrapInt32_add_assoc _ _ _))
        (fun _ => ?_))
  exact returns_pure (fun _ h => h)

/-- C8: the hardcoded part of the relative-move section of `loop()` starts with an absolute
move to 0.  In every execution of it, from any world and on any fuel, the positions passed
to `AssertPosition` after that move are, in order, the first few of 1000, -1000, -11000,
-4000, 34000, 31000, 30200, each is the sum of the relative distances commanded (by
`Move(d, MOVE_TARGET_REL_END_POSN)`) before it, and when the part returns all seven have
been asserted and `targetPos`, with which the random relative loop starts, is 30200.  And
the part does run to its end: on an ideal motor whose position moves complete within `N`
polls of `StepsComplete()`, on every fuel above `N` and from any world, it returns after
asserting exactly these seven values, with `targetPos = 30200`. -/
theorem loop_relativeFixed_expected {σ : Type} (E : Env σ) (w : World σ) :
    (∀ fuel : Nat, ∃ evs : List Event,
      (loop_relativeFixed E fuel w).world.trace
        = evs ++ (afterCall E (Call.onMotor motor
              (MotorCall.Move 0 MOVE_TARGET.MOVE_TARGET_ABSOLUTE))
            (afterCall E (Call.Serial_println
              (Printed.text "Testing Relative Position Moves...")) w)).trace ∧
      (∃ k, k < 8 ∧ (assertedPositions evs).reverse
        = [1000, -1000, -11000, -4000, 34000, 31000, 30200].take k) ∧
      AssertsRunningSum evs ∧
      (∀ (v : Vars) (w' : World σ), loop_relativeFixed E fuel w = Outcome.returned v w' →
        (assertedPositions evs).reverse = [1000, -1000, -11000, -4000, 34000, 31000, 30200] ∧
        v.targetPos = 30200)) ∧
    (∀ (M : IdealMotor E) (N : Nat), CompletesWithin M N → ∀ fuel : Nat, N < fuel →
      ∃ (v : Vars) (w' : World σ) (evs : List Event),
        loop_relativeFixed E fuel w = Outcome.returned v w' ∧
        v.targetPos = 30200 ∧
        w'.trace = evs ++ (afterCall E (Call.onMotor motor
              (MotorCall.Move 0 MOVE_TARGET.MOVE_TARGET_ABSOLUTE))
            (afterCall E (Call.Serial_println
              (Printed.text "Testing Relative Position Moves...")) w)).trace ∧
        (assertedPositions evs).reverse = [1000, -1000, -11000, -4000, 34000, 31000, 30200] ∧
        AssertsRunningSum evs) := by
  refine ⟨?_, ?_⟩
  · intro fuel
    have h := relAt_loop_relativeFixed E w fuel w rfl
    cases hl : loop_relativeFixed E fuel w with
    | returned v w1 =>
      rw [hl] at h
      obtain ⟨hv, L, x, ⟨evs, h1, h2, _, h4, h5⟩, hL⟩ := h
      refine ⟨evs, h1, ?_, h4, ?_⟩
      · rw [h2]; exact h5
      · intro v' w' heq
        simp only [Outcome.returned.injEq] at heq
        rw [← heq.1, h2]
        exact ⟨hL, hv⟩
    | spinning w1 =>
      rw [hl] at h
      obtain ⟨L, x, evs, h1, h2, _, h4, h5⟩ := h
      refine ⟨evs, h1, ?_, h4, ?_⟩
      · rw [h2]; exact h5
      · intro v' w' heq
        exact Outcome.noConfusion heq
  · intro M N hlive fuel hfuel
    obtain ⟨v, w', hret, _⟩ := returns_loop_relativeFixed M N hlive fuel w hfuel trivial
    have h := relAt_loop_relativeFixed E w fuel w rfl
    rw [hret] at h
    obtain ⟨hv, L, x, ⟨evs, h1, h2, _, h4, _⟩, hL⟩ := h
    exact ⟨v, w', evs, hret, hv, h1, by rw [h2]; exact hL, h4⟩

/-- Witness for C8 on the ideal motor that completes every move at once (`N = 0`): on
fuel 1, from the fresh world, the hardcoded relative moves return with `targetPos = 30200`
after asserting the seven values, and the assertions in the whole history of the run are
exactly these seven. -/
theorem loop_relativeFixed_expected_witness :
    (∃ (v : Vars) (w' : World InstantMotor) (evs : List Event),
      loop_relativeFixed instantEnv 1 (freshWorld { e := 0, p := 0, inVelocityMove := false })
        = Outcome.returned v w' ∧
      v.targetPos = 30200 ∧
      w'.trace = evs ++ (afterCall instantEnv (Call.onMotor motor
            (MotorCall.Move 0 MOVE_TARGET.MOVE_TARGET_ABSOLUTE))
          (afterCall instantEnv (Call.Serial_println
            (Printed.text "Testing Relative Position Moves..."))
            (freshWorld { e := 0, p := 0, inVelocityMove := false }))).trace ∧
      (assertedPositions evs).reverse = [1000, -1000, -11000, -4000, 34000, 31000, 30200] ∧
      AssertsRunningSum evs) ∧
    (assertedPositions
      (loop_relativeFixed instantEnv 1
        (freshWorld { e := 0, p := 0, inVelocityMove := false })).world.trace).reverse
      = [1000, -1000, -11000, -4000, 34000, 31000, 30200] ∧
    (loop_relativeFixed instantEnv 1
      (freshWorld { e := 0, p := 0, inVelocityMove := false })).isReturned = true :=
  ⟨(loop_relativeFixed_expected instantEnv
      (freshWorld { e := 0, p := 0, inVelocityMove := false })).2 instantIdeal 0
      (fun _ _ => ⟨0, Nat.le_refl 0, rfl⟩) 1 (by decide),
   by decide, by decide⟩

end MoveTesting
